import Mathlib

/-! # Memory-registration core of the InfiniBand memory domain (`src/uct/ib/base/ib_md.c`)

A shallow embedding of the registration, deregistration and remote-key codec
functions of `ib_md.c`, and theorems about them.

Conventions of the embedding:

* Machine integers are natural numbers; a conversion to a C type of width `w`
  is written `% 2 ^ w` where the C code performs it.
* A pointer that may be `NULL` is an `Option`; dereferencing `NULL` is
  undefined behaviour and makes the embedded function return `none`.
* Calls that leave the translation unit (verbs, the allocator) are answered
  by an oracle `Extern` whose answers may depend on the whole history of
  calls made so far.  The only mutable state is that history, a
  `List HwCall` in chronological order.
* Preprocessor conditionals are fields of `BuildConfig`.
* Logging (`ucs_trace`, `ucs_error`, `ucs_debug`) and statistics counters
  have no effect on the values studied and are not embedded.
-/

namespace UctIbMd

/-! ## Data model -/

/-- Status codes of `ucs_status_t` that `ib_md.c` produces. -/
inductive ucs_status_t where
  | UCS_OK
  | UCS_ERR_IO_ERROR
  | UCS_ERR_NO_MEMORY
  | UCS_ERR_NO_DEVICE
  | UCS_ERR_UNSUPPORTED
  deriving DecidableEq, Repr

open ucs_status_t

/-- The fields of `struct ibv_mr` that `ib_md.c` reads.  `handle` stands for
the identity of the object the pointer designates. -/
structure ibv_mr where
  handle : Nat
  addr : Nat
  length : Nat
  lkey : Nat
  rkey : Nat
  deriving DecidableEq, Repr

/-- The memory handle `uct_ib_mem_t`: cached local key, direct key `mr`,
indirect key `umr`; both keys are pointers that may be `NULL`. -/
structure uct_ib_mem_t where
  lkey : Nat
  mr : Option ibv_mr
  umr : Option ibv_mr
  deriving DecidableEq, Repr

/-! ## Remote-key codec -/

/-- `uct_ib_mkey_pack` (ib_md.c:607-621).  The result is the status and the
`uint64_t` stored through `rkey_buffer`.  `ib_memh->mr` is dereferenced
unconditionally, so a handle without direct key is undefined behaviour. -/
def uct_ib_mkey_pack (ib_memh : uct_ib_mem_t) : Option (ucs_status_t × Nat) :=
  match ib_memh.mr with
  | none => none
  | some mr =>
    -- *rkey_p = ib_memh->mr->rkey;
    let rkey0 : Nat := mr.rkey % 2 ^ 32
    -- umr_key = ib_memh->umr != NULL ? ib_memh->umr->rkey : ib_memh->mr->rkey;
    let umr_key : Nat :=
      match ib_memh.umr with
      | some umr => umr.rkey % 2 ^ 32
      | none => mr.rkey % 2 ^ 32
    -- *rkey_p |= (((uint64_t)umr_key) << 32);
    some (UCS_OK, rkey0 ||| ((umr_key <<< 32) % 2 ^ 64))

/-- The outputs of `uct_ib_rkey_unpack`: status, `*rkey_p`, `*handle_p`. -/
structure rkey_unpack_out where
  status : ucs_status_t
  rkey : Nat
  handle : Option Nat
  deriving DecidableEq, Repr

/-- `uct_ib_rkey_unpack` (ib_md.c:623-635).  `rkey_buffer` is the 64-bit
value read through the buffer pointer. -/
def uct_ib_rkey_unpack (rkey_buffer : Nat) : rkey_unpack_out :=
  let ib_rkey : Nat := rkey_buffer % 2 ^ 64
  { status := UCS_OK, rkey := ib_rkey, handle := none }

/-! ## Build configuration, constants and external calls -/

/-- The preprocessor symbols that select code in the embedded functions. -/
structure BuildConfig where
  HAVE_EXP_UMR : Bool
  HAVE_EXP_UMR_NEW_API : Bool
  HAVE_DECL_IBV_EXP_REG_MR : Bool
  HAVE_DECL_IBV_EXP_PREFETCH_MR : Bool
  HAVE_DECL_IBV_EXP_ACCESS_ALLOCATE_MR : Bool
  deriving DecidableEq, Repr

/-- Constants and inline helpers that `ib_md.c` takes from headers which are
not part of the sources at hand (`uct.h`, `ib_md.h`, the verbs headers).
They are parameters of the embedding. -/
structure Consts where
  UCT_MD_MEM_FLAG_NONBLOCK : Nat
  IBV_ACCESS_LOCAL_WRITE : Nat
  IBV_ACCESS_REMOTE_WRITE : Nat
  IBV_ACCESS_REMOTE_READ : Nat
  IBV_ACCESS_REMOTE_ATOMIC : Nat
  IBV_EXP_ACCESS_ON_DEMAND : Nat
  IBV_EXP_ACCESS_ALLOCATE_MR : Nat
  IBV_EXP_PREFETCH_WRITE_ACCESS : Nat
  IBV_WC_SUCCESS : Nat
  uct_ib_md_umr_offset : Nat → Nat

/-- Example values for the constants: single bits as in `uct.h` and the verbs
headers, `IBV_WC_SUCCESS` zero, and `uct_ib_md_umr_offset` a fixed multiple
of the engine id.  Used for concrete evaluations only; the general theorems
quantify over `Consts`. -/
def verbsConsts : Consts :=
  { UCT_MD_MEM_FLAG_NONBLOCK := 1
    IBV_ACCESS_LOCAL_WRITE := 1
    IBV_ACCESS_REMOTE_WRITE := 2
    IBV_ACCESS_REMOTE_READ := 4
    IBV_ACCESS_REMOTE_ATOMIC := 8
    IBV_EXP_ACCESS_ON_DEMAND := 2 ^ 46
    IBV_EXP_ACCESS_ALLOCATE_MR := 2 ^ 37
    IBV_EXP_PREFETCH_WRITE_ACCESS := 1
    IBV_WC_SUCCESS := 0
    uct_ib_md_umr_offset := fun umr_id => 8 * umr_id }

/-- `UCT_IB_MEM_ACCESS_FLAGS` (ib_md.c:16-19). -/
def UCT_IB_MEM_ACCESS_FLAGS (c : Consts) : Nat :=
  c.IBV_ACCESS_LOCAL_WRITE ||| c.IBV_ACCESS_REMOTE_WRITE |||
    c.IBV_ACCESS_REMOTE_READ ||| c.IBV_ACCESS_REMOTE_ATOMIC

/-- The functions of `ib_md.c` that occur as entries of an operation table. -/
inductive md_func where
  | uct_ib_md_close
  | uct_ib_md_query
  | uct_ib_mem_alloc
  | uct_ib_mem_free
  | uct_ib_mem_reg
  | uct_ib_mem_dereg
  | uct_ib_mkey_pack
  | uct_ib_mem_rcache_reg
  | uct_ib_mem_rcache_dereg
  deriving DecidableEq, Repr

/-- An operation table `uct_md_ops_t`, with the entries that `ib_md.c` sets. -/
structure uct_md_ops_t where
  close : md_func
  query : md_func
  mem_alloc : md_func
  mem_free : md_func
  mem_reg : md_func
  mem_dereg : md_func
  mkey_pack : md_func
  deriving DecidableEq, Repr

/-- `uct_ib_md_ops` (ib_md.c:639-647). -/
def uct_ib_md_ops : uct_md_ops_t :=
  { close := md_func.uct_ib_md_close
    query := md_func.uct_ib_md_query
    mem_alloc := md_func.uct_ib_mem_alloc
    mem_free := md_func.uct_ib_mem_free
    mem_reg := md_func.uct_ib_mem_reg
    mem_dereg := md_func.uct_ib_mem_dereg
    mkey_pack := md_func.uct_ib_mkey_pack }

/-- `uct_ib_md_rcache_ops` (ib_md.c:682-690). -/
def uct_ib_md_rcache_ops : uct_md_ops_t :=
  { close := md_func.uct_ib_md_close
    query := md_func.uct_ib_md_query
    mem_alloc := md_func.uct_ib_mem_alloc
    mem_free := md_func.uct_ib_mem_free
    mem_reg := md_func.uct_ib_mem_rcache_reg
    mem_dereg := md_func.uct_ib_mem_rcache_dereg
    mkey_pack := md_func.uct_ib_mkey_pack }

/-- A cost model `uct_linear_growth_t`.  The two times are floating-point
values that `ib_md.c` only copies or sets to zero; each is represented by a
natural-number code of its value, `0` for `0.0`. -/
structure uct_linear_growth_t where
  overhead : Nat
  growth : Nat
  deriving DecidableEq, Repr

/-- The fields of `uct_ib_device_t` that `ib_md.c` reads;
`have_contig_pages` is the value of `IBV_EXP_HAVE_CONTIG_PAGES(&dev_attr)`. -/
structure uct_ib_device_t where
  ibv_context : Nat
  exp_device_cap_flags : Nat
  first_port : Nat
  local_cpus : Nat
  have_contig_pages : Bool
  deriving DecidableEq, Repr

/-- The fields of `uct_ib_md_t`.  The two queue handles exist in the C
structure only when `HAVE_EXP_UMR` is set.  The fields from `ops` on are not
read by the registration functions and have default values for the example
domains of the registration theorems. -/
structure uct_ib_md_t where
  pd : Nat
  umr_qp : Option Nat
  umr_cq : Option Nat
  odp_max_size : Nat
  prefetch_mr : Bool
  ops : uct_md_ops_t := uct_ib_md_ops
  rcache : Option Nat := none
  reg_cost : uct_linear_growth_t := { overhead := 0, growth := 0 }
  eth_pause : Bool := false
  stats : Nat := 0
  dev : uct_ib_device_t :=
    { ibv_context := 0, exp_device_cap_flags := 0, first_port := 1, local_cpus := 0,
      have_contig_pages := false }
  deriving DecidableEq, Repr

/-- Argument of `ibv_exp_create_mr` as filled by `uct_ib_md_create_umr`
(ib_md.c:300-311); `max_list` is `max_klm_list_size` resp.
`max_reg_descriptors`. -/
structure ibv_exp_create_mr_in where
  pd : Nat
  indirect_klms : Bool
  access_flags : Nat
  max_list : Nat
  deriving DecidableEq, Repr

/-- The work request posted by `uct_ib_md_create_umr` (ib_md.c:320-349). -/
structure ibv_exp_send_wr where
  mem_reg_base_addr : Nat
  mem_reg_length : Nat
  mem_reg_mr : ibv_mr
  new_api : Bool
  exp_access : Nat
  modified_mr : ibv_mr
  base_addr : Nat
  num : Nat
  deriving DecidableEq, Repr

/-- Argument of `ibv_exp_prefetch_mr` (ib_md.c:447-450). -/
structure ibv_exp_prefetch_attr where
  flags : Nat
  addr : Nat
  length : Nat
  comp_mask : Nat
  deriving DecidableEq, Repr

/-- One call that leaves the translation unit, with its arguments. -/
inductive HwCall where
  | ibv_reg_mr (pd address length access : Nat)
  | ibv_exp_reg_mr (pd address length exp_access : Nat)
  | ibv_exp_create_mr (mrin : ibv_exp_create_mr_in)
  | ibv_exp_post_send (qp : Nat) (wr : ibv_exp_send_wr)
  | ibv_poll_cq (cq : Nat)
  | ibv_dereg_mr (mr : ibv_mr)
  | ibv_exp_prefetch_mr (mr : ibv_mr) (attr : ibv_exp_prefetch_attr)
  | ucs_calloc
  | ucs_free (ptr : Nat)
  deriving DecidableEq, Repr

/-- Answers of the environment.  Every answer may depend on the history of
calls made before it (first argument).  `ibv_poll_cq` answers the return
value together with the `status` of the completion it stores. -/
structure Extern where
  ibv_reg_mr : List HwCall → Nat → Nat → Nat → Nat → Option ibv_mr
  ibv_exp_reg_mr : List HwCall → Nat → Nat → Nat → Nat → Option ibv_mr
  ibv_exp_create_mr : List HwCall → ibv_exp_create_mr_in → Option ibv_mr
  ibv_exp_post_send : List HwCall → Nat → ibv_exp_send_wr → Int
  ibv_poll_cq : List HwCall → Nat → Int × Nat
  ibv_dereg_mr : List HwCall → ibv_mr → Int
  ibv_exp_prefetch_mr : List HwCall → ibv_mr → ibv_exp_prefetch_attr → Int
  ucs_calloc : List HwCall → Option Nat
  getpid : Nat
  ucs_memtrack_adjust_alloc_size : Nat → Nat
  ucs_memtrack_allocated : Nat → Nat → Nat × Nat

/-! ## Access policy and raw registration -/

/-- `uct_ib_md_access_flags` (ib_md.c:425-437). -/
def uct_ib_md_access_flags (c : Consts) (md : uct_ib_md_t) (flags length : Nat) : Nat :=
  let exp_access : Nat := 0
  if (flags &&& c.UCT_MD_MEM_FLAG_NONBLOCK != 0) && decide (length > 0) &&
      decide (length ≤ md.odp_max_size) then
    exp_access ||| c.IBV_EXP_ACCESS_ON_DEMAND
  else
    exp_access

/-- Result of `uct_ib_md_reg_mr`: the status, the value stored through
`mr_p` (`none` when nothing is stored) and the history afterwards. -/
structure reg_mr_out where
  status : ucs_status_t
  mr_p : Option ibv_mr
  log : List HwCall

/-- `uct_ib_md_reg_mr` (ib_md.c:244-280). -/
def uct_ib_md_reg_mr (cfg : BuildConfig) (c : Consts) (hw : Extern) (md : uct_ib_md_t)
    (address length exp_access : Nat) (log : List HwCall) : reg_mr_out :=
  if exp_access != 0 then
    if cfg.HAVE_DECL_IBV_EXP_REG_MR then
      let in_exp_access := UCT_IB_MEM_ACCESS_FLAGS c ||| exp_access
      let log1 := log ++ [HwCall.ibv_exp_reg_mr md.pd address length in_exp_access]
      match hw.ibv_exp_reg_mr log md.pd address length in_exp_access with
      | none => { status := UCS_ERR_IO_ERROR, mr_p := none, log := log1 }
      | some mr => { status := UCS_OK, mr_p := some mr, log := log1 }
    else
      { status := UCS_ERR_UNSUPPORTED, mr_p := none, log := log }
  else
    let log1 := log ++ [HwCall.ibv_reg_mr md.pd address length (UCT_IB_MEM_ACCESS_FLAGS c)]
    match hw.ibv_reg_mr log md.pd address length (UCT_IB_MEM_ACCESS_FLAGS c) with
    | none => { status := UCS_ERR_IO_ERROR, mr_p := none, log := log1 }
    | some mr => { status := UCS_OK, mr_p := some mr, log := log1 }

/-! ## Indirect keys -/

/-- `uct_ib_md_umr_id` (ib_md.c:226-242); the result is a `uint8_t`. -/
def uct_ib_md_umr_id (cfg : BuildConfig) (hw : Extern) (md : uct_ib_md_t) : Nat :=
  if cfg.HAVE_EXP_UMR then
    if md.umr_qp.isNone || md.umr_cq.isNone then 0
    else (hw.getpid % 256) % 2 ^ 8
  else 0

/-- The completion wait of `uct_ib_md_create_umr` (ib_md.c:359-373): `true`
when the loop is left through `break`, `false` when it is left through
`goto err_free_umr`; `none` when `fuel` polls were all empty. -/
def umr_poll (c : Consts) (hw : Extern) (cq : Nat) :
    Nat → List HwCall → Option (Bool × List HwCall)
  | 0, _ => none
  | fuel + 1, log =>
    let ret := (hw.ibv_poll_cq log cq).1
    let wc_status := (hw.ibv_poll_cq log cq).2
    let log1 := log ++ [HwCall.ibv_poll_cq cq]
    if ret < 0 then some (false, log1)
    else if ret = 1 then
      if wc_status ≠ c.IBV_WC_SUCCESS then some (false, log1) else some (true, log1)
    else umr_poll c hw cq fuel log1

/-- `uct_ib_md_create_umr` (ib_md.c:282-385).  The result is the returned
pointer and the history; `none` when the completion wait did not end within
`fuel` polls. -/
def uct_ib_md_create_umr (fuel : Nat) (cfg : BuildConfig) (c : Consts) (hw : Extern)
    (md : uct_ib_md_t) (mr : ibv_mr) (log : List HwCall) :
    Option (Option ibv_mr × List HwCall) :=
  if cfg.HAVE_EXP_UMR then
    match md.umr_qp, md.umr_cq with
    | some qp, some cq =>
      let offset := c.uct_ib_md_umr_offset (uct_ib_md_umr_id cfg hw md)
      let mrin : ibv_exp_create_mr_in :=
        { pd := md.pd, indirect_klms := cfg.HAVE_EXP_UMR_NEW_API,
          access_flags := UCT_IB_MEM_ACCESS_FLAGS c, max_list := 1 }
      let log1 := log ++ [HwCall.ibv_exp_create_mr mrin]
      match hw.ibv_exp_create_mr log mrin with
      | none => some (none, log1)
      | some umr =>
        let wr : ibv_exp_send_wr :=
          { mem_reg_base_addr := mr.addr, mem_reg_length := mr.length, mem_reg_mr := mr,
            new_api := cfg.HAVE_EXP_UMR_NEW_API,
            exp_access := UCT_IB_MEM_ACCESS_FLAGS c, modified_mr := umr,
            base_addr := (mr.addr + offset) % 2 ^ 64, num := 1 }
        let log2 := log1 ++ [HwCall.ibv_exp_post_send qp wr]
        if hw.ibv_exp_post_send log1 qp wr ≠ 0 then
          some (none, log2 ++ [HwCall.ibv_dereg_mr umr])
        else
          match umr_poll c hw cq fuel log2 with
          | none => none
          | some (true, log3) => some (some umr, log3)
          | some (false, log3) => some (none, log3 ++ [HwCall.ibv_dereg_mr umr])
    | _, _ => some (none, log)
  else
    some (none, log)

/-! ## Deregistration -/

/-- `uct_ib_dereg_mr` (ib_md.c:388-399). -/
def uct_ib_dereg_mr (hw : Extern) (mr : ibv_mr) (log : List HwCall) :
    ucs_status_t × List HwCall :=
  let ret := hw.ibv_dereg_mr log mr
  if ret ≠ 0 then (UCS_ERR_IO_ERROR, log ++ [HwCall.ibv_dereg_mr mr])
  else (UCS_OK, log ++ [HwCall.ibv_dereg_mr mr])

/-- `uct_ib_memh_dereg` (ib_md.c:401-413). -/
def uct_ib_memh_dereg (hw : Extern) (memh : uct_ib_mem_t) (log : List HwCall) :
    ucs_status_t × List HwCall :=
  let r2 : ucs_status_t × List HwCall :=
    match memh.umr with
    | some umr => uct_ib_dereg_mr hw umr log
    | none => (UCS_OK, log)
  let r1 : ucs_status_t × List HwCall :=
    match memh.mr with
    | some mr => uct_ib_dereg_mr hw mr r2.2
    | none => (UCS_OK, r2.2)
  (if r1.1 ≠ UCS_OK then r1.1 else r2.1, r1.2)

/-- `uct_ib_memh_free` (ib_md.c:415-418), on the handle object at `ptr`. -/
def uct_ib_memh_free (ptr : Nat) (log : List HwCall) : List HwCall :=
  log ++ [HwCall.ucs_free ptr]

/-- `uct_ib_memh_alloc` (ib_md.c:420-423): the address of a zeroed handle
object, or `NULL`. -/
def uct_ib_memh_alloc (hw : Extern) (log : List HwCall) : Option Nat × List HwCall :=
  (hw.ucs_calloc log, log ++ [HwCall.ucs_calloc])

/-- The contents of a handle object fresh from `ucs_calloc`. -/
def memh_zero : uct_ib_mem_t := { lkey := 0, mr := none, umr := none }

/-- `uct_ib_mem_dereg_internal` (ib_md.c:592-595). -/
def uct_ib_mem_dereg_internal (hw : Extern) (memh : uct_ib_mem_t) (log : List HwCall) :
    ucs_status_t × List HwCall :=
  uct_ib_memh_dereg hw memh log

/-- `uct_ib_mem_dereg` (ib_md.c:597-605) on the handle object at `ptr` with
contents `memh`. -/
def uct_ib_mem_dereg (hw : Extern) (ptr : Nat) (memh : uct_ib_mem_t) (log : List HwCall) :
    ucs_status_t × List HwCall :=
  let r := uct_ib_mem_dereg_internal hw memh log
  (r.1, uct_ib_memh_free ptr r.2)

/-- `uct_ib_mem_free` (ib_md.c:521-535) on the handle object at `ptr` with
contents `memh`.  The argument of `ucs_memtrack_releasing_adjusted`
dereferences `ib_memh->mr`. -/
def uct_ib_mem_free (hw : Extern) (ptr : Nat) (memh : uct_ib_mem_t) (log : List HwCall) :
    Option (ucs_status_t × List HwCall) :=
  match memh.mr with
  | none => none
  | some _ =>
    let r := uct_ib_memh_dereg hw memh log
    if r.1 ≠ UCS_OK then some (r.1, r.2)
    else some (UCS_OK, uct_ib_memh_free ptr r.2)

/-! ## Registration and allocation -/

/-- `uct_ib_mem_prefetch` (ib_md.c:439-462); `none` when `memh->mr` is
dereferenced while `NULL`. -/
def uct_ib_mem_prefetch (cfg : BuildConfig) (c : Consts) (hw : Extern) (md : uct_ib_md_t)
    (memh : uct_ib_mem_t) (mr_access_flags : Nat) (log : List HwCall) :
    Option (ucs_status_t × List HwCall) :=
  if cfg.HAVE_DECL_IBV_EXP_PREFETCH_MR then
    if (mr_access_flags &&& c.IBV_EXP_ACCESS_ON_DEMAND != 0) && md.prefetch_mr then
      match memh.mr with
      | none => none
      | some mr =>
        let attr : ibv_exp_prefetch_attr :=
          { flags := c.IBV_EXP_PREFETCH_WRITE_ACCESS, addr := mr.addr,
            length := mr.length, comp_mask := 0 }
        let ret := hw.ibv_exp_prefetch_mr log mr attr
        let log1 := log ++ [HwCall.ibv_exp_prefetch_mr mr attr]
        if ret ≠ 0 then some (UCS_ERR_IO_ERROR, log1) else some (UCS_OK, log1)
    else some (UCS_OK, log)
  else some (UCS_OK, log)

/-- Result of `uct_ib_mem_reg_internal`: the status, the contents of the
caller's handle object afterwards, and the history. -/
structure reg_internal_out where
  status : ucs_status_t
  memh : uct_ib_mem_t
  log : List HwCall

/-- `uct_ib_mem_reg_internal` (ib_md.c:537-569); `memh` is the contents of
the caller's handle object on entry. -/
def uct_ib_mem_reg_internal (fuel : Nat) (cfg : BuildConfig) (c : Consts) (hw : Extern)
    (md : uct_ib_md_t) (address length flags : Nat) (memh : uct_ib_mem_t)
    (log : List HwCall) : Option reg_internal_out :=
  let exp_access := uct_ib_md_access_flags c md flags length
  let r := uct_ib_md_reg_mr cfg c hw md address length exp_access log
  -- the store through &memh->mr
  let memh1 : uct_ib_mem_t :=
    match r.mr_p with
    | some mr => { memh with mr := some mr }
    | none => memh
  if r.status ≠ UCS_OK then
    some { status := r.status, memh := memh1, log := r.log }
  else
    match memh1.mr with
    | none => none
    | some mr =>
      let memh2 : uct_ib_mem_t := { memh1 with lkey := mr.lkey }
      match uct_ib_md_create_umr fuel cfg c hw md mr r.log with
      | none => none
      | some (umr, log2) =>
        let memh3 : uct_ib_mem_t := { memh2 with umr := umr }
        if cfg.HAVE_EXP_UMR && (memh3.umr.isNone && md.umr_qp.isSome) then
          some { status := UCS_ERR_IO_ERROR, memh := memh3,
                 log := log2 ++ [HwCall.ibv_dereg_mr mr] }
        else
          match uct_ib_mem_prefetch cfg c hw md memh3 exp_access log2 with
          | none => none
          | some (_, log3) => some { status := UCS_OK, memh := memh3, log := log3 }

/-- Result of `uct_ib_mem_reg`: the status, the value stored through
`memh_p` (address and contents of the handle object; `none` when nothing is
stored) and the history. -/
structure mem_reg_out where
  status : ucs_status_t
  memh_p : Option (Nat × uct_ib_mem_t)
  log : List HwCall

/-- `uct_ib_mem_reg` (ib_md.c:571-590). -/
def uct_ib_mem_reg (fuel : Nat) (cfg : BuildConfig) (c : Consts) (hw : Extern)
    (md : uct_ib_md_t) (address length flags : Nat) (log : List HwCall) :
    Option mem_reg_out :=
  match uct_ib_memh_alloc hw log with
  | (none, log0) => some { status := UCS_ERR_NO_MEMORY, memh_p := none, log := log0 }
  | (some ptr, log0) =>
    match uct_ib_mem_reg_internal fuel cfg c hw md address length flags memh_zero log0 with
    | none => none
    | some r =>
      if r.status ≠ UCS_OK then
        some { status := r.status, memh_p := none, log := uct_ib_memh_free ptr r.log }
      else
        some { status := UCS_OK, memh_p := some (ptr, r.memh), log := r.log }

/-- Result of `uct_ib_mem_alloc`: the status, the values stored through
`address_p`, `length_p` and `memh_p` (`none` when nothing is stored) and the
history. -/
structure mem_alloc_out where
  status : ucs_status_t
  address_p : Option Nat
  length_p : Option Nat
  memh_p : Option (Nat × uct_ib_mem_t)
  log : List HwCall

/-- `uct_ib_mem_alloc` (ib_md.c:464-519); `length_in` is `*length_p` on
entry. -/
def uct_ib_mem_alloc (fuel : Nat) (cfg : BuildConfig) (c : Consts) (hw : Extern)
    (md : uct_ib_md_t) (length_in flags : Nat) (log : List HwCall) :
    Option mem_alloc_out :=
  if cfg.HAVE_DECL_IBV_EXP_ACCESS_ALLOCATE_MR then
    match uct_ib_memh_alloc hw log with
    | (none, log0) =>
      some { status := UCS_ERR_NO_MEMORY, address_p := none, length_p := none,
             memh_p := none, log := log0 }
    | (some ptr, log0) =>
      let length := hw.ucs_memtrack_adjust_alloc_size length_in
      let exp_access :=
        uct_ib_md_access_flags c md flags length ||| c.IBV_EXP_ACCESS_ALLOCATE_MR
      let r := uct_ib_md_reg_mr cfg c hw md 0 length exp_access log0
      let memh1 : uct_ib_mem_t :=
        match r.mr_p with
        | some mr => { memh_zero with mr := some mr }
        | none => memh_zero
      if r.status ≠ UCS_OK then
        some { status := r.status, address_p := none, length_p := none,
               memh_p := none, log := uct_ib_memh_free ptr r.log }
      else
        match memh1.mr with
        | none => none
        | some mr =>
          let memh2 : uct_ib_mem_t := { memh1 with lkey := mr.lkey }
          match uct_ib_md_create_umr fuel cfg c hw md mr r.log with
          | none => none
          | some (umr, log2) =>
            let memh3 : uct_ib_mem_t := { memh2 with umr := umr }
            if cfg.HAVE_EXP_UMR && (memh3.umr.isNone && md.umr_qp.isSome) then
              some { status := UCS_ERR_IO_ERROR, address_p := none, length_p := none,
                     memh_p := none,
                     log := uct_ib_memh_free ptr (log2 ++ [HwCall.ibv_dereg_mr mr]) }
            else
              match uct_ib_mem_prefetch cfg c hw md memh3 exp_access log2 with
              | none => none
              | some (_, log3) =>
                let out := hw.ucs_memtrack_allocated mr.addr mr.length
                some { status := UCS_OK, address_p := some out.1, length_p := some out.2,
                       memh_p := some (ptr, memh3), log := log3 }
  else
    some { status := UCS_ERR_UNSUPPORTED, address_p := none, length_p := none,
           memh_p := none, log := log }

/-- The indirect-key engine of a domain is active: the build has the two
queue handles and both are set. -/
def engine_active (cfg : BuildConfig) (md : uct_ib_md_t) : Prop :=
  cfg.HAVE_EXP_UMR = true ∧ md.umr_qp ≠ none ∧ md.umr_cq ≠ none

/-- A flag word includes the bits of `bit`. -/
def has_flag (x bit : Nat) : Prop := x &&& bit ≠ 0

instance (x bit : Nat) : Decidable (has_flag x bit) := by
  unfold has_flag; infer_instance

/-- The rkey that `uct_ib_mkey_pack` places in the high half. -/
def high_rkey (h : uct_ib_mem_t) (mr : ibv_mr) : Nat :=
  match h.umr with
  | some umr => umr.rkey
  | none => mr.rkey

/-- The statuses of the key releases that `uct_ib_memh_dereg` performs, in
the order in which it performs them: the indirect key's, then the direct
key's. -/
def release_statuses (hw : Extern) (memh : uct_ib_mem_t) (log : List HwCall) :
    List ucs_status_t :=
  let log1 := log ++ memh.umr.toList.map HwCall.ibv_dereg_mr
  (memh.umr.toList.map fun umr => (uct_ib_dereg_mr hw umr log).1) ++
    (memh.mr.toList.map fun mr => (uct_ib_dereg_mr hw mr log1).1)

/-- The first status of a list that is not `UCS_OK`; `UCS_OK` when there is
none. -/
def first_error : List ucs_status_t → ucs_status_t
  | [] => UCS_OK
  | s :: rest => if s ≠ UCS_OK then s else first_error rest

/-- The calls by which `uct_ib_md_create_umr` builds an indirect key. -/
def is_umr_call : HwCall → Bool
  | HwCall.ibv_exp_create_mr _ => true
  | HwCall.ibv_exp_post_send _ _ => true
  | HwCall.ibv_poll_cq _ => true
  | _ => false

/-- The argument with which `uct_ib_md_create_umr` calls `ibv_exp_create_mr`. -/
def umr_mrin (cfg : BuildConfig) (c : Consts) (md : uct_ib_md_t) : ibv_exp_create_mr_in :=
  { pd := md.pd, indirect_klms := cfg.HAVE_EXP_UMR_NEW_API,
    access_flags := UCT_IB_MEM_ACCESS_FLAGS c, max_list := 1 }

/-! ## Concrete inputs -/

/-- A build with every optional verbs feature. -/
def cfgFull : BuildConfig :=
  { HAVE_EXP_UMR := true, HAVE_EXP_UMR_NEW_API := true, HAVE_DECL_IBV_EXP_REG_MR := true,
    HAVE_DECL_IBV_EXP_PREFETCH_MR := true, HAVE_DECL_IBV_EXP_ACCESS_ALLOCATE_MR := true }

/-- A build against plain verbs, without the experimental interface. -/
def cfgPlain : BuildConfig :=
  { HAVE_EXP_UMR := false, HAVE_EXP_UMR_NEW_API := false, HAVE_DECL_IBV_EXP_REG_MR := false,
    HAVE_DECL_IBV_EXP_PREFETCH_MR := false, HAVE_DECL_IBV_EXP_ACCESS_ALLOCATE_MR := false }

/-- An example direct key. -/
def mr0 : ibv_mr :=
  { handle := 1, addr := 4096, length := 8192, lkey := 17, rkey := 0xdeadbeef }

/-- An example indirect key. -/
def umr0 : ibv_mr :=
  { handle := 2, addr := 4096, length := 8192, lkey := 18, rkey := 0x12345678 }

/-- An example handle with both keys. -/
def memh_both : uct_ib_mem_t := { lkey := 17, mr := some mr0, umr := some umr0 }

/-- An example handle without indirect key. -/
def memh_direct : uct_ib_mem_t := { lkey := 17, mr := some mr0, umr := none }

/-- A domain whose indirect-key engine is inactive. -/
def mdInactive : uct_ib_md_t :=
  { pd := 7, umr_qp := none, umr_cq := none, odp_max_size := 4096, prefetch_mr := true }

/-- A domain whose indirect-key engine is active. -/
def mdActive : uct_ib_md_t :=
  { pd := 7, umr_qp := some 3, umr_cq := some 4, odp_max_size := 4096, prefetch_mr := true }

/-- An environment in which every call succeeds: registrations answer `mr0`,
key creation answers `umr0`, the first poll finds a successful completion. -/
def hwOk : Extern :=
  { ibv_reg_mr := fun _ _ _ _ _ => some mr0
    ibv_exp_reg_mr := fun _ _ _ _ _ => some mr0
    ibv_exp_create_mr := fun _ _ => some umr0
    ibv_exp_post_send := fun _ _ _ => 0
    ibv_poll_cq := fun _ _ => (1, 0)
    ibv_dereg_mr := fun _ _ => 0
    ibv_exp_prefetch_mr := fun _ _ _ => 0
    ucs_calloc := fun _ => some 1000
    getpid := 4242
    ucs_memtrack_adjust_alloc_size := fun n => n
    ucs_memtrack_allocated := fun a n => (a, n) }

/-- As `hwOk`, but every `ibv_dereg_mr` fails. -/
def hwDeregFail : Extern := { hwOk with ibv_dereg_mr := fun _ _ => -1 }

/-- As `hwOk`, but the completion found by the poll has a failure status. -/
def hwWcError : Extern := { hwOk with ibv_poll_cq := fun _ _ => (1, 5) }

/-- As `hwOk`, but registrations fail. -/
def hwRegFail : Extern :=
  { hwOk with ibv_reg_mr := fun _ _ _ _ _ => none, ibv_exp_reg_mr := fun _ _ _ _ _ => none }

/-- The history after `uct_ib_md_create_umr` fails on a completion with
failure status, in `mdActive` on the direct key `mr0`, following the handle
allocation and the baseline registration. -/
def log_wc_error : List HwCall :=
  [ HwCall.ucs_calloc,
    HwCall.ibv_reg_mr 7 4096 8192 15,
    HwCall.ibv_exp_create_mr
      { pd := 7, indirect_klms := true, access_flags := 15, max_list := 1 },
    HwCall.ibv_exp_post_send 3
      { mem_reg_base_addr := 4096, mem_reg_length := 8192, mem_reg_mr := mr0,
        new_api := true, exp_access := 15, modified_mr := umr0,
        base_addr := 4096 + 8 * (4242 % 256), num := 1 },
    HwCall.ibv_poll_cq 4,
    HwCall.ibv_dereg_mr umr0 ]

/-- The answer to the poll number `k` (counted from 0) of a completion wait
that starts with the history `log` and found nothing to stop at before. -/
def poll_answer (hw : Extern) (cq : Nat) (log : List HwCall) (k : Nat) : Int × Nat :=
  hw.ibv_poll_cq (log ++ List.replicate k (HwCall.ibv_poll_cq cq)) cq

/-- The work request that `uct_ib_md_create_umr` posts for the direct key `mr`
and the new key `umr` (ib_md.c:320-349). -/
def umr_wr (cfg : BuildConfig) (c : Consts) (hw : Extern) (md : uct_ib_md_t)
    (mr umr : ibv_mr) : ibv_exp_send_wr :=
  { mem_reg_base_addr := mr.addr, mem_reg_length := mr.length, mem_reg_mr := mr,
    new_api := cfg.HAVE_EXP_UMR_NEW_API,
    exp_access := UCT_IB_MEM_ACCESS_FLAGS c, modified_mr := umr,
    base_addr := (mr.addr + c.uct_ib_md_umr_offset (uct_ib_md_umr_id cfg hw md)) % 2 ^ 64,
    num := 1 }

/-- As `hwOk`, but the first two polls of the completion queue are empty. -/
def hwSlow : Extern :=
  { hwOk with
    ibv_poll_cq := fun log cq =>
      if log.count (HwCall.ibv_poll_cq cq) < 2 then (0, 0) else (1, 0) }

/-- As `hwOk`, but the work request cannot be posted. -/
def hwPostFail : Extern := { hwOk with ibv_exp_post_send := fun _ _ _ => 12 }

/-! ## Opening a domain -/

/-- The values of `ucs_ternary_value_t` that the configuration parser
produces. -/
inductive ucs_ternary_value_t where
  | UCS_NO
  | UCS_YES
  | UCS_TRY
  deriving DecidableEq, Repr

open ucs_ternary_value_t

/-- The fields of `uct_ib_md_config_t` (ib_md.c:21-61); `rcache_*` are the
fields of its member `rcache`. -/
structure uct_ib_md_config_t where
  rcache_enable : ucs_ternary_value_t
  rcache_event_prio : Nat
  rcache_overhead : Nat
  uc_reg_cost : uct_linear_growth_t
  fork_init : ucs_ternary_value_t
  eth_pause : Bool
  odp_max_size : Nat
  prefetch_mr : Bool
  deriving DecidableEq, Repr

/-- Constants that the domain functions take from headers which are not part
of the sources at hand.  They are parameters of the embedding. -/
structure MdConsts where
  UCT_MD_NAME_MAX : Nat
  UCS_CONFIG_MEMUNITS_AUTO : Nat
  IBV_EXP_DEVICE_UMR : Nat
  UCT_MD_FLAG_REG : Nat
  UCT_MD_FLAG_ALLOC : Nat
  ULONG_MAX : Nat

/-- Example values for the domain constants.  Used for concrete evaluations
only. -/
def mdConsts : MdConsts :=
  { UCT_MD_NAME_MAX := 16
    UCS_CONFIG_MEMUNITS_AUTO := 2 ^ 64 - 2
    IBV_EXP_DEVICE_UMR := 2 ^ 41
    UCT_MD_FLAG_REG := 2
    UCT_MD_FLAG_ALLOC := 1
    ULONG_MAX := 2 ^ 64 - 1 }

/-- The field of `struct ibv_device` that `ib_md.c` reads: its name, without
the terminating zero. -/
structure ibv_device where
  name : List Char
  deriving DecidableEq, Repr

/-- The states of a queue pair that `uct_ib_md_umr_qp_create` names, and the
reset state, which is the zero of `memset`. -/
inductive ibv_qp_state where
  | IBV_QPS_RESET
  | IBV_QPS_INIT
  | IBV_QPS_RTR
  | IBV_QPS_RTS
  deriving DecidableEq, Repr

/-- The fields of `struct ibv_qp_attr` that `uct_ib_md_umr_qp_create` sets
(ib_md.c:149-192); `ah_*` are the fields of its member `ah_attr`, and
`path_mtu_512` says that `path_mtu` is `IBV_MTU_512`. -/
structure ibv_qp_attr where
  qp_state : ibv_qp_state
  pkey_index : Nat
  port_num : Nat
  qp_access_flags : Nat
  dest_qp_num : Nat
  ah_port_num : Nat
  ah_dlid : Nat
  ah_is_global : Nat
  ah_dgid : Nat
  rq_psn : Nat
  path_mtu_512 : Bool
  min_rnr_timer : Nat
  max_dest_rd_atomic : Nat
  sq_psn : Nat
  timeout : Nat
  rnr_retry : Nat
  retry_cnt : Nat
  max_rd_atomic : Nat
  deriving DecidableEq, Repr

/-- The fields of `ucs_rcache_params_t` that depend on the call
(ib_md.c:880-883): the event priority and the context, which is the domain
object. -/
structure ucs_rcache_params_t where
  ucm_event_priority : Nat
  context : Nat
  deriving DecidableEq, Repr

/-- One call made while a domain is opened, with its arguments and with the
answer it got. -/
inductive OpenCall where
  | ibv_get_device_list (result : Option (List ibv_device))
  | ibv_free_device_list
  | ucs_malloc (result : Option Nat)
  | ucs_free (ptr : Nat)
  | stats_node_alloc (status : ucs_status_t) (node : Nat)
  | stats_node_free (node : Nat)
  | ibv_fork_init (ret : Int)
  | pthread_atfork (ret : Int)
  | uct_ib_device_init (ib_device : ibv_device) (status : ucs_status_t)
      (dev : uct_ib_device_t)
  | uct_ib_device_cleanup (dev : uct_ib_device_t)
  | ibv_alloc_pd (context : Nat) (result : Option Nat)
  | ibv_dealloc_pd (pd : Nat)
  | ucs_rcache_create (params : ucs_rcache_params_t) (status : ucs_status_t)
      (rcache : Option Nat)
  | ibv_create_cq (context : Nat) (result : Option Nat)
  | ibv_exp_create_qp (context pd cq : Nat) (result : Option Nat)
  | ibv_modify_qp (qp : Nat) (attr : ibv_qp_attr) (ret : Int)
  | uct_ib_device_query_gid (port_num : Nat) (status : ucs_status_t)
  | ibv_destroy_qp (qp : Nat)
  | ibv_destroy_cq (cq : Nat)
  deriving DecidableEq, Repr

/-- Answers of the environment while a domain is opened.  Every answer may
depend on the history of calls made before it (first argument).
`uninit_umr_qp` and `uninit_umr_cq` are what the two queue handles hold in
the memory that `ucs_malloc` returns; `qp_num` reads `qp->qp_num` and
`port_lid` reads `uct_ib_device_port_attr(dev, port)->lid`. -/
structure OpenEnv where
  ibv_get_device_list : List OpenCall → Option (List ibv_device)
  ucs_malloc : List OpenCall → Option Nat
  uninit_umr_qp : Option Nat
  uninit_umr_cq : Option Nat
  stats_node_alloc : List OpenCall → ucs_status_t × Nat
  ibv_fork_init : List OpenCall → Int
  pthread_atfork : List OpenCall → Int
  uct_ib_device_init : List OpenCall → ibv_device → ucs_status_t × uct_ib_device_t
  ibv_alloc_pd : List OpenCall → Nat → Option Nat
  ucs_rcache_create : List OpenCall → ucs_rcache_params_t → ucs_status_t × Option Nat
  uct_ib_device_odp_max_size : uct_ib_device_t → Nat
  ibv_create_cq : List OpenCall → Nat → Option Nat
  ibv_exp_create_qp : List OpenCall → Nat → Nat → Nat → Option Nat
  qp_num : Nat → Nat
  port_lid : uct_ib_device_t → Nat → Nat
  ibv_modify_qp : List OpenCall → Nat → ibv_qp_attr → Int
  uct_ib_device_query_gid : List OpenCall → uct_ib_device_t → Nat → ucs_status_t × Nat

/-- The capabilities that `uct_ib_md_query` reports. -/
structure uct_md_attr_t where
  max_alloc : Nat
  max_reg : Nat
  flags : Nat
  rkey_packed_size : Nat
  reg_cost : uct_linear_growth_t
  local_cpus : Nat
  deriving DecidableEq, Repr

/-- `uct_ib_md_query` (ib_md.c:74-90). -/
def uct_ib_md_query (k : MdConsts) (md : uct_ib_md_t) : ucs_status_t × uct_md_attr_t :=
  let flags := k.UCT_MD_FLAG_REG
  let flags := if md.dev.have_contig_pages then flags ||| k.UCT_MD_FLAG_ALLOC else flags
  (UCS_OK,
    { max_alloc := k.ULONG_MAX, max_reg := k.ULONG_MAX, flags := flags,
      rkey_packed_size := 8, reg_cost := md.reg_cost, local_cpus := md.dev.local_cpus })

/-- Result of `uct_ib_md_umr_qp_create`: the status, the domain object
afterwards and the history. -/
structure umr_qp_create_out where
  status : ucs_status_t
  md : uct_ib_md_t
  log : List OpenCall

/-- The labels `err_destroy_cq` and `err` of `uct_ib_md_umr_qp_create`
(ib_md.c:205-208). -/
def umr_err_destroy_cq (md : uct_ib_md_t) (cq : Nat) (log : List OpenCall) :
    umr_qp_create_out :=
  { status := UCS_ERR_IO_ERROR, md := md, log := log ++ [OpenCall.ibv_destroy_cq cq] }

/-- The label `err_destroy_qp` of `uct_ib_md_umr_qp_create` (ib_md.c:203-204),
falling through to `err_destroy_cq`. -/
def umr_err_destroy_qp (md : uct_ib_md_t) (qp cq : Nat) (log : List OpenCall) :
    umr_qp_create_out :=
  umr_err_destroy_cq md cq (log ++ [OpenCall.ibv_destroy_qp qp])

/-- The attributes of the transition to INIT (ib_md.c:149-155). -/
def umr_attr_init (c : Consts) (port_num : Nat) : ibv_qp_attr :=
  { qp_state := ibv_qp_state.IBV_QPS_INIT, pkey_index := 0, port_num := port_num,
    qp_access_flags := UCT_IB_MEM_ACCESS_FLAGS c, dest_qp_num := 0, ah_port_num := 0,
    ah_dlid := 0, ah_is_global := 0, ah_dgid := 0, rq_psn := 0, path_mtu_512 := false,
    min_rnr_timer := 0, max_dest_rd_atomic := 0, sq_psn := 0, timeout := 0,
    rnr_retry := 0, retry_cnt := 0, max_rd_atomic := 0 }

/-- The attributes of the transition to ready-to-receive (ib_md.c:164-177). -/
def umr_attr_rtr (c : Consts) (port_num dest_qp_num dlid dgid : Nat) : ibv_qp_attr :=
  { umr_attr_init c port_num with
    qp_state := ibv_qp_state.IBV_QPS_RTR, dest_qp_num := dest_qp_num,
    ah_port_num := port_num, ah_dlid := dlid, ah_is_global := 1, ah_dgid := dgid,
    rq_psn := 0, path_mtu_512 := true, min_rnr_timer := 7, max_dest_rd_atomic := 1 }

/-- The attributes of the transition to ready-to-send (ib_md.c:187-192). -/
def umr_attr_rts (c : Consts) (port_num dest_qp_num dlid dgid : Nat) : ibv_qp_attr :=
  { umr_attr_rtr c port_num dest_qp_num dlid dgid with
    qp_state := ibv_qp_state.IBV_QPS_RTS, sq_psn := 0, timeout := 7, rnr_retry := 7,
    retry_cnt := 7, max_rd_atomic := 1 }

/-- `uct_ib_md_umr_qp_create` (ib_md.c:92-212).  Of the creation attributes
of the queue pair the event records the context, the protection domain and
the completion queue; the others are constants and device attributes. -/
def uct_ib_md_umr_qp_create (cfg : BuildConfig) (c : Consts) (k : MdConsts) (env : OpenEnv)
    (md : uct_ib_md_t) (log : List OpenCall) : umr_qp_create_out :=
  if cfg.HAVE_EXP_UMR then
    if md.dev.exp_device_cap_flags &&& k.IBV_EXP_DEVICE_UMR == 0 then
      { status := UCS_ERR_UNSUPPORTED, md := md, log := log }
    else
      let port_num := md.dev.first_port
      let port_lid := env.port_lid md.dev port_num
      let cq_r := env.ibv_create_cq log md.dev.ibv_context
      let log1 := log ++ [OpenCall.ibv_create_cq md.dev.ibv_context cq_r]
      let md1 : uct_ib_md_t := { md with umr_cq := cq_r }
      match cq_r with
      | none => { status := UCS_ERR_IO_ERROR, md := md1, log := log1 }
      | some cq =>
        let qp_r := env.ibv_exp_create_qp log1 md.dev.ibv_context md.pd cq
        let log2 := log1 ++ [OpenCall.ibv_exp_create_qp md.dev.ibv_context md.pd cq qp_r]
        let md2 : uct_ib_md_t := { md1 with umr_qp := qp_r }
        match qp_r with
        | none => umr_err_destroy_cq md2 cq log2
        | some qp =>
          let a1 := umr_attr_init c port_num
          let ret1 := env.ibv_modify_qp log2 qp a1
          let log3 := log2 ++ [OpenCall.ibv_modify_qp qp a1 ret1]
          if ret1 ≠ 0 then umr_err_destroy_qp md2 qp cq log3
          else
            let gid := env.uct_ib_device_query_gid log3 md.dev port_num
            let log4 := log3 ++ [OpenCall.uct_ib_device_query_gid port_num gid.1]
            if gid.1 ≠ UCS_OK then umr_err_destroy_qp md2 qp cq log4
            else
              let a2 := umr_attr_rtr c port_num (env.qp_num qp) port_lid gid.2
              let ret2 := env.ibv_modify_qp log4 qp a2
              let log5 := log4 ++ [OpenCall.ibv_modify_qp qp a2 ret2]
              if ret2 ≠ 0 then umr_err_destroy_qp md2 qp cq log5
              else
                let a3 := umr_attr_rts c port_num (env.qp_num qp) port_lid gid.2
                let ret3 := env.ibv_modify_qp log5 qp a3
                let log6 := log5 ++ [OpenCall.ibv_modify_qp qp a3 ret3]
                if ret3 ≠ 0 then umr_err_destroy_qp md2 qp cq log6
                else { status := UCS_OK, md := md2, log := log6 }
  else
    { status := UCS_ERR_UNSUPPORTED, md := md, log := log }

/-- `UCT_IB_MD_PREFIX` (ib_md.c:15). -/
def UCT_IB_MD_PREFIX : List Char := ['i', 'b']

/-- `uct_ib_make_md_name` (ib_md.c:739-742): `snprintf` keeps at most
`UCT_MD_NAME_MAX - 1` characters. -/
def uct_ib_make_md_name (k : MdConsts) (device : ibv_device) : List Char :=
  (UCT_IB_MD_PREFIX ++ ['/'] ++ device.name).take (k.UCT_MD_NAME_MAX - 1)

/-- `uct_ib_fork_warn_enable` (ib_md.c:785-798); `enabled` is its static
variable, and the result is that variable afterwards with the history. -/
def uct_ib_fork_warn_enable (env : OpenEnv) (enabled : Nat) (log : List OpenCall) :
    Nat × List OpenCall :=
  -- ucs_atomic_cswap32(&enabled, 0, 1) answers the old value
  if enabled ≠ 0 then (enabled, log)
  else (1, log ++ [OpenCall.pthread_atfork (env.pthread_atfork log)])

/-- Result of `uct_ib_md_open`: the status, the value stored through `md_p`
(address and contents of the domain object; `none` when nothing is stored),
the history, and the static variable of `uct_ib_fork_warn_enable`. -/
structure md_open_out where
  status : ucs_status_t
  md_p : Option (Nat × uct_ib_md_t)
  log : List OpenCall
  fork_warn_enabled : Nat

/-- The label `out_free_dev_list` of `uct_ib_md_open` (ib_md.c:919-920). -/
def out_free_dev_list (log : List OpenCall) : List OpenCall :=
  log ++ [OpenCall.ibv_free_device_list]

/-- The label `err_free_md` (ib_md.c:930-932). -/
def err_free_md (ptr : Nat) (log : List OpenCall) : List OpenCall :=
  out_free_dev_list (log ++ [OpenCall.ucs_free ptr])

/-- The label `err_release_stats` (ib_md.c:928-929), falling through. -/
def err_release_stats (stats ptr : Nat) (log : List OpenCall) : List OpenCall :=
  err_free_md ptr (log ++ [OpenCall.stats_node_free stats])

/-- The label `err_cleanup_device` (ib_md.c:926-927), falling through. -/
def err_cleanup_device (dev : uct_ib_device_t) (stats ptr : Nat) (log : List OpenCall) :
    List OpenCall :=
  err_release_stats stats ptr (log ++ [OpenCall.uct_ib_device_cleanup dev])

/-- The label `err_dealloc_pd` (ib_md.c:924-925), falling through. -/
def err_dealloc_pd (pd : Nat) (dev : uct_ib_device_t) (stats ptr : Nat)
    (log : List OpenCall) : List OpenCall :=
  err_cleanup_device dev stats ptr (log ++ [OpenCall.ibv_dealloc_pd pd])

/-- The domain object of `uct_ib_md_open` once the protection domain is
allocated and the fields that do not depend on the cache and on the engine
are assigned (ib_md.c:838-839, 874-877, 903-907); the two queue handles hold
what the fresh memory held. -/
def md_open_md (cfg : BuildConfig) (k : MdConsts) (env : OpenEnv)
    (md_config : uct_ib_md_config_t) (stats : Nat) (dev : uct_ib_device_t) (pd : Nat) :
    uct_ib_md_t :=
  { pd := pd
    umr_qp := if cfg.HAVE_EXP_UMR then env.uninit_umr_qp else none
    umr_cq := if cfg.HAVE_EXP_UMR then env.uninit_umr_cq else none
    odp_max_size :=
      if md_config.odp_max_size = k.UCS_CONFIG_MEMUNITS_AUTO then
        env.uct_ib_device_odp_max_size dev
      else md_config.odp_max_size
    prefetch_mr := md_config.prefetch_mr
    ops := uct_ib_md_ops
    rcache := none
    reg_cost := md_config.uc_reg_cost
    eth_pause := md_config.eth_pause
    stats := stats
    dev := dev }

/-- The end of `uct_ib_md_open` (ib_md.c:909-922): the setup of the
indirect-key engine, the store through `md_p` and the release of the device
list, for the domain object at `ptr` with contents `md`. -/
def md_open_umr (cfg : BuildConfig) (c : Consts) (k : MdConsts) (env : OpenEnv)
    (ptr : Nat) (enabled : Nat) (md : uct_ib_md_t) (log : List OpenCall) : md_open_out :=
  let u := uct_ib_md_umr_qp_create cfg c k env md log
  let md3 : uct_ib_md_t :=
    if u.status ≠ UCS_OK then
      if cfg.HAVE_EXP_UMR then { u.md with umr_qp := none, umr_cq := none } else u.md
    else u.md
  { status := UCS_OK, md_p := some (ptr, md3), log := out_free_dev_list u.log,
    fork_warn_enabled := enabled }

/-- `uct_ib_md_open` from the assignment of `md->eth_pause` on
(ib_md.c:874-907), continued by `md_open_umr`, for the domain object at
`ptr` with statistics node `stats`, device `dev` and protection domain
`pd`. -/
def md_open_finish (cfg : BuildConfig) (c : Consts) (k : MdConsts) (env : OpenEnv)
    (md_config : uct_ib_md_config_t) (ptr stats : Nat) (dev : uct_ib_device_t) (pd : Nat)
    (enabled : Nat) (log : List OpenCall) : md_open_out :=
  let md1 := md_open_md cfg k env md_config stats dev pd
  if md_config.rcache_enable ≠ UCS_NO then
    let rcache_params : ucs_rcache_params_t :=
      { ucm_event_priority := md_config.rcache_event_prio, context := ptr }
    let rc := env.ucs_rcache_create log rcache_params
    let log1 := log ++ [OpenCall.ucs_rcache_create rcache_params rc.1 rc.2]
    if rc.1 = UCS_OK then
      md_open_umr cfg c k env ptr enabled
        { md1 with
          rcache := rc.2, ops := uct_ib_md_rcache_ops,
          reg_cost := { overhead := md_config.rcache_overhead, growth := 0 } } log1
    else if md_config.rcache_enable = UCS_YES then
      { status := rc.1, md_p := none, log := err_dealloc_pd pd dev stats ptr log1,
        fork_warn_enabled := enabled }
    else
      md_open_umr cfg c k env ptr enabled { md1 with rcache := rc.2 } log1
  else
    md_open_umr cfg c k env ptr enabled md1 log

/-- `uct_ib_md_open` from the call of `uct_ib_device_init` on
(ib_md.c:861-872), continued by `md_open_finish`. -/
def md_open_device (cfg : BuildConfig) (c : Consts) (k : MdConsts) (env : OpenEnv)
    (md_config : uct_ib_md_config_t) (ib_device : ibv_device) (ptr stats : Nat)
    (enabled : Nat) (log : List OpenCall) : md_open_out :=
  let di := env.uct_ib_device_init log ib_device
  let log1 := log ++ [OpenCall.uct_ib_device_init ib_device di.1 di.2]
  if di.1 ≠ UCS_OK then
    { status := di.1, md_p := none, log := err_release_stats stats ptr log1,
      fork_warn_enabled := enabled }
  else
    let pd_r := env.ibv_alloc_pd log1 di.2.ibv_context
    let log2 := log1 ++ [OpenCall.ibv_alloc_pd di.2.ibv_context pd_r]
    match pd_r with
    | none =>
      { status := UCS_ERR_NO_MEMORY, md_p := none,
        log := err_cleanup_device di.2 stats ptr log2, fork_warn_enabled := enabled }
    | some pd => md_open_finish cfg c k env md_config ptr stats di.2 pd enabled log2

/-- `uct_ib_md_open` (ib_md.c:800-933); `enabled` is the static variable of
`uct_ib_fork_warn_enable` on entry. -/
def uct_ib_md_open (cfg : BuildConfig) (c : Consts) (k : MdConsts) (env : OpenEnv)
    (md_name : List Char) (md_config : uct_ib_md_config_t) (enabled : Nat)
    (log : List OpenCall) : md_open_out :=
  let list_r := env.ibv_get_device_list log
  let log1 := log ++ [OpenCall.ibv_get_device_list list_r]
  match list_r with
  | none =>
    { status := UCS_ERR_NO_DEVICE, md_p := none, log := log1, fork_warn_enabled := enabled }
  | some ib_device_list =>
    match ib_device_list.find? (fun d => decide (uct_ib_make_md_name k d = md_name)) with
    | none =>
      { status := UCS_ERR_NO_DEVICE, md_p := none, log := out_free_dev_list log1,
        fork_warn_enabled := enabled }
    | some ib_device =>
      let md_r := env.ucs_malloc log1
      let log2 := log1 ++ [OpenCall.ucs_malloc md_r]
      match md_r with
      | none =>
        { status := UCS_ERR_NO_MEMORY, md_p := none, log := out_free_dev_list log2,
          fork_warn_enabled := enabled }
      | some ptr =>
        let st := env.stats_node_alloc log2
        let log3 := log2 ++ [OpenCall.stats_node_alloc st.1 st.2]
        if st.1 ≠ UCS_OK then
          { status := st.1, md_p := none, log := err_free_md ptr log3,
            fork_warn_enabled := enabled }
        else if md_config.fork_init ≠ UCS_NO then
          let ret := env.ibv_fork_init log3
          let log4 := log3 ++ [OpenCall.ibv_fork_init ret]
          if ret ≠ 0 then
            if md_config.fork_init = UCS_YES then
              { status := UCS_ERR_IO_ERROR, md_p := none,
                log := err_release_stats st.2 ptr log4, fork_warn_enabled := enabled }
            else
              let w := uct_ib_fork_warn_enable env enabled log4
              md_open_device cfg c k env md_config ib_device ptr st.2 w.1 w.2
          else
            md_open_device cfg c k env md_config ib_device ptr st.2 enabled log4
        else
          md_open_device cfg c k env md_config ib_device ptr st.2 enabled log3

/-- What the calls made while a domain is opened acquire and release. -/
inductive Resource where
  | device_list
  | md_object (ptr : Nat)
  | stats_node (node : Nat)
  | device (dev : uct_ib_device_t)
  | pd (pd : Nat)
  | rcache (rcache : Nat)
  | cq (cq : Nat)
  | qp (qp : Nat)
  deriving DecidableEq, Repr

/-- The resource that a call acquired, if it acquired one. -/
def acquired : OpenCall → Option Resource
  | OpenCall.ibv_get_device_list (some _) => some Resource.device_list
  | OpenCall.ucs_malloc (some ptr) => some (Resource.md_object ptr)
  | OpenCall.stats_node_alloc ucs_status_t.UCS_OK node => some (Resource.stats_node node)
  | OpenCall.uct_ib_device_init _ ucs_status_t.UCS_OK dev => some (Resource.device dev)
  | OpenCall.ibv_alloc_pd _ (some pd) => some (Resource.pd pd)
  | OpenCall.ucs_rcache_create _ ucs_status_t.UCS_OK (some r) => some (Resource.rcache r)
  | OpenCall.ibv_create_cq _ (some cq) => some (Resource.cq cq)
  | OpenCall.ibv_exp_create_qp _ _ _ (some qp) => some (Resource.qp qp)
  | _ => none

/-- The resource that a call releases, if it releases one. -/
def released : OpenCall → Option Resource
  | OpenCall.ibv_free_device_list => some Resource.device_list
  | OpenCall.ucs_free ptr => some (Resource.md_object ptr)
  | OpenCall.stats_node_free node => some (Resource.stats_node node)
  | OpenCall.uct_ib_device_cleanup dev => some (Resource.device dev)
  | OpenCall.ibv_dealloc_pd pd => some (Resource.pd pd)
  | OpenCall.ibv_destroy_cq cq => some (Resource.cq cq)
  | OpenCall.ibv_destroy_qp qp => some (Resource.qp qp)
  | _ => none

/-- Runs a list of calls against the stack of resources held, most recent
first: an acquisition pushes, a release must name the top of the stack and
pops it.  The result is the stack afterwards, `none` when a release is not
of the most recently acquired resource still held. -/
def lifo_run : List Resource → List OpenCall → Option (List Resource)
  | held, [] => some held
  | held, e :: rest =>
    match released e with
    | some r =>
      match held with
      | top :: below => if top = r then lifo_run below rest else none
      | [] => none
    | none =>
      match acquired e with
      | some r => lifo_run (r :: held) rest
      | none => lifo_run held rest

/-- The calls of `uct_ib_md_umr_qp_create`. -/
def is_umr_setup_call : OpenCall → Bool
  | OpenCall.ibv_create_cq _ _ => true
  | OpenCall.ibv_exp_create_qp _ _ _ _ => true
  | OpenCall.ibv_modify_qp _ _ _ => true
  | OpenCall.uct_ib_device_query_gid _ _ => true
  | OpenCall.ibv_destroy_qp _ => true
  | OpenCall.ibv_destroy_cq _ => true
  | _ => false

/-- A step of `uct_ib_md_umr_qp_create` that failed. -/
def is_failed_setup_step : OpenCall → Bool
  | OpenCall.ibv_create_cq _ none => true
  | OpenCall.ibv_exp_create_qp _ _ _ none => true
  | OpenCall.ibv_modify_qp _ _ ret => decide (ret ≠ 0)
  | OpenCall.uct_ib_device_query_gid _ status => decide (status ≠ ucs_status_t.UCS_OK)
  | _ => false

/-- The call is `ibv_create_cq`. -/
def is_create_cq : OpenCall → Bool
  | OpenCall.ibv_create_cq _ _ => true
  | _ => false

/-- The calls `fevs` of the fork-safety step of `uct_ib_md_open`
(ib_md.c:848-859) when the step lets the open continue, and the static
variable `en` of `uct_ib_fork_warn_enable` after it. -/
def fork_step (md_config : uct_ib_md_config_t) (enabled : Nat) (fevs : List OpenCall)
    (en : Nat) : Prop :=
  (md_config.fork_init = UCS_NO ∧ fevs = [] ∧ en = enabled) ∨
  (md_config.fork_init ≠ UCS_NO ∧ fevs = [OpenCall.ibv_fork_init 0] ∧ en = enabled) ∨
  (md_config.fork_init = UCS_TRY ∧ enabled ≠ 0 ∧ en = enabled ∧
    ∃ ret, ret ≠ 0 ∧ fevs = [OpenCall.ibv_fork_init ret]) ∨
  (md_config.fork_init = UCS_TRY ∧ enabled = 0 ∧ en = 1 ∧
    ∃ ret a, ret ≠ 0 ∧ fevs = [OpenCall.ibv_fork_init ret, OpenCall.pthread_atfork a])

/-- The calls `rcevs` of the cache step of `uct_ib_md_open` (ib_md.c:879-901)
when the step lets the open continue, and the domain object `md2` after it,
`md1` being the domain object before it. -/
def rcache_step (md_config : uct_ib_md_config_t) (ptr : Nat) (md1 : uct_ib_md_t)
    (rcevs : List OpenCall) (md2 : uct_ib_md_t) : Prop :=
  (md_config.rcache_enable = UCS_NO ∧ rcevs = [] ∧ md2 = md1) ∨
  (md_config.rcache_enable ≠ UCS_NO ∧
    ∃ rc, rcevs = [OpenCall.ucs_rcache_create
        { ucm_event_priority := md_config.rcache_event_prio, context := ptr } UCS_OK rc] ∧
      md2 = { md1 with
        rcache := rc, ops := uct_ib_md_rcache_ops,
        reg_cost := { overhead := md_config.rcache_overhead, growth := 0 } }) ∨
  (md_config.rcache_enable = UCS_TRY ∧
    ∃ st rc, st ≠ UCS_OK ∧
      rcevs = [OpenCall.ucs_rcache_create
        { ucm_event_priority := md_config.rcache_event_prio, context := ptr } st rc] ∧
      md2 = { md1 with rcache := rc })

/-- The calls `evs` of the engine step of `uct_ib_md_open` (ib_md.c:909-914)
and the domain object `md3` after it, `md2` being the domain object before
it. -/
def umr_step (cfg : BuildConfig) (k : MdConsts) (md2 : uct_ib_md_t) (evs : List OpenCall)
    (md3 : uct_ib_md_t) : Prop :=
  (∀ e ∈ evs, is_umr_setup_call e = true) ∧
  evs.countP is_create_cq ≤ 1 ∧
  (cfg.HAVE_EXP_UMR = true →
    md2.dev.exp_device_cap_flags &&& k.IBV_EXP_DEVICE_UMR ≠ 0 →
    evs.countP is_create_cq = 1) ∧
  md3 = { md2 with umr_qp := md3.umr_qp, umr_cq := md3.umr_cq } ∧
  (cfg.HAVE_EXP_UMR = false → md3 = md2 ∧ evs = []) ∧
  (cfg.HAVE_EXP_UMR = true →
    (md3.umr_qp = none ∧ md3.umr_cq = none) ∨
    (md3.umr_qp ≠ none ∧ md3.umr_cq ≠ none ∧ ∀ e ∈ evs, is_failed_setup_step e = false)) ∧
  ((∃ e ∈ evs, is_failed_setup_step e = true) → md3.umr_qp = none ∧ md3.umr_cq = none) ∧
  (cfg.HAVE_EXP_UMR = true → md2.dev.exp_device_cap_flags &&& k.IBV_EXP_DEVICE_UMR = 0 →
    md3.umr_qp = none ∧ md3.umr_cq = none ∧ evs = [])

/-- The calls of a failed `uct_ib_md_open` and its status. -/
def open_failure (k : MdConsts) (env : OpenEnv) (log : List OpenCall) (md_name : List Char)
    (md_config : uct_ib_md_config_t)
    (enabled : Nat) (news : List OpenCall) (status : ucs_status_t) (en : Nat) : Prop :=
  (env.ibv_get_device_list log = none ∧
    news = [OpenCall.ibv_get_device_list none] ∧ status = UCS_ERR_NO_DEVICE ∧ en = enabled) ∨
  (∃ l, env.ibv_get_device_list log = some l ∧
    l.find? (fun d => decide (uct_ib_make_md_name k d = md_name)) = none ∧
    news = [OpenCall.ibv_get_device_list (some l), OpenCall.ibv_free_device_list] ∧
    status = UCS_ERR_NO_DEVICE ∧ en = enabled) ∨
  (∃ l d, env.ibv_get_device_list log = some l ∧
    l.find? (fun d => decide (uct_ib_make_md_name k d = md_name)) = some d ∧
    ((news = [OpenCall.ibv_get_device_list (some l), OpenCall.ucs_malloc none,
        OpenCall.ibv_free_device_list] ∧ status = UCS_ERR_NO_MEMORY ∧ en = enabled) ∨
     (∃ ptr s, status ≠ UCS_OK ∧ en = enabled ∧
        news = [OpenCall.ibv_get_device_list (some l), OpenCall.ucs_malloc (some ptr),
          OpenCall.stats_node_alloc status s, OpenCall.ucs_free ptr,
          OpenCall.ibv_free_device_list]) ∨
     (∃ ptr s ret, md_config.fork_init = UCS_YES ∧ ret ≠ 0 ∧
        status = UCS_ERR_IO_ERROR ∧ en = enabled ∧
        news = [OpenCall.ibv_get_device_list (some l), OpenCall.ucs_malloc (some ptr),
          OpenCall.stats_node_alloc UCS_OK s, OpenCall.ibv_fork_init ret,
          OpenCall.stats_node_free s, OpenCall.ucs_free ptr,
          OpenCall.ibv_free_device_list]) ∨
     (∃ ptr s fevs, fork_step md_config enabled fevs en ∧
        ((∃ dev, status ≠ UCS_OK ∧
            news = [OpenCall.ibv_get_device_list (some l), OpenCall.ucs_malloc (some ptr),
              OpenCall.stats_node_alloc UCS_OK s] ++ fevs ++
              [OpenCall.uct_ib_device_init d status dev, OpenCall.stats_node_free s,
                OpenCall.ucs_free ptr, OpenCall.ibv_free_device_list]) ∨
         (∃ dev, status = UCS_ERR_NO_MEMORY ∧
            news = [OpenCall.ibv_get_device_list (some l), OpenCall.ucs_malloc (some ptr),
              OpenCall.stats_node_alloc UCS_OK s] ++ fevs ++
              [OpenCall.uct_ib_device_init d UCS_OK dev,
                OpenCall.ibv_alloc_pd dev.ibv_context none,
                OpenCall.uct_ib_device_cleanup dev, OpenCall.stats_node_free s,
                OpenCall.ucs_free ptr, OpenCall.ibv_free_device_list]) ∨
         (∃ dev pd rc, md_config.rcache_enable = UCS_YES ∧ status ≠ UCS_OK ∧
            news = [OpenCall.ibv_get_device_list (some l), OpenCall.ucs_malloc (some ptr),
              OpenCall.stats_node_alloc UCS_OK s] ++ fevs ++
              [OpenCall.uct_ib_device_init d UCS_OK dev,
                OpenCall.ibv_alloc_pd dev.ibv_context (some pd),
                OpenCall.ucs_rcache_create
                  { ucm_event_priority := md_config.rcache_event_prio, context := ptr }
                  status rc,
                OpenCall.ibv_dealloc_pd pd, OpenCall.uct_ib_device_cleanup dev,
                OpenCall.stats_node_free s, OpenCall.ucs_free ptr,
                OpenCall.ibv_free_device_list])))))

/-- The calls of a successful `uct_ib_md_open` and the domain it returns. -/
def open_success (cfg : BuildConfig) (k : MdConsts) (env : OpenEnv) (log : List OpenCall)
    (md_name : List Char)
    (md_config : uct_ib_md_config_t) (enabled : Nat) (news : List OpenCall)
    (ptr : Nat) (md3 : uct_ib_md_t) (en : Nat) : Prop :=
  ∃ l d s fevs dev pd rcevs md2 evs,
    env.ibv_get_device_list log = some l ∧
    l.find? (fun d => decide (uct_ib_make_md_name k d = md_name)) = some d ∧
    fork_step md_config enabled fevs en ∧
    rcache_step md_config ptr (md_open_md cfg k env md_config s dev pd) rcevs md2 ∧
    umr_step cfg k md2 evs md3 ∧
    news = [OpenCall.ibv_get_device_list (some l), OpenCall.ucs_malloc (some ptr),
      OpenCall.stats_node_alloc UCS_OK s] ++ fevs ++
      [OpenCall.uct_ib_device_init d UCS_OK dev,
        OpenCall.ibv_alloc_pd dev.ibv_context (some pd)] ++ rcevs ++ evs ++
      [OpenCall.ibv_free_device_list]

/-! ## Concrete inputs for opening a domain -/

/-- An example device: capable of indirect keys and of allocation. -/
def dev0 : uct_ib_device_t :=
  { ibv_context := 21, exp_device_cap_flags := 2 ^ 41, first_port := 1, local_cpus := 255,
    have_contig_pages := true }

/-- The device `mlx4_0`. -/
def ibdev_mlx4 : ibv_device := { name := ['m', 'l', 'x', '4', '_', '0'] }

/-- The device `mlx5_0`. -/
def ibdev_mlx5 : ibv_device := { name := ['m', 'l', 'x', '5', '_', '0'] }

/-- The domain name `ib/mlx5_0`. -/
def md_name_mlx5 : List Char := ['i', 'b', '/', 'm', 'l', 'x', '5', '_', '0']

/-- The domain name `ib/mlx9_0`, of no device. -/
def md_name_none : List Char := ['i', 'b', '/', 'm', 'l', 'x', '9', '_', '0']

/-- The default configuration of `uct_ib_md_config_table`: cache and fork
safety `try`, on-demand paging `auto`; times are coded in picoseconds
(16us, 0.06ns, 90ns). -/
def config_default : uct_ib_md_config_t :=
  { rcache_enable := UCS_TRY, rcache_event_prio := 1000, rcache_overhead := 90000,
    uc_reg_cost := { overhead := 16000000, growth := 60 },
    fork_init := UCS_TRY, eth_pause := false, odp_max_size := 2 ^ 64 - 2,
    prefetch_mr := true }

/-- An environment in which every call of the open succeeds; the fresh domain
object holds non-zero queue handles. -/
def envOk : OpenEnv :=
  { ibv_get_device_list := fun _ => some [ibdev_mlx4, ibdev_mlx5]
    ucs_malloc := fun _ => some 5000
    uninit_umr_qp := some 57005
    uninit_umr_cq := some 48879
    stats_node_alloc := fun _ => (UCS_OK, 11)
    ibv_fork_init := fun _ => 0
    pthread_atfork := fun _ => 0
    uct_ib_device_init := fun _ _ => (UCS_OK, dev0)
    ibv_alloc_pd := fun _ _ => some 7
    ucs_rcache_create := fun _ _ => (UCS_OK, some 900)
    uct_ib_device_odp_max_size := fun _ => 4096
    ibv_create_cq := fun _ _ => some 4
    ibv_exp_create_qp := fun _ _ _ _ => some 3
    qp_num := fun qp => qp + 100
    port_lid := fun _ _ => 5
    ibv_modify_qp := fun _ _ _ => 0
    uct_ib_device_query_gid := fun _ _ _ => (UCS_OK, 77) }

/-- As `envOk`, but the cache cannot be created. -/
def envNoRcache : OpenEnv :=
  { envOk with ucs_rcache_create := fun _ _ => (UCS_ERR_NO_MEMORY, none) }

/-- As `envOk`, but `ibv_fork_init` fails. -/
def envForkFail : OpenEnv := { envOk with ibv_fork_init := fun _ => -1 }

/-- As `envOk`, but the transition of the queue pair to ready-to-receive
fails. -/
def envRtrFail : OpenEnv :=
  { envOk with
    ibv_modify_qp := fun _ _ attr =>
      if attr.qp_state = ibv_qp_state.IBV_QPS_RTR then 22 else 0 }

/-- As `envOk`, but the protection domain cannot be allocated. -/
def envNoPd : OpenEnv := { envOk with ibv_alloc_pd := fun _ _ => none }

/-- The place of a resource in the order of release that the labels of
`uct_ib_md_open` fix (ib_md.c:919-932): protection domain, device,
statistics node, domain object, device list. -/
def release_rank : Resource → Nat
  | Resource.pd _ => 0
  | Resource.device _ => 1
  | Resource.stats_node _ => 2
  | Resource.md_object _ => 3
  | Resource.device_list => 4
  | _ => 5

/-- The answer of `ucs_rcache_create` recorded in a call keeps the contract
that the code asserts (ib_md.c:891): it stores a cache exactly when it
answers `UCS_OK`.  Other calls satisfy this trivially. -/
def rcache_answer_ok : OpenCall → Bool
  | OpenCall.ucs_rcache_create _ status rcache =>
    (decide (status = ucs_status_t.UCS_OK)) == rcache.isSome
  | _ => true

/-- The calls of the fork-safety step of `uct_ib_md_open` (ib_md.c:848-859). -/
def is_fork_call : OpenCall → Bool
  | OpenCall.ibv_fork_init _ => true
  | OpenCall.pthread_atfork _ => true
  | _ => false

/-- A call of `uct_ib_md_open` after the fork-safety step whose answer reports
a failure: device initialisation, allocation of the protection domain,
creation of the cache. -/
def is_failure_after_fork : OpenCall → Bool
  | OpenCall.uct_ib_device_init _ status _ => decide (status ≠ ucs_status_t.UCS_OK)
  | OpenCall.ibv_alloc_pd _ none => true
  | OpenCall.ucs_rcache_create _ status _ => decide (status ≠ ucs_status_t.UCS_OK)
  | _ => false

/-- As `hwOk`, in the process with the identifier `pid`. -/
def hwPid (pid : Nat) : Extern := { hwOk with getpid := pid }

/-- The call is a `ucs_rcache_create` that answered `UCS_OK`. -/
def is_cache_created : OpenCall → Bool
  | OpenCall.ucs_rcache_create _ ucs_status_t.UCS_OK _ => true
  | _ => false

/-- The call is one to code outside `ib_md.c` whose status `uct_ib_md_open`
returns as it is (statistics node, device initialisation, cache creation),
and it answered `UCS_ERR_NO_DEVICE`. -/
def answers_no_device : OpenCall → Bool
  | OpenCall.stats_node_alloc status _ => decide (status = ucs_status_t.UCS_ERR_NO_DEVICE)
  | OpenCall.uct_ib_device_init _ status _ => decide (status = ucs_status_t.UCS_ERR_NO_DEVICE)
  | OpenCall.ucs_rcache_create _ status _ => decide (status = ucs_status_t.UCS_ERR_NO_DEVICE)
  | _ => false

/-- The call is `ibv_get_device_list` or `ibv_free_device_list`. -/
def is_device_list_call : OpenCall → Bool
  | OpenCall.ibv_get_device_list _ => true
  | OpenCall.ibv_free_device_list => true
  | _ => false

/-- A build with the experimental interface but without `ibv_exp_prefetch_mr`. -/
def cfgNoPrefetch : BuildConfig := { cfgFull with HAVE_DECL_IBV_EXP_PREFETCH_MR := false }

/-- The environment `hw` with the answers of `ibv_exp_prefetch_mr` replaced. -/
def with_prefetch_answer (hw : Extern)
    (answer : List HwCall → ibv_mr → ibv_exp_prefetch_attr → Int) : Extern :=
  { hw with ibv_exp_prefetch_mr := answer }

/-- As `hwOk`, but every `ibv_exp_prefetch_mr` fails. -/
def hwPrefetchFail : Extern := with_prefetch_answer hwOk fun _ _ _ => -1

/-- The argument of `ibv_exp_prefetch_mr` for the direct key `mr`
(ib_md.c:447-450). -/
def prefetch_attr (c : Consts) (mr : ibv_mr) : ibv_exp_prefetch_attr :=
  { flags := c.IBV_EXP_PREFETCH_WRITE_ACCESS, addr := mr.addr, length := mr.length,
    comp_mask := 0 }

/-! ## The cache path -/

/-- The fields of `ucs_rcache_region_t` that `ib_md.c` reads: the bounds
`super.start` and `super.end` of the address range, of the unsigned 64-bit
type `ucs_pgt_addr_t`. -/
structure ucs_rcache_region_t where
  start : Nat
  end_ : Nat
  deriving DecidableEq, Repr

/-- The record `uct_ib_rcache_region_t`: the region of the cache followed by
the handle embedded in it. -/
structure uct_ib_rcache_region_t where
  super : ucs_rcache_region_t
  memh : uct_ib_mem_t
  deriving DecidableEq, Repr

/-- One call that leaves the translation unit on the cache path: a call into
the cache, or a call of the verbs library. -/
inductive RcacheCall where
  | ucs_rcache_region_put (rcache : Option Nat) (region : Nat)
  | verbs (call : HwCall)
  deriving DecidableEq, Repr

/-- `uct_ib_rache_region_from_memh` (ib_md.c:649-652): `ucs_container_of`
subtracts the offset of the member `memh` in `uct_ib_rcache_region_t` from the
address of the handle. -/
def uct_ib_rache_region_from_memh (offsetof_memh : Nat) (memh : Nat) : Nat :=
  memh - offsetof_memh

/-- `uct_ib_mem_rcache_dereg` (ib_md.c:673-680); `memh` is the address of the
handle.  `ucs_rcache_region_put` returns nothing. -/
def uct_ib_mem_rcache_dereg (offsetof_memh : Nat) (md : uct_ib_md_t) (memh : Nat)
    (log : List RcacheCall) : ucs_status_t × List RcacheCall :=
  let region := uct_ib_rache_region_from_memh offsetof_memh memh
  (UCS_OK, log ++ [RcacheCall.ucs_rcache_region_put md.rcache region])

/-- `uct_ib_rcache_mem_reg_cb` (ib_md.c:693-709); `md` is `context`, `flags`
is `*arg`, `region` the contents of the record on entry.  The result is the
status, the contents of the record afterwards, and the history.  The length
is a difference of unsigned 64-bit values. -/
def uct_ib_rcache_mem_reg_cb (fuel : Nat) (cfg : BuildConfig) (c : Consts) (hw : Extern)
    (md : uct_ib_md_t) (flags : Nat) (region : uct_ib_rcache_region_t) (log : List HwCall) :
    Option (ucs_status_t × uct_ib_rcache_region_t × List HwCall) :=
  match uct_ib_mem_reg_internal fuel cfg c hw md region.super.start
      ((region.super.end_ + 2 ^ 64 - region.super.start) % 2 ^ 64) flags region.memh log with
  | none => none
  | some r =>
    let region1 : uct_ib_rcache_region_t := { region with memh := r.memh }
    if r.status ≠ UCS_OK then some (r.status, region1, r.log)
    else some (UCS_OK, region1, r.log)

/-- `uct_ib_rcache_mem_dereg_cb` (ib_md.c:711-717): the function returns
nothing, the result is the history. -/
def uct_ib_rcache_mem_dereg_cb (hw : Extern) (region : uct_ib_rcache_region_t)
    (log : List HwCall) : List HwCall :=
  (uct_ib_mem_dereg_internal hw region.memh log).2

/-- An example region of the cache, for the range of `mr0`, before its
registration. -/
def region0 : uct_ib_rcache_region_t :=
  { super := { start := 4096, end_ := 12288 }, memh := memh_zero }

/-! # Theorems -/

/-! ## Arithmetic of the packed key -/

theorem or_shift32 (a b : Nat) (ha : a < 2 ^ 32) :
    a ||| (b <<< 32) = b * 2 ^ 32 + a := by
  rw [Nat.or_comm, Nat.shiftLeft_eq, Nat.mul_comm b, ← Nat.mul_add_lt_is_or ha b]

theorem pack_value (a b : Nat) (ha : a < 2 ^ 32) (hb : b < 2 ^ 32) :
    a % 2 ^ 32 ||| ((b % 2 ^ 32) <<< 32) % 2 ^ 64 = b * 2 ^ 32 + a := by
  have h1 : a % 2 ^ 32 = a := Nat.mod_eq_of_lt ha
  have h2 : b % 2 ^ 32 = b := Nat.mod_eq_of_lt hb
  have h3 : (b <<< 32) % 2 ^ 64 = b <<< 32 := by
    rw [Nat.shiftLeft_eq]
    apply Nat.mod_eq_of_lt
    omega
  rw [h1, h2, h3, or_shift32 a b ha]

/-! ## The remote-key codec -/

theorem high_rkey_lt (h : uct_ib_mem_t) (mr : ibv_mr) (hr : mr.rkey < 2 ^ 32)
    (hu : ∀ umr, h.umr = some umr → umr.rkey < 2 ^ 32) : high_rkey h mr < 2 ^ 32 := by
  unfold high_rkey
  cases hum : h.umr with
  | none => exact hr
  | some umr => exact hu umr hum

theorem mkey_pack_eq (h : uct_ib_mem_t) (mr : ibv_mr)
    (hmr : h.mr = some mr) (hr : mr.rkey < 2 ^ 32)
    (hu : ∀ umr, h.umr = some umr → umr.rkey < 2 ^ 32) :
    uct_ib_mkey_pack h = some (UCS_OK, high_rkey h mr * 2 ^ 32 + mr.rkey) := by
  cases hum : h.umr with
  | none =>
    simp only [uct_ib_mkey_pack, hmr, hum, high_rkey]
    rw [pack_value mr.rkey mr.rkey hr hr]
  | some umr =>
    simp only [uct_ib_mkey_pack, hmr, hum, high_rkey]
    rw [pack_value mr.rkey umr.rkey hr (hu umr hum)]

/-- Claim C1: for a handle with direct key `mr` and optional indirect key,
`uct_ib_mkey_pack` returns `UCS_OK` and writes a 64-bit value whose low 32
bits are `mr.rkey` and whose high 32 bits are the indirect key's rkey when
there is an indirect key and `mr.rkey` otherwise. -/
theorem uct_ib_mkey_pack_layout (h : uct_ib_mem_t) (mr : ibv_mr)
    (hmr : h.mr = some mr) (hr : mr.rkey < 2 ^ 32)
    (hu : ∀ umr, h.umr = some umr → umr.rkey < 2 ^ 32) :
    ∃ v, uct_ib_mkey_pack h = some (UCS_OK, v) ∧ v < 2 ^ 64 ∧
      v % 2 ^ 32 = mr.rkey ∧
      v / 2 ^ 32 = (match h.umr with
                    | some umr => umr.rkey
                    | none => mr.rkey) := by
  have hh := high_rkey_lt h mr hr hu
  refine ⟨high_rkey h mr * 2 ^ 32 + mr.rkey, mkey_pack_eq h mr hmr hr hu, ?_, ?_, ?_⟩
  · omega
  · omega
  · show _ = high_rkey h mr
    omega

/-- Claim C1 at `memh_both`. -/
theorem uct_ib_mkey_pack_layout_witness :
    ∃ v, uct_ib_mkey_pack memh_both = some (UCS_OK, v) ∧ v < 2 ^ 64 ∧
      v % 2 ^ 32 = 0xdeadbeef ∧ v / 2 ^ 32 = 0x12345678 :=
  uct_ib_mkey_pack_layout memh_both mr0 rfl (by decide) (by
    intro umr hu
    have h : umr = umr0 := by
      simp only [memh_both, Option.some.injEq] at hu
      exact hu.symm
    subst h
    decide)

/-- Claim C2: unpacking what `uct_ib_mkey_pack` wrote returns `UCS_OK`, an
rkey with the direct rkey in the low 32 bits and the indirect rkey (the
direct one when there is no indirect key) in the high 32 bits, and a `NULL`
handle; and `uct_ib_rkey_unpack` returns every 64-bit buffer value
unchanged. -/
theorem uct_ib_rkey_unpack_mkey_pack (h : uct_ib_mem_t) (mr : ibv_mr)
    (hmr : h.mr = some mr) (hr : mr.rkey < 2 ^ 32)
    (hu : ∀ umr, h.umr = some umr → umr.rkey < 2 ^ 32) :
    (∃ v, uct_ib_mkey_pack h = some (UCS_OK, v) ∧
      (uct_ib_rkey_unpack v).status = UCS_OK ∧
      (uct_ib_rkey_unpack v).rkey % 2 ^ 32 = mr.rkey ∧
      (uct_ib_rkey_unpack v).rkey / 2 ^ 32 = (match h.umr with
                                              | some umr => umr.rkey
                                              | none => mr.rkey) ∧
      (uct_ib_rkey_unpack v).handle = none) ∧
    (∀ buf, buf < 2 ^ 64 →
      uct_ib_rkey_unpack buf = { status := UCS_OK, rkey := buf, handle := none }) := by
  constructor
  · have hh := high_rkey_lt h mr hr hu
    have hlt : high_rkey h mr * 2 ^ 32 + mr.rkey < 2 ^ 64 := by omega
    refine ⟨high_rkey h mr * 2 ^ 32 + mr.rkey, mkey_pack_eq h mr hmr hr hu, rfl, ?_, ?_, rfl⟩
    · simp only [uct_ib_rkey_unpack, Nat.mod_eq_of_lt hlt]
      omega
    · simp only [uct_ib_rkey_unpack, Nat.mod_eq_of_lt hlt]
      show _ = high_rkey h mr
      omega
  · intro buf hb
    simp only [uct_ib_rkey_unpack, Nat.mod_eq_of_lt hb]

/-- Claim C2 at `memh_direct`. -/
theorem uct_ib_rkey_unpack_mkey_pack_witness :
    (∃ v, uct_ib_mkey_pack memh_direct = some (UCS_OK, v) ∧
      (uct_ib_rkey_unpack v).status = UCS_OK ∧
      (uct_ib_rkey_unpack v).rkey % 2 ^ 32 = 0xdeadbeef ∧
      (uct_ib_rkey_unpack v).rkey / 2 ^ 32 = 0xdeadbeef ∧
      (uct_ib_rkey_unpack v).handle = none) ∧
    (∀ buf, buf < 2 ^ 64 →
      uct_ib_rkey_unpack buf = { status := UCS_OK, rkey := buf, handle := none }) :=
  uct_ib_rkey_unpack_mkey_pack memh_direct mr0 rfl (by decide)
    (by intro umr hu; simp [memh_direct] at hu)

/-! ## Domains without indirect-key engine -/

theorem create_umr_inactive (fuel : Nat) (cfg : BuildConfig) (c : Consts) (hw : Extern)
    (md : uct_ib_md_t) (mr : ibv_mr) (log : List HwCall)
    (h : md.umr_qp = none ∨ md.umr_cq = none) :
    uct_ib_md_create_umr fuel cfg c hw md mr log = some (none, log) := by
  unfold uct_ib_md_create_umr
  cases hq : md.umr_qp <;> cases hc : md.umr_cq <;> simp_all

theorem reg_mr_ok_stores (cfg : BuildConfig) (c : Consts) (hw : Extern) (md : uct_ib_md_t)
    (address length exp_access : Nat) (log : List HwCall)
    (h : (uct_ib_md_reg_mr cfg c hw md address length exp_access log).status = UCS_OK) :
    ∃ mr, (uct_ib_md_reg_mr cfg c hw md address length exp_access log).mr_p = some mr := by
  unfold uct_ib_md_reg_mr at h ⊢
  by_cases he : (exp_access != 0) = true
  · by_cases hc : cfg.HAVE_DECL_IBV_EXP_REG_MR = true
    · simp only [he, hc, if_true] at h ⊢
      cases hx : hw.ibv_exp_reg_mr log md.pd address length
        (UCT_IB_MEM_ACCESS_FLAGS c ||| exp_access) <;> simp_all
    · simp [he, hc] at h
  · simp only [he] at h ⊢
    cases hx : hw.ibv_reg_mr log md.pd address length (UCT_IB_MEM_ACCESS_FLAGS c) <;>
      simp_all

theorem prefetch_returns (cfg : BuildConfig) (c : Consts) (hw : Extern) (md : uct_ib_md_t)
    (memh : uct_ib_mem_t) (mr : ibv_mr) (flags : Nat) (log : List HwCall)
    (h : memh.mr = some mr) :
    ∃ r, uct_ib_mem_prefetch cfg c hw md memh flags log = some r := by
  unfold uct_ib_mem_prefetch
  simp only [h]
  split
  · split
    · split <;> simp
    · simp
  · simp

theorem pack_halves_equal (h : uct_ib_mem_t) (mr : ibv_mr) (hmr : h.mr = some mr)
    (hu : h.umr = none) :
    ∃ v, uct_ib_mkey_pack h = some (UCS_OK, v) ∧ v / 2 ^ 32 = v % 2 ^ 32 := by
  have hlt : mr.rkey % 2 ^ 32 < 2 ^ 32 := Nat.mod_lt _ (by decide)
  have hv := pack_value (mr.rkey % 2 ^ 32) (mr.rkey % 2 ^ 32) hlt hlt
  rw [Nat.mod_mod] at hv
  refine ⟨mr.rkey % 2 ^ 32 * 2 ^ 32 + mr.rkey % 2 ^ 32, ?_, ?_⟩
  · simp only [uct_ib_mkey_pack, hmr, hu]
    rw [hv]
  · omega

theorem reg_internal_inactive (fuel : Nat) (cfg : BuildConfig) (c : Consts) (hw : Extern)
    (md : uct_ib_md_t) (address length flags : Nat) (memh : uct_ib_mem_t)
    (log : List HwCall) (hq : md.umr_qp = none) :
    ∃ r, uct_ib_mem_reg_internal fuel cfg c hw md address length flags memh log = some r ∧
      r.status = (uct_ib_md_reg_mr cfg c hw md address length
        (uct_ib_md_access_flags c md flags length) log).status ∧
      (r.status = UCS_OK → r.memh.umr = none ∧ ∃ mr, r.memh.mr = some mr) := by
  unfold uct_ib_mem_reg_internal
  simp only
  by_cases hst : (uct_ib_md_reg_mr cfg c hw md address length
      (uct_ib_md_access_flags c md flags length) log).status = UCS_OK
  · obtain ⟨mr, hmr⟩ := reg_mr_ok_stores cfg c hw md address length _ log hst
    simp only [hst, hmr, ne_eq, not_true_eq_false, if_false,
      create_umr_inactive fuel cfg c hw md mr _ (Or.inl hq), hq]
    obtain ⟨r, hr⟩ := prefetch_returns cfg c hw md
      { lkey := mr.lkey, mr := some mr, umr := none } mr
      (uct_ib_md_access_flags c md flags length)
      (uct_ib_md_reg_mr cfg c hw md address length
        (uct_ib_md_access_flags c md flags length) log).log rfl
    simp [hr]
  · simp [hst]

theorem mem_reg_inactive (fuel : Nat) (cfg : BuildConfig) (c : Consts) (hw : Extern)
    (md : uct_ib_md_t) (address length flags : Nat) (log : List HwCall)
    (hq : md.umr_qp = none) :
    ∃ r, uct_ib_mem_reg fuel cfg c hw md address length flags log = some r ∧
      (r.status = UCS_OK → ∃ p h mr, r.memh_p = some (p, h) ∧ h.umr = none ∧
        h.mr = some mr) ∧
      (hw.ucs_calloc log ≠ none →
        (uct_ib_md_reg_mr cfg c hw md address length
          (uct_ib_md_access_flags c md flags length)
          (log ++ [HwCall.ucs_calloc])).status = UCS_OK →
        r.status = UCS_OK) := by
  unfold uct_ib_mem_reg uct_ib_memh_alloc
  cases hp : hw.ucs_calloc log with
  | none => simp
  | some ptr =>
    obtain ⟨r, hr, hst, hok⟩ := reg_internal_inactive fuel cfg c hw md address length flags
      memh_zero (log ++ [HwCall.ucs_calloc]) hq
    simp only [hr]
    by_cases hs : r.status = UCS_OK
    · obtain ⟨hu, mr, hmr⟩ := hok hs
      simp only [hs, ne_eq, not_true_eq_false, if_false]
      exact ⟨_, rfl, fun _ => ⟨ptr, r.memh, mr, rfl, hu, hmr⟩, fun _ _ => rfl⟩
    · simp only [hs, ne_eq, not_false_eq_true, if_true]
      refine ⟨_, rfl, fun h => absurd h hs, fun _ h => ?_⟩
      rw [← hst] at h
      exact absurd h hs

theorem mem_alloc_inactive (fuel : Nat) (cfg : BuildConfig) (c : Consts) (hw : Extern)
    (md : uct_ib_md_t) (length flags : Nat) (log : List HwCall)
    (hq : md.umr_qp = none) :
    ∃ r, uct_ib_mem_alloc fuel cfg c hw md length flags log = some r ∧
      (r.status = UCS_OK → ∃ p h mr, r.memh_p = some (p, h) ∧ h.umr = none ∧
        h.mr = some mr) ∧
      (cfg.HAVE_DECL_IBV_EXP_ACCESS_ALLOCATE_MR = true → hw.ucs_calloc log ≠ none →
        (uct_ib_md_reg_mr cfg c hw md 0 (hw.ucs_memtrack_adjust_alloc_size length)
          (uct_ib_md_access_flags c md flags (hw.ucs_memtrack_adjust_alloc_size length) |||
            c.IBV_EXP_ACCESS_ALLOCATE_MR)
          (log ++ [HwCall.ucs_calloc])).status = UCS_OK →
        r.status = UCS_OK) := by
  unfold uct_ib_mem_alloc uct_ib_memh_alloc
  by_cases hcfg : cfg.HAVE_DECL_IBV_EXP_ACCESS_ALLOCATE_MR = true
  · simp only [hcfg, if_true]
    cases hp : hw.ucs_calloc log with
    | none => simp
    | some ptr =>
      simp only
      by_cases hst : (uct_ib_md_reg_mr cfg c hw md 0 (hw.ucs_memtrack_adjust_alloc_size length)
          (uct_ib_md_access_flags c md flags (hw.ucs_memtrack_adjust_alloc_size length) |||
            c.IBV_EXP_ACCESS_ALLOCATE_MR)
          (log ++ [HwCall.ucs_calloc])).status = UCS_OK
      · obtain ⟨mr, hmr⟩ := reg_mr_ok_stores cfg c hw md 0 _ _ _ hst
        simp only [hst, hmr, ne_eq, not_true_eq_false, if_false, memh_zero,
          create_umr_inactive fuel cfg c hw md mr _ (Or.inl hq), hq]
        obtain ⟨r, hr⟩ := prefetch_returns cfg c hw md
          { lkey := mr.lkey, mr := some mr, umr := none } mr
          (uct_ib_md_access_flags c md flags (hw.ucs_memtrack_adjust_alloc_size length) |||
            c.IBV_EXP_ACCESS_ALLOCATE_MR)
          (uct_ib_md_reg_mr cfg c hw md 0 (hw.ucs_memtrack_adjust_alloc_size length)
            (uct_ib_md_access_flags c md flags (hw.ucs_memtrack_adjust_alloc_size length) |||
              c.IBV_EXP_ACCESS_ALLOCATE_MR)
            (log ++ [HwCall.ucs_calloc])).log rfl
        simp only [hr, Option.isSome_none, Bool.and_false, Bool.false_eq_true, if_false]
        exact ⟨_, rfl, fun _ => ⟨ptr, _, mr, rfl, rfl, rfl⟩, fun _ _ _ => rfl⟩
      · simp [hst]
  · simp [hcfg]

/-- Claim C3: in a domain whose `umr_qp` and `umr_cq` are both `NULL`,
`uct_ib_md_create_umr` returns `NULL` without any external call; every
`uct_ib_mem_reg` and `uct_ib_mem_alloc` returns, succeeds whenever the handle
allocation and the direct registration succeed, and on success yields a
handle without indirect key whose packed key has equal halves. -/
theorem inactive_engine_no_indirect_key (cfg : BuildConfig) (c : Consts) (hw : Extern)
    (md : uct_ib_md_t) (hq : md.umr_qp = none) (hc : md.umr_cq = none) :
    (∀ fuel mr log, uct_ib_md_create_umr fuel cfg c hw md mr log = some (none, log)) ∧
    (∀ fuel address length flags log,
      ∃ r, uct_ib_mem_reg fuel cfg c hw md address length flags log = some r ∧
        (r.status = UCS_OK → ∃ p h v, r.memh_p = some (p, h) ∧ h.umr = none ∧
          uct_ib_mkey_pack h = some (UCS_OK, v) ∧ v / 2 ^ 32 = v % 2 ^ 32) ∧
        (hw.ucs_calloc log ≠ none →
          (uct_ib_md_reg_mr cfg c hw md address length
            (uct_ib_md_access_flags c md flags length)
            (log ++ [HwCall.ucs_calloc])).status = UCS_OK →
          r.status = UCS_OK)) ∧
    (∀ fuel length flags log,
      ∃ r, uct_ib_mem_alloc fuel cfg c hw md length flags log = some r ∧
        (r.status = UCS_OK → ∃ p h v, r.memh_p = some (p, h) ∧ h.umr = none ∧
          uct_ib_mkey_pack h = some (UCS_OK, v) ∧ v / 2 ^ 32 = v % 2 ^ 32) ∧
        (cfg.HAVE_DECL_IBV_EXP_ACCESS_ALLOCATE_MR = true → hw.ucs_calloc log ≠ none →
          (uct_ib_md_reg_mr cfg c hw md 0 (hw.ucs_memtrack_adjust_alloc_size length)
            (uct_ib_md_access_flags c md flags (hw.ucs_memtrack_adjust_alloc_size length) |||
              c.IBV_EXP_ACCESS_ALLOCATE_MR)
            (log ++ [HwCall.ucs_calloc])).status = UCS_OK →
          r.status = UCS_OK)) := by
  refine ⟨fun fuel mr log => create_umr_inactive fuel cfg c hw md mr log (Or.inr hc), ?_, ?_⟩
  · intro fuel address length flags log
    obtain ⟨r, hr, hok, hst⟩ := mem_reg_inactive fuel cfg c hw md address length flags log hq
    refine ⟨r, hr, fun h => ?_, hst⟩
    obtain ⟨p, m, mr, hp, hu, hmr⟩ := hok h
    obtain ⟨v, hv, hhalf⟩ := pack_halves_equal m mr hmr hu
    exact ⟨p, m, v, hp, hu, hv, hhalf⟩
  · intro fuel length flags log
    obtain ⟨r, hr, hok, hst⟩ := mem_alloc_inactive fuel cfg c hw md length flags log hq
    refine ⟨r, hr, fun h => ?_, hst⟩
    obtain ⟨p, m, mr, hp, hu, hmr⟩ := hok h
    obtain ⟨v, hv, hhalf⟩ := pack_halves_equal m mr hmr hu
    exact ⟨p, m, v, hp, hu, hv, hhalf⟩

/-- Claim C3 at `mdInactive` in the environment `hwOk`. -/
theorem inactive_engine_no_indirect_key_witness :
    mdInactive.umr_qp = none ∧ mdInactive.umr_cq = none ∧
    uct_ib_md_create_umr 0 cfgFull verbsConsts hwOk mdInactive mr0 [] = some (none, []) ∧
    (∃ r, uct_ib_mem_reg 0 cfgFull verbsConsts hwOk mdInactive 4096 8192 0 [] = some r ∧
      (r.status = UCS_OK → ∃ p h v, r.memh_p = some (p, h) ∧ h.umr = none ∧
        uct_ib_mkey_pack h = some (UCS_OK, v) ∧ v / 2 ^ 32 = v % 2 ^ 32) ∧
      r.status = UCS_OK) :=
  have h := inactive_engine_no_indirect_key cfgFull verbsConsts hwOk mdInactive rfl rfl
  ⟨rfl, rfl, h.1 0 mr0 [],
    (h.2.1 0 4096 8192 0 []).imp fun _ hr =>
      ⟨hr.1, hr.2.1, hr.2.2 (by simp [hwOk]) (by simp [uct_ib_md_reg_mr, hwOk,
        uct_ib_md_access_flags, verbsConsts, mdInactive])⟩⟩

/-! ## Access policy -/

/-- Claim C4: `uct_ib_md_access_flags` returns `IBV_EXP_ACCESS_ON_DEMAND` when
the non-blocking flag is set, the length is positive and the length is at
most `md->odp_max_size`, and `0` otherwise; two calls that agree on the
non-blocking bit, the length and the threshold return the same value. -/
theorem uct_ib_md_access_flags_spec (c : Consts) (md : uct_ib_md_t) (flags length : Nat) :
    uct_ib_md_access_flags c md flags length =
      (if has_flag flags c.UCT_MD_MEM_FLAG_NONBLOCK ∧ 0 < length ∧
          length ≤ md.odp_max_size
       then c.IBV_EXP_ACCESS_ON_DEMAND else 0) ∧
    ∀ (md2 : uct_ib_md_t) (flags2 : Nat),
      md2.odp_max_size = md.odp_max_size →
      (has_flag flags2 c.UCT_MD_MEM_FLAG_NONBLOCK ↔
        has_flag flags c.UCT_MD_MEM_FLAG_NONBLOCK) →
      uct_ib_md_access_flags c md2 flags2 length =
        uct_ib_md_access_flags c md flags length := by
  have key : ∀ (m : uct_ib_md_t) (f : Nat), uct_ib_md_access_flags c m f length =
      (if has_flag f c.UCT_MD_MEM_FLAG_NONBLOCK ∧ 0 < length ∧ length ≤ m.odp_max_size
       then c.IBV_EXP_ACCESS_ON_DEMAND else 0) := by
    intro m f
    unfold uct_ib_md_access_flags has_flag
    by_cases h1 : f &&& c.UCT_MD_MEM_FLAG_NONBLOCK = 0 <;>
      by_cases h2 : 0 < length <;>
      by_cases h3 : length ≤ m.odp_max_size <;> simp [h1, h2, h3]
  refine ⟨key md flags, ?_⟩
  intro md2 flags2 hodp hnb
  rw [key md2 flags2, key md flags, hodp]
  by_cases h : has_flag flags c.UCT_MD_MEM_FLAG_NONBLOCK
  · simp [h, hnb.mpr h]
  · have h2 : ¬ has_flag flags2 c.UCT_MD_MEM_FLAG_NONBLOCK := fun h3 => h (hnb.mp h3)
    simp [h, h2]

/-- Claim C5 as stated fails at length zero: with threshold 4096 and the
non-blocking flag set, a request of length `0 ≤ 4096` gets access flags
without the on-demand-paging bit. -/
theorem access_flags_length_zero_counterexample :
    0 < mdInactive.odp_max_size ∧
    has_flag 1 verbsConsts.UCT_MD_MEM_FLAG_NONBLOCK ∧
    0 ≤ mdInactive.odp_max_size ∧
    ¬ has_flag (uct_ib_md_access_flags verbsConsts mdInactive 1 0)
        verbsConsts.IBV_EXP_ACCESS_ON_DEMAND := by
  decide

/-- Claim C5, amended: for a threshold `odp_max_size > 0`, a request with the
non-blocking flag set and a length with `0 < length ≤ odp_max_size` gets
access flags that include the on-demand-paging bit, and a request with
`length > odp_max_size` gets access flags that do not include it. -/
theorem access_flags_on_demand_threshold (c : Consts) (md : uct_ib_md_t)
    (flags length : Nat) (hbit : c.IBV_EXP_ACCESS_ON_DEMAND ≠ 0)
    (_hthr : 0 < md.odp_max_size) :
    (has_flag flags c.UCT_MD_MEM_FLAG_NONBLOCK → 0 < length → length ≤ md.odp_max_size →
      has_flag (uct_ib_md_access_flags c md flags length) c.IBV_EXP_ACCESS_ON_DEMAND) ∧
    (md.odp_max_size < length →
      ¬ has_flag (uct_ib_md_access_flags c md flags length) c.IBV_EXP_ACCESS_ON_DEMAND) := by
  constructor
  · intro hnb hpos hle
    unfold has_flag at hnb
    unfold uct_ib_md_access_flags has_flag
    simp [hnb, hpos, hle, hbit]
  · intro hgt
    have hle : ¬ length ≤ md.odp_max_size := by omega
    unfold uct_ib_md_access_flags has_flag
    simp [hle]

/-- Claim C5, amended, at threshold 4096 with lengths 4096 and 4097. -/
theorem access_flags_on_demand_threshold_witness :
    has_flag (uct_ib_md_access_flags verbsConsts mdInactive 1 4096)
      verbsConsts.IBV_EXP_ACCESS_ON_DEMAND ∧
    ¬ has_flag (uct_ib_md_access_flags verbsConsts mdInactive 1 4097)
      verbsConsts.IBV_EXP_ACCESS_ON_DEMAND :=
  ⟨(access_flags_on_demand_threshold verbsConsts mdInactive 1 4096 (by decide)
      (by decide)).1 (by decide) (by decide) (by decide),
   (access_flags_on_demand_threshold verbsConsts mdInactive 1 4097 (by decide)
      (by decide)).2 (by decide)⟩

/-! ## Raw registration -/

/-- Claim C6 as stated fails in a build without `ibv_exp_reg_mr`: with
non-zero `exp_access` no registration call is made at all and the status is
`UCS_ERR_UNSUPPORTED`, though the environment would have answered a key. -/
theorem reg_mr_unsupported_counterexample :
    (2 : Nat) ^ 46 ≠ 0 ∧
    hwOk.ibv_exp_reg_mr [] mdInactive.pd 4096 8192
      (UCT_IB_MEM_ACCESS_FLAGS verbsConsts ||| 2 ^ 46) = some mr0 ∧
    (uct_ib_md_reg_mr cfgPlain verbsConsts hwOk mdInactive 4096 8192 (2 ^ 46) []).log = [] ∧
    (uct_ib_md_reg_mr cfgPlain verbsConsts hwOk mdInactive 4096 8192 (2 ^ 46) []).status =
      UCS_ERR_UNSUPPORTED ∧
    (uct_ib_md_reg_mr cfgPlain verbsConsts hwOk mdInactive 4096 8192 (2 ^ 46) []).mr_p =
      none := by
  refine ⟨by decide, rfl, rfl, rfl, rfl⟩

/-- Claim C6, amended: with `exp_access == 0` `uct_ib_md_reg_mr` makes the
baseline registration with exactly the standard mask; with non-zero
`exp_access` in a build that has `ibv_exp_reg_mr` it makes the extended
registration with the standard mask or-ed with `exp_access`; in both cases
that is the only call, a missing key gives `UCS_ERR_IO_ERROR` with `*mr_p`
not written, and a key is stored in `*mr_p` with `UCS_OK`.  With non-zero
`exp_access` in a build without `ibv_exp_reg_mr` no call is made, `*mr_p` is
not written and the status is `UCS_ERR_UNSUPPORTED`. -/
theorem uct_ib_md_reg_mr_paths (cfg : BuildConfig) (c : Consts) (hw : Extern)
    (md : uct_ib_md_t) (address length exp_access : Nat) (log : List HwCall) :
    (exp_access = 0 →
      (uct_ib_md_reg_mr cfg c hw md address length exp_access log).log =
        log ++ [HwCall.ibv_reg_mr md.pd address length
          (c.IBV_ACCESS_LOCAL_WRITE ||| c.IBV_ACCESS_REMOTE_WRITE |||
            c.IBV_ACCESS_REMOTE_READ ||| c.IBV_ACCESS_REMOTE_ATOMIC)] ∧
      (hw.ibv_reg_mr log md.pd address length
          (c.IBV_ACCESS_LOCAL_WRITE ||| c.IBV_ACCESS_REMOTE_WRITE |||
            c.IBV_ACCESS_REMOTE_READ ||| c.IBV_ACCESS_REMOTE_ATOMIC) = none →
        (uct_ib_md_reg_mr cfg c hw md address length exp_access log).status =
          UCS_ERR_IO_ERROR ∧
        (uct_ib_md_reg_mr cfg c hw md address length exp_access log).mr_p = none) ∧
      (∀ mr, hw.ibv_reg_mr log md.pd address length
          (c.IBV_ACCESS_LOCAL_WRITE ||| c.IBV_ACCESS_REMOTE_WRITE |||
            c.IBV_ACCESS_REMOTE_READ ||| c.IBV_ACCESS_REMOTE_ATOMIC) = some mr →
        (uct_ib_md_reg_mr cfg c hw md address length exp_access log).status = UCS_OK ∧
        (uct_ib_md_reg_mr cfg c hw md address length exp_access log).mr_p = some mr)) ∧
    (exp_access ≠ 0 → cfg.HAVE_DECL_IBV_EXP_REG_MR = true →
      (uct_ib_md_reg_mr cfg c hw md address length exp_access log).log =
        log ++ [HwCall.ibv_exp_reg_mr md.pd address length
          (c.IBV_ACCESS_LOCAL_WRITE ||| c.IBV_ACCESS_REMOTE_WRITE |||
            c.IBV_ACCESS_REMOTE_READ ||| c.IBV_ACCESS_REMOTE_ATOMIC ||| exp_access)] ∧
      (hw.ibv_exp_reg_mr log md.pd address length
          (c.IBV_ACCESS_LOCAL_WRITE ||| c.IBV_ACCESS_REMOTE_WRITE |||
            c.IBV_ACCESS_REMOTE_READ ||| c.IBV_ACCESS_REMOTE_ATOMIC ||| exp_access) = none →
        (uct_ib_md_reg_mr cfg c hw md address length exp_access log).status =
          UCS_ERR_IO_ERROR ∧
        (uct_ib_md_reg_mr cfg c hw md address length exp_access log).mr_p = none) ∧
      (∀ mr, hw.ibv_exp_reg_mr log md.pd address length
          (c.IBV_ACCESS_LOCAL_WRITE ||| c.IBV_ACCESS_REMOTE_WRITE |||
            c.IBV_ACCESS_REMOTE_READ ||| c.IBV_ACCESS_REMOTE_ATOMIC ||| exp_access) = some mr →
        (uct_ib_md_reg_mr cfg c hw md address length exp_access log).status = UCS_OK ∧
        (uct_ib_md_reg_mr cfg c hw md address length exp_access log).mr_p = some mr)) ∧
    (exp_access ≠ 0 → cfg.HAVE_DECL_IBV_EXP_REG_MR = false →
      (uct_ib_md_reg_mr cfg c hw md address length exp_access log).log = log ∧
      (uct_ib_md_reg_mr cfg c hw md address length exp_access log).status =
        UCS_ERR_UNSUPPORTED ∧
      (uct_ib_md_reg_mr cfg c hw md address length exp_access log).mr_p = none) := by
  refine ⟨?_, ?_, ?_⟩
  · intro h0
    subst h0
    unfold uct_ib_md_reg_mr UCT_IB_MEM_ACCESS_FLAGS
    cases hx : hw.ibv_reg_mr log md.pd address length
      (c.IBV_ACCESS_LOCAL_WRITE ||| c.IBV_ACCESS_REMOTE_WRITE |||
        c.IBV_ACCESS_REMOTE_READ ||| c.IBV_ACCESS_REMOTE_ATOMIC) <;> simp [hx]
  · intro hne hcfg
    unfold uct_ib_md_reg_mr UCT_IB_MEM_ACCESS_FLAGS
    cases hx : hw.ibv_exp_reg_mr log md.pd address length
      (c.IBV_ACCESS_LOCAL_WRITE ||| c.IBV_ACCESS_REMOTE_WRITE |||
        c.IBV_ACCESS_REMOTE_READ ||| c.IBV_ACCESS_REMOTE_ATOMIC ||| exp_access) <;>
      simp [hx, hne, hcfg]
  · intro hne hcfg
    unfold uct_ib_md_reg_mr
    simp [hne, hcfg]

/-- Claim C6, amended, evaluated on the baseline path, on the extended path
and in a build without `ibv_exp_reg_mr`. -/
theorem uct_ib_md_reg_mr_paths_witness :
    (uct_ib_md_reg_mr cfgFull verbsConsts hwOk mdInactive 4096 8192 0 []).log =
      [HwCall.ibv_reg_mr 7 4096 8192 15] ∧
    (uct_ib_md_reg_mr cfgFull verbsConsts hwRegFail mdInactive 4096 8192 (2 ^ 46) []).status =
      UCS_ERR_IO_ERROR ∧
    (uct_ib_md_reg_mr cfgPlain verbsConsts hwOk mdInactive 4096 8192 (2 ^ 46) []).status =
      UCS_ERR_UNSUPPORTED :=
  ⟨((uct_ib_md_reg_mr_paths cfgFull verbsConsts hwOk mdInactive 4096 8192 0 []).1 rfl).1,
   (((uct_ib_md_reg_mr_paths cfgFull verbsConsts hwRegFail mdInactive 4096 8192 (2 ^ 46)
      []).2.1 (by decide) rfl).2.1 rfl).1,
   ((uct_ib_md_reg_mr_paths cfgPlain verbsConsts hwOk mdInactive 4096 8192 (2 ^ 46)
      []).2.2 (by decide) rfl).2.1⟩

/-! ## Deregistration -/

/-- Claim C7: one `uct_ib_memh_dereg` call issues exactly one release for
each key present on the handle, the indirect key's before the direct key's,
whatever the releases answer; absent keys are skipped. -/
theorem uct_ib_memh_dereg_calls (hw : Extern) (memh : uct_ib_mem_t) (log : List HwCall) :
    (uct_ib_memh_dereg hw memh log).2 =
      log ++ (memh.umr.toList ++ memh.mr.toList).map HwCall.ibv_dereg_mr := by
  unfold uct_ib_memh_dereg uct_ib_dereg_mr
  cases memh.umr <;> cases memh.mr <;> simp <;> split <;> simp <;> split <;> simp

theorem dereg_mr_status (hw : Extern) (mr : ibv_mr) (log : List HwCall) :
    ((uct_ib_dereg_mr hw mr log).1 = UCS_OK ↔ hw.ibv_dereg_mr log mr = 0) ∧
    ((uct_ib_dereg_mr hw mr log).1 ≠ UCS_OK →
      (uct_ib_dereg_mr hw mr log).1 = UCS_ERR_IO_ERROR) ∧
    (uct_ib_dereg_mr hw mr log).2 = log ++ [HwCall.ibv_dereg_mr mr] := by
  unfold uct_ib_dereg_mr
  by_cases h : hw.ibv_dereg_mr log mr = 0 <;> simp [h]

/-- Claim C8: `uct_ib_memh_dereg` returns `UCS_OK` exactly when every release
it performed succeeded; otherwise it returns `UCS_ERR_IO_ERROR`, which is
the first failing status in release order, also when both releases fail. -/
theorem uct_ib_memh_dereg_status (hw : Extern) (memh : uct_ib_mem_t) (log : List HwCall) :
    ((uct_ib_memh_dereg hw memh log).1 = UCS_OK ↔
      (∀ umr, memh.umr = some umr → hw.ibv_dereg_mr log umr = 0) ∧
      (∀ mr, memh.mr = some mr →
        hw.ibv_dereg_mr (log ++ memh.umr.toList.map HwCall.ibv_dereg_mr) mr = 0)) ∧
    ((uct_ib_memh_dereg hw memh log).1 ≠ UCS_OK →
      (uct_ib_memh_dereg hw memh log).1 = UCS_ERR_IO_ERROR) ∧
    (uct_ib_memh_dereg hw memh log).1 = first_error (release_statuses hw memh log) := by
  unfold uct_ib_memh_dereg release_statuses
  cases hu : memh.umr with
  | none =>
    cases hm : memh.mr with
    | none => simp [first_error]
    | some mr =>
      obtain ⟨h1, h2, _⟩ := dereg_mr_status hw mr log
      by_cases h : (uct_ib_dereg_mr hw mr log).1 = UCS_OK
      · simp [first_error, h, ← h1]
      · simp [first_error, h, ← h1, h2 h]
  | some umr =>
    obtain ⟨u1, u2, u3⟩ := dereg_mr_status hw umr log
    cases hm : memh.mr with
    | none =>
      by_cases h : (uct_ib_dereg_mr hw umr log).1 = UCS_OK
      · simp [first_error, h, ← u1]
      · simp [first_error, h, ← u1, u2 h]
    | some mr =>
      obtain ⟨h1, h2, _⟩ := dereg_mr_status hw mr (log ++ [HwCall.ibv_dereg_mr umr])
      by_cases hU : (uct_ib_dereg_mr hw umr log).1 = UCS_OK <;>
        by_cases hM : (uct_ib_dereg_mr hw mr (log ++ [HwCall.ibv_dereg_mr umr])).1 = UCS_OK
      · simp [first_error, u3, hU, hM, ← u1, ← h1]
      · simp [first_error, u3, hU, hM, ← u1, ← h1, h2 hM]
      · simp [first_error, u3, hU, hM, ← u1, ← h1, u2 hU]
      · simp [first_error, u3, hU, hM, ← u1, ← h1, u2 hU, h2 hM]

/-- Claim C9 fails for `uct_ib_mem_free`: on a handle whose direct-key release
fails it returns `UCS_ERR_IO_ERROR` after the release attempt without
freeing the handle object, while `uct_ib_mem_dereg` on the same handle frees
the handle object at `1000`. -/
theorem uct_ib_mem_free_leaks_handle_on_error :
    uct_ib_mem_free hwDeregFail 1000 memh_direct [] =
      some (UCS_ERR_IO_ERROR, [HwCall.ibv_dereg_mr mr0]) ∧
    uct_ib_mem_dereg hwDeregFail 1000 memh_direct [] =
      (UCS_ERR_IO_ERROR, [HwCall.ibv_dereg_mr mr0, HwCall.ucs_free 1000]) := by
  constructor <;> rfl

/-! ## Failure paths of registration -/

theorem umr_poll_log (c : Consts) (hw : Extern) (cq : Nat) (fuel : Nat) :
    ∀ (log : List HwCall) (b : Bool) (log2 : List HwCall),
      umr_poll c hw cq fuel log = some (b, log2) →
      ∃ n, log2 = log ++ List.replicate n (HwCall.ibv_poll_cq cq) := by
  induction fuel with
  | zero => intro log b log2 h; simp [umr_poll] at h
  | succ k ih =>
    intro log b log2 h
    unfold umr_poll at h
    simp only at h
    split at h
    · simp only [Option.some.injEq, Prod.mk.injEq] at h
      exact ⟨1, by simp [← h.2]⟩
    · split at h
      · split at h <;>
        · simp only [Option.some.injEq, Prod.mk.injEq] at h
          exact ⟨1, by simp [← h.2]⟩
      · obtain ⟨n, hn⟩ := ih _ b log2 h
        exact ⟨n + 1, by rw [hn, List.replicate_succ]; simp⟩

theorem create_umr_log (fuel : Nat) (cfg : BuildConfig) (c : Consts) (hw : Extern)
    (md : uct_ib_md_t) (mr : ibv_mr) (log : List HwCall) (res : Option ibv_mr)
    (log2 : List HwCall)
    (h : uct_ib_md_create_umr fuel cfg c hw md mr log = some (res, log2)) :
    ∃ evs, log2 = log ++ evs ∧
      ∀ k, HwCall.ibv_dereg_mr k ∈ evs →
        hw.ibv_exp_create_mr log (umr_mrin cfg c md) = some k := by
  unfold uct_ib_md_create_umr at h
  by_cases hcfg : cfg.HAVE_EXP_UMR = true
  · simp only [hcfg, if_true] at h
    cases hq : md.umr_qp with
    | none =>
      simp only [hq, Option.some.injEq, Prod.mk.injEq] at h
      exact ⟨[], by simp [← h.2], by simp⟩
    | some qp =>
      cases hc : md.umr_cq with
      | none =>
        simp only [hq, hc, Option.some.injEq, Prod.mk.injEq] at h
        exact ⟨[], by simp [← h.2], by simp⟩
      | some cq =>
        simp only [hq, hc] at h
        cases hk : hw.ibv_exp_create_mr log (umr_mrin cfg c md) with
        | none =>
          simp only [umr_mrin] at hk
          simp only [hk, Option.some.injEq, Prod.mk.injEq] at h
          exact ⟨_, h.2.symm, by simp⟩
        | some umr =>
          have hk2 := hk
          simp only [umr_mrin] at hk2
          simp only [hk2] at h
          split at h
          · simp only [Option.some.injEq, Prod.mk.injEq] at h
            refine ⟨_, by rw [← h.2, List.append_assoc, List.append_assoc], ?_⟩
            intro k hmem
            simp at hmem
            rw [hmem]
          · split at h
            · simp at h
            · rename_i log3 hp
              obtain ⟨n, hn⟩ := umr_poll_log c hw cq fuel _ _ _ hp
              simp only [Option.some.injEq, Prod.mk.injEq] at h
              refine ⟨_, by rw [← h.2, hn, List.append_assoc, List.append_assoc], ?_⟩
              intro k hmem
              simp [List.mem_replicate] at hmem
            · rename_i log3 hp
              obtain ⟨n, hn⟩ := umr_poll_log c hw cq fuel _ _ _ hp
              simp only [Option.some.injEq, Prod.mk.injEq] at h
              refine ⟨_, by rw [← h.2, hn, List.append_assoc, List.append_assoc,
                List.append_assoc], ?_⟩
              intro k hmem
              simp [List.mem_replicate] at hmem
              rw [hmem]
  · simp only [hcfg] at h
    simp only [Bool.false_eq_true, if_false, Option.some.injEq, Prod.mk.injEq] at h
    exact ⟨[], by simp [← h.2], by simp⟩

theorem reg_mr_log (cfg : BuildConfig) (c : Consts) (hw : Extern) (md : uct_ib_md_t)
    (address length exp_access : Nat) (log : List HwCall) :
    ∃ evs, (uct_ib_md_reg_mr cfg c hw md address length exp_access log).log = log ++ evs ∧
      (∀ k, HwCall.ibv_dereg_mr k ∉ evs) ∧ (∀ e ∈ evs, is_umr_call e = false) := by
  unfold uct_ib_md_reg_mr
  by_cases he : (exp_access != 0) = true
  · by_cases hc : cfg.HAVE_DECL_IBV_EXP_REG_MR = true
    · simp only [he, hc, if_true]
      cases hw.ibv_exp_reg_mr log md.pd address length
        (UCT_IB_MEM_ACCESS_FLAGS c ||| exp_access) <;>
        exact ⟨_, rfl, by simp, by simp [is_umr_call]⟩
    · simp only [he, hc, if_true]
      exact ⟨[], by simp, by simp, by simp⟩
  · simp only [he]
    cases hw.ibv_reg_mr log md.pd address length (UCT_IB_MEM_ACCESS_FLAGS c) <;>
      exact ⟨_, rfl, by simp, by simp [is_umr_call]⟩

/-- Claim C10: in a domain with active indirect-key engine, after a successful
handle allocation: when the direct registration succeeds and
`uct_ib_md_create_umr` returns `NULL`, `uct_ib_mem_reg` returns
`UCS_ERR_IO_ERROR`, writes nothing to `*memh_p`, and ends with the release of
the direct key followed by the release of the handle object, the direct key
being released exactly once in the whole call; when the direct registration
fails, its status is returned, nothing is written to `*memh_p`, no call that
builds an indirect key is made and the call ends with the release of the
handle object. -/
theorem uct_ib_mem_reg_failure_paths (fuel : Nat) (cfg : BuildConfig) (c : Consts)
    (hw : Extern) (md : uct_ib_md_t) (address length flags : Nat) (log : List HwCall)
    (ptr : Nat) (hact : engine_active cfg md) (halloc : hw.ucs_calloc log = some ptr) :
    (∀ mr log2,
      (uct_ib_md_reg_mr cfg c hw md address length
        (uct_ib_md_access_flags c md flags length) (log ++ [HwCall.ucs_calloc])).status =
          UCS_OK →
      (uct_ib_md_reg_mr cfg c hw md address length
        (uct_ib_md_access_flags c md flags length) (log ++ [HwCall.ucs_calloc])).mr_p =
          some mr →
      uct_ib_md_create_umr fuel cfg c hw md mr
        (uct_ib_md_reg_mr cfg c hw md address length
          (uct_ib_md_access_flags c md flags length) (log ++ [HwCall.ucs_calloc])).log =
          some (none, log2) →
      uct_ib_mem_reg fuel cfg c hw md address length flags log =
        some { status := UCS_ERR_IO_ERROR, memh_p := none,
               log := log2 ++ [HwCall.ibv_dereg_mr mr, HwCall.ucs_free ptr] } ∧
      (hw.ibv_exp_create_mr
          (uct_ib_md_reg_mr cfg c hw md address length
            (uct_ib_md_access_flags c md flags length) (log ++ [HwCall.ucs_calloc])).log
          (umr_mrin cfg c md) ≠ some mr →
        ((log2 ++ [HwCall.ibv_dereg_mr mr, HwCall.ucs_free ptr]).drop log.length).count
          (HwCall.ibv_dereg_mr mr) = 1)) ∧
    ((uct_ib_md_reg_mr cfg c hw md address length
        (uct_ib_md_access_flags c md flags length) (log ++ [HwCall.ucs_calloc])).status ≠
          UCS_OK →
      uct_ib_mem_reg fuel cfg c hw md address length flags log =
        some { status := (uct_ib_md_reg_mr cfg c hw md address length
                 (uct_ib_md_access_flags c md flags length)
                 (log ++ [HwCall.ucs_calloc])).status,
               memh_p := none,
               log := (uct_ib_md_reg_mr cfg c hw md address length
                 (uct_ib_md_access_flags c md flags length)
                 (log ++ [HwCall.ucs_calloc])).log ++ [HwCall.ucs_free ptr] } ∧
      ∀ e ∈ ((uct_ib_md_reg_mr cfg c hw md address length
                 (uct_ib_md_access_flags c md flags length)
                 (log ++ [HwCall.ucs_calloc])).log ++ [HwCall.ucs_free ptr]).drop log.length,
        is_umr_call e = false) := by
  obtain ⟨hcfg, hq, _⟩ := hact
  obtain ⟨qp, hqp⟩ := Option.ne_none_iff_exists'.mp hq
  obtain ⟨revs, hrlog, hrd, hru⟩ := reg_mr_log cfg c hw md address length
    (uct_ib_md_access_flags c md flags length) (log ++ [HwCall.ucs_calloc])
  constructor
  · intro mr log2 hst hmr hcreate
    constructor
    · unfold uct_ib_mem_reg uct_ib_memh_alloc uct_ib_mem_reg_internal
      simp [halloc, hst, hmr, hcreate, hcfg, hqp, uct_ib_memh_free]
    · intro hfresh
      obtain ⟨evs, hlog2, hevs⟩ := create_umr_log fuel cfg c hw md mr _ none log2 hcreate
      rw [hlog2, hrlog]
      have e1 : log ++ [HwCall.ucs_calloc] ++ revs ++ evs ++
          [HwCall.ibv_dereg_mr mr, HwCall.ucs_free ptr] =
          log ++ ([HwCall.ucs_calloc] ++ revs ++ evs ++
            [HwCall.ibv_dereg_mr mr, HwCall.ucs_free ptr]) := by
        simp
      rw [e1, List.drop_left]
      have c1 : revs.count (HwCall.ibv_dereg_mr mr) = 0 :=
        List.count_eq_zero.mpr (hrd mr)
      have c2 : evs.count (HwCall.ibv_dereg_mr mr) = 0 := by
        apply List.count_eq_zero.mpr
        intro hmem
        exact hfresh (hrlog ▸ hevs mr hmem)
      simp [List.count_append, c1, c2, List.count_cons]
  · intro hst
    constructor
    · unfold uct_ib_mem_reg uct_ib_memh_alloc uct_ib_mem_reg_internal
      simp [halloc, hst, uct_ib_memh_free]
    · rw [hrlog]
      have e1 : log ++ [HwCall.ucs_calloc] ++ revs ++ [HwCall.ucs_free ptr] =
          log ++ ([HwCall.ucs_calloc] ++ revs ++ [HwCall.ucs_free ptr]) := by
        simp
      rw [e1, List.drop_left]
      intro e he
      simp only [List.append_assoc, List.mem_append, List.mem_singleton, List.mem_cons,
        List.not_mem_nil, or_false] at he
      rcases he with he | he | he
      · subst he; rfl
      · exact hru e he
      · subst he; rfl

/-- Claim C10 at `mdActive`: a completion with failure status in the
environment `hwWcError`, and a failing direct registration in `hwRegFail`. -/
theorem uct_ib_mem_reg_failure_paths_witness :
    engine_active cfgFull mdActive ∧
    uct_ib_mem_reg 1 cfgFull verbsConsts hwWcError mdActive 4096 8192 0 [] =
      some { status := UCS_ERR_IO_ERROR, memh_p := none,
             log := log_wc_error ++ [HwCall.ibv_dereg_mr mr0, HwCall.ucs_free 1000] } ∧
    ((log_wc_error ++ [HwCall.ibv_dereg_mr mr0, HwCall.ucs_free 1000]).drop 0).count
      (HwCall.ibv_dereg_mr mr0) = 1 ∧
    uct_ib_mem_reg 1 cfgFull verbsConsts hwRegFail mdActive 4096 8192 0 [] =
      some { status := UCS_ERR_IO_ERROR, memh_p := none,
             log := [HwCall.ucs_calloc, HwCall.ibv_reg_mr 7 4096 8192 15,
                     HwCall.ucs_free 1000] } :=
  ⟨⟨rfl, by decide, by decide⟩,
   ((uct_ib_mem_reg_failure_paths 1 cfgFull verbsConsts hwWcError mdActive 4096 8192 0 []
      1000 ⟨rfl, by decide, by decide⟩ rfl).1 mr0 log_wc_error rfl rfl rfl).1,
   ((uct_ib_mem_reg_failure_paths 1 cfgFull verbsConsts hwWcError mdActive 4096 8192 0 []
      1000 ⟨rfl, by decide, by decide⟩ rfl).1 mr0 log_wc_error rfl rfl rfl).2 (by decide),
   ((uct_ib_mem_reg_failure_paths 1 cfgFull verbsConsts hwRegFail mdActive 4096 8192 0 []
      1000 ⟨rfl, by decide, by decide⟩ rfl).2 (by decide)).1⟩

/-! ## Allocation -/

theorem or_ne_zero_right (a b : Nat) (hb : b ≠ 0) : a ||| b ≠ 0 := by
  intro h
  apply hb
  apply Nat.eq_of_testBit_eq
  intro i
  have hi : (a ||| b).testBit i = false := by rw [h]; exact Nat.zero_testBit i
  rw [Nat.testBit_or, Bool.or_eq_false_iff] at hi
  rw [hi.2, Nat.zero_testBit]

/-- Claim C11 as stated fails in a build without `IBV_EXP_ACCESS_ALLOCATE_MR`:
`uct_ib_mem_alloc` makes no call at all, registration included, and returns
`UCS_ERR_UNSUPPORTED`, in an environment in which every call would
succeed. -/
theorem mem_alloc_unsupported_counterexample :
    uct_ib_mem_alloc 1 cfgPlain verbsConsts hwOk mdInactive 8192 0 [] =
      some { status := UCS_ERR_UNSUPPORTED, address_p := none, length_p := none,
             memh_p := none, log := [] } ∧
    hwOk.ibv_exp_reg_mr [HwCall.ucs_calloc] mdInactive.pd 0 8192
      (UCT_IB_MEM_ACCESS_FLAGS verbsConsts |||
        (uct_ib_md_access_flags verbsConsts mdInactive 0 8192 |||
          verbsConsts.IBV_EXP_ACCESS_ALLOCATE_MR)) = some mr0 := by
  constructor <;> rfl

/-- Claim C11, amended.  In a build with `IBV_EXP_ACCESS_ALLOCATE_MR`, once the
handle object is allocated, `uct_ib_mem_alloc` registers with a `NULL`
address and the extra flags `uct_ib_md_access_flags(md, flags, length)` or-ed
with the allocate bit, which (the bit being non-zero, `ibv_exp_reg_mr`
present) is the extended registration.  A failed registration returns its
status; a `NULL` indirect key with `umr_qp` set returns `UCS_ERR_IO_ERROR`
after the release of the direct key; both free the handle object and write
no output.  Otherwise the call returns `UCS_OK`, a handle with the direct
key's `lkey`, and the direct key's address and length as passed through
`ucs_memtrack_allocated`.  A failed handle allocation returns
`UCS_ERR_NO_MEMORY`, and a build without the allocate bit
`UCS_ERR_UNSUPPORTED` without any call; neither writes an output. -/
theorem uct_ib_mem_alloc_paths (fuel : Nat) (cfg : BuildConfig) (c : Consts) (hw : Extern)
    (md : uct_ib_md_t) (length_in flags : Nat) (log : List HwCall) :
    (cfg.HAVE_DECL_IBV_EXP_ACCESS_ALLOCATE_MR = false →
      uct_ib_mem_alloc fuel cfg c hw md length_in flags log =
        some { status := UCS_ERR_UNSUPPORTED, address_p := none, length_p := none,
               memh_p := none, log := log }) ∧
    (cfg.HAVE_DECL_IBV_EXP_ACCESS_ALLOCATE_MR = true → hw.ucs_calloc log = none →
      uct_ib_mem_alloc fuel cfg c hw md length_in flags log =
        some { status := UCS_ERR_NO_MEMORY, address_p := none, length_p := none,
               memh_p := none, log := log ++ [HwCall.ucs_calloc] }) ∧
    (∀ ptr, cfg.HAVE_DECL_IBV_EXP_ACCESS_ALLOCATE_MR = true → hw.ucs_calloc log = some ptr →
      (c.IBV_EXP_ACCESS_ALLOCATE_MR ≠ 0 → cfg.HAVE_DECL_IBV_EXP_REG_MR = true →
        (uct_ib_md_reg_mr cfg c hw md 0 (hw.ucs_memtrack_adjust_alloc_size length_in)
          (uct_ib_md_access_flags c md flags (hw.ucs_memtrack_adjust_alloc_size length_in) |||
            c.IBV_EXP_ACCESS_ALLOCATE_MR) (log ++ [HwCall.ucs_calloc])).log =
          log ++ [HwCall.ucs_calloc] ++
            [HwCall.ibv_exp_reg_mr md.pd 0 (hw.ucs_memtrack_adjust_alloc_size length_in)
              (UCT_IB_MEM_ACCESS_FLAGS c |||
                (uct_ib_md_access_flags c md flags
                    (hw.ucs_memtrack_adjust_alloc_size length_in) |||
                  c.IBV_EXP_ACCESS_ALLOCATE_MR))]) ∧
      ((uct_ib_md_reg_mr cfg c hw md 0 (hw.ucs_memtrack_adjust_alloc_size length_in)
          (uct_ib_md_access_flags c md flags (hw.ucs_memtrack_adjust_alloc_size length_in) |||
            c.IBV_EXP_ACCESS_ALLOCATE_MR) (log ++ [HwCall.ucs_calloc])).status ≠ UCS_OK →
        uct_ib_mem_alloc fuel cfg c hw md length_in flags log =
          some { status := (uct_ib_md_reg_mr cfg c hw md 0
                   (hw.ucs_memtrack_adjust_alloc_size length_in)
                   (uct_ib_md_access_flags c md flags
                       (hw.ucs_memtrack_adjust_alloc_size length_in) |||
                     c.IBV_EXP_ACCESS_ALLOCATE_MR) (log ++ [HwCall.ucs_calloc])).status,
                 address_p := none, length_p := none, memh_p := none,
                 log := (uct_ib_md_reg_mr cfg c hw md 0
                   (hw.ucs_memtrack_adjust_alloc_size length_in)
                   (uct_ib_md_access_flags c md flags
                       (hw.ucs_memtrack_adjust_alloc_size length_in) |||
                     c.IBV_EXP_ACCESS_ALLOCATE_MR) (log ++ [HwCall.ucs_calloc])).log ++
                   [HwCall.ucs_free ptr] }) ∧
      (∀ mr umr log2,
        (uct_ib_md_reg_mr cfg c hw md 0 (hw.ucs_memtrack_adjust_alloc_size length_in)
          (uct_ib_md_access_flags c md flags (hw.ucs_memtrack_adjust_alloc_size length_in) |||
            c.IBV_EXP_ACCESS_ALLOCATE_MR) (log ++ [HwCall.ucs_calloc])).status = UCS_OK →
        (uct_ib_md_reg_mr cfg c hw md 0 (hw.ucs_memtrack_adjust_alloc_size length_in)
          (uct_ib_md_access_flags c md flags (hw.ucs_memtrack_adjust_alloc_size length_in) |||
            c.IBV_EXP_ACCESS_ALLOCATE_MR) (log ++ [HwCall.ucs_calloc])).mr_p = some mr →
        uct_ib_md_create_umr fuel cfg c hw md mr
          (uct_ib_md_reg_mr cfg c hw md 0 (hw.ucs_memtrack_adjust_alloc_size length_in)
            (uct_ib_md_access_flags c md flags
                (hw.ucs_memtrack_adjust_alloc_size length_in) |||
              c.IBV_EXP_ACCESS_ALLOCATE_MR) (log ++ [HwCall.ucs_calloc])).log =
          some (umr, log2) →
        (cfg.HAVE_EXP_UMR = true → umr = none → md.umr_qp ≠ none →
          uct_ib_mem_alloc fuel cfg c hw md length_in flags log =
            some { status := UCS_ERR_IO_ERROR, address_p := none, length_p := none,
                   memh_p := none,
                   log := log2 ++ [HwCall.ibv_dereg_mr mr, HwCall.ucs_free ptr] }) ∧
        (¬ (cfg.HAVE_EXP_UMR = true ∧ umr = none ∧ md.umr_qp ≠ none) →
          ∃ log3, uct_ib_mem_alloc fuel cfg c hw md length_in flags log =
            some { status := UCS_OK,
                   address_p := some (hw.ucs_memtrack_allocated mr.addr mr.length).1,
                   length_p := some (hw.ucs_memtrack_allocated mr.addr mr.length).2,
                   memh_p := some (ptr, { lkey := mr.lkey, mr := some mr, umr := umr }),
                   log := log3 }))) := by
  refine ⟨?_, ?_, ?_⟩
  · intro hcfg
    simp [uct_ib_mem_alloc, hcfg]
  · intro hcfg hnull
    simp [uct_ib_mem_alloc, uct_ib_memh_alloc, hcfg, hnull]
  · intro ptr hcfg hptr
    refine ⟨?_, ?_, ?_⟩
    · intro hbit hreg
      have hne := or_ne_zero_right
        (uct_ib_md_access_flags c md flags (hw.ucs_memtrack_adjust_alloc_size length_in))
        c.IBV_EXP_ACCESS_ALLOCATE_MR hbit
      unfold uct_ib_md_reg_mr
      simp only [bne_iff_ne, ne_eq, hne, not_false_eq_true, if_true, hreg]
      split <;> rfl
    · intro hst
      simp [uct_ib_mem_alloc, uct_ib_memh_alloc, hcfg, hptr, hst, uct_ib_memh_free]
    · intro mr umr log2 hst hmr hcreate
      constructor
      · intro hu hnone hq
        obtain ⟨qp, hqp⟩ := Option.ne_none_iff_exists'.mp hq
        subst hnone
        simp [uct_ib_mem_alloc, uct_ib_memh_alloc, hcfg, hptr, hst, hmr, hcreate, hu, hqp,
          uct_ib_memh_free, memh_zero]
      · intro hno
        obtain ⟨r, hr⟩ := prefetch_returns cfg c hw md
          { lkey := mr.lkey, mr := some mr, umr := umr } mr
          (uct_ib_md_access_flags c md flags (hw.ucs_memtrack_adjust_alloc_size length_in) |||
            c.IBV_EXP_ACCESS_ALLOCATE_MR) log2 rfl
        have hcond : (cfg.HAVE_EXP_UMR && (umr.isNone && md.umr_qp.isSome)) = false := by
          rw [Bool.eq_false_iff]
          intro h
          simp only [Bool.and_eq_true, Option.isNone_iff_eq_none,
            Option.isSome_iff_ne_none] at h
          exact hno ⟨h.1, h.2.1, h.2.2⟩
        refine ⟨r.2, ?_⟩
        simp [uct_ib_mem_alloc, uct_ib_memh_alloc, hcfg, hptr, hst, hmr, hcreate, hcond, hr,
          memh_zero]

/-- Claim C11, amended, evaluated in `mdInactive`: a successful allocation in
the full build, and a failed registration. -/
theorem uct_ib_mem_alloc_paths_witness :
    uct_ib_mem_alloc 1 cfgFull verbsConsts hwRegFail mdInactive 8192 0 [] =
      some { status := UCS_ERR_IO_ERROR, address_p := none, length_p := none,
             memh_p := none,
             log := [HwCall.ucs_calloc, HwCall.ibv_exp_reg_mr 7 0 8192 (15 ||| (0 ||| 2 ^ 37)),
                     HwCall.ucs_free 1000] } ∧
    (∃ log3, uct_ib_mem_alloc 1 cfgFull verbsConsts hwOk mdInactive 8192 0 [] =
      some { status := UCS_OK, address_p := some 4096, length_p := some 8192,
             memh_p := some (1000, { lkey := 17, mr := some mr0, umr := none }),
             log := log3 }) :=
  ⟨((uct_ib_mem_alloc_paths 1 cfgFull verbsConsts hwRegFail mdInactive 8192 0 []).2.2
      1000 rfl rfl).2.1 (by decide),
   (((uct_ib_mem_alloc_paths 1 cfgFull verbsConsts hwOk mdInactive 8192 0 []).2.2
      1000 rfl rfl).2.2 mr0 none _ rfl rfl rfl).2 (by decide)⟩

/-! ## Creation of an indirect key -/

theorem poll_answer_succ (hw : Extern) (cq : Nat) (log : List HwCall) (k : Nat) :
    poll_answer hw cq log (k + 1) = poll_answer hw cq (log ++ [HwCall.ibv_poll_cq cq]) k := by
  unfold poll_answer
  rw [List.replicate_succ, List.append_assoc]
  rfl

theorem replicate_succ_append (log : List HwCall) (e : HwCall) (n : Nat) :
    log ++ [e] ++ List.replicate n e = log ++ List.replicate (n + 1) e := by
  rw [List.replicate_succ, List.append_assoc]
  rfl

theorem umr_poll_stops (c : Consts) (hw : Extern) (cq : Nat) (n : Nat) :
    ∀ (fuel : Nat) (log : List HwCall), n < fuel →
      (∀ k, k < n → ¬ (poll_answer hw cq log k).1 < 0 ∧ (poll_answer hw cq log k).1 ≠ 1) →
      ((poll_answer hw cq log n).1 = 1 ∧ (poll_answer hw cq log n).2 = c.IBV_WC_SUCCESS →
        umr_poll c hw cq fuel log =
          some (true, log ++ List.replicate (n + 1) (HwCall.ibv_poll_cq cq))) ∧
      ((poll_answer hw cq log n).1 < 0 ∨
        ((poll_answer hw cq log n).1 = 1 ∧ (poll_answer hw cq log n).2 ≠ c.IBV_WC_SUCCESS) →
        umr_poll c hw cq fuel log =
          some (false, log ++ List.replicate (n + 1) (HwCall.ibv_poll_cq cq))) := by
  induction n with
  | zero =>
    intro fuel log hf _
    obtain ⟨f, rfl⟩ : ∃ f, fuel = f + 1 := ⟨fuel - 1, by omega⟩
    have h0 : poll_answer hw cq log 0 = hw.ibv_poll_cq log cq := by
      simp [poll_answer]
    rw [h0]
    constructor
    · intro ⟨h1, h2⟩
      have hn : ¬ (hw.ibv_poll_cq log cq).1 < 0 := by omega
      simp [umr_poll, h1, h2]
    · intro h
      rcases h with h | ⟨h1, h2⟩
      · simp [umr_poll, h]
      · have hn : ¬ (hw.ibv_poll_cq log cq).1 < 0 := by omega
        simp [umr_poll, h1, h2]
  | succ m ih =>
    intro fuel log hf hempty
    obtain ⟨f, rfl⟩ : ∃ f, fuel = f + 1 := ⟨fuel - 1, by omega⟩
    have h0 := hempty 0 (by omega)
    have h0' : poll_answer hw cq log 0 = hw.ibv_poll_cq log cq := by
      simp [poll_answer]
    rw [h0'] at h0
    have hstep : umr_poll c hw cq (f + 1) log =
        umr_poll c hw cq f (log ++ [HwCall.ibv_poll_cq cq]) := by
      rw [umr_poll]
      simp [h0.1, h0.2]
    have hrest := ih f (log ++ [HwCall.ibv_poll_cq cq]) (by omega) (by
      intro k hk
      rw [← poll_answer_succ]
      exact hempty (k + 1) (by omega))
    rw [hstep, poll_answer_succ, ← replicate_succ_append]
    exact hrest

theorem umr_poll_starves (c : Consts) (hw : Extern) (cq : Nat) (fuel : Nat) :
    ∀ (log : List HwCall),
      (∀ k, k < fuel → ¬ (poll_answer hw cq log k).1 < 0 ∧ (poll_answer hw cq log k).1 ≠ 1) →
      umr_poll c hw cq fuel log = none := by
  induction fuel with
  | zero => intro log _; rfl
  | succ f ih =>
    intro log hempty
    have h0 := hempty 0 (by omega)
    have h0' : poll_answer hw cq log 0 = hw.ibv_poll_cq log cq := by
      simp [poll_answer]
    rw [h0'] at h0
    rw [umr_poll]
    simp only [h0.1, h0.2, if_false]
    apply ih
    intro k hk
    rw [← poll_answer_succ]
    exact hempty (k + 1) (by omega)

theorem umr_poll_inv (c : Consts) (hw : Extern) (cq : Nat) (fuel : Nat) :
    ∀ (log : List HwCall) (b : Bool) (log3 : List HwCall),
      umr_poll c hw cq fuel log = some (b, log3) →
      ∃ n, n < fuel ∧ log3 = log ++ List.replicate (n + 1) (HwCall.ibv_poll_cq cq) ∧
        (∀ k, k < n →
          ¬ (poll_answer hw cq log k).1 < 0 ∧ (poll_answer hw cq log k).1 ≠ 1) ∧
        (b = true →
          (poll_answer hw cq log n).1 = 1 ∧ (poll_answer hw cq log n).2 = c.IBV_WC_SUCCESS) ∧
        (b = false →
          (poll_answer hw cq log n).1 < 0 ∨
          ((poll_answer hw cq log n).1 = 1 ∧
            (poll_answer hw cq log n).2 ≠ c.IBV_WC_SUCCESS)) := by
  induction fuel with
  | zero => intro log b log3 h; simp [umr_poll] at h
  | succ f ih =>
    intro log b log3 h
    have h0' : poll_answer hw cq log 0 = hw.ibv_poll_cq log cq := by
      simp [poll_answer]
    rw [umr_poll] at h
    by_cases hneg : (hw.ibv_poll_cq log cq).1 < 0
    · simp only [hneg, if_true, Option.some.injEq, Prod.mk.injEq] at h
      refine ⟨0, by omega, by simp [← h.2], by intro k hk; omega, ?_, ?_⟩
      · intro hb; rw [← h.1] at hb; cases hb
      · intro _; rw [h0']; exact Or.inl hneg
    · by_cases hone : (hw.ibv_poll_cq log cq).1 = 1
      · by_cases hst : (hw.ibv_poll_cq log cq).2 = c.IBV_WC_SUCCESS
        · simp [hone, hst] at h
          refine ⟨0, by omega, by simp [← h.2], by intro k hk; omega, ?_, ?_⟩
          · intro _; rw [h0']; exact ⟨hone, hst⟩
          · intro hb; rw [h.1] at hb; cases hb
        · simp [hone, hst] at h
          refine ⟨0, by omega, by simp [← h.2], by intro k hk; omega, ?_, ?_⟩
          · intro hb; rw [h.1] at hb; cases hb
          · intro _; rw [h0']; exact Or.inr ⟨hone, hst⟩
      · simp only [hneg, hone, if_false] at h
        obtain ⟨n, hn, hlog, hempty, ht, hf⟩ := ih _ b log3 h
        refine ⟨n + 1, by omega, ?_, ?_, ?_, ?_⟩
        · rw [hlog, replicate_succ_append]
        · intro k hk
          cases k with
          | zero => rw [h0']; exact ⟨hneg, hone⟩
          | succ j => rw [poll_answer_succ]; exact hempty j (by omega)
        · intro hb; rw [poll_answer_succ]; exact ht hb
        · intro hb; rw [poll_answer_succ]; exact hf hb

theorem create_umr_active (fuel : Nat) (cfg : BuildConfig) (c : Consts) (hw : Extern)
    (md : uct_ib_md_t) (mr : ibv_mr) (log : List HwCall) (qp cq : Nat)
    (hcfg : cfg.HAVE_EXP_UMR = true) (hq : md.umr_qp = some qp) (hc : md.umr_cq = some cq) :
    uct_ib_md_create_umr fuel cfg c hw md mr log =
      match hw.ibv_exp_create_mr log (umr_mrin cfg c md) with
      | none => some (none, log ++ [HwCall.ibv_exp_create_mr (umr_mrin cfg c md)])
      | some umr =>
        if hw.ibv_exp_post_send (log ++ [HwCall.ibv_exp_create_mr (umr_mrin cfg c md)]) qp
            (umr_wr cfg c hw md mr umr) ≠ 0 then
          some (none, log ++ [HwCall.ibv_exp_create_mr (umr_mrin cfg c md)] ++
            [HwCall.ibv_exp_post_send qp (umr_wr cfg c hw md mr umr)] ++
            [HwCall.ibv_dereg_mr umr])
        else
          match umr_poll c hw cq fuel
              (log ++ [HwCall.ibv_exp_create_mr (umr_mrin cfg c md)] ++
                [HwCall.ibv_exp_post_send qp (umr_wr cfg c hw md mr umr)]) with
          | none => none
          | some (true, log3) => some (some umr, log3)
          | some (false, log3) => some (none, log3 ++ [HwCall.ibv_dereg_mr umr]) := by
  unfold uct_ib_md_create_umr
  simp only [hcfg, if_true, hq, hc]
  rfl

/-- Claim C12: with an active engine `uct_ib_md_create_umr` (1) returns `NULL`
when the key cannot be created; (2) returns `NULL` right after a failed
post, with one release of the new key and no poll; (3) after `n` empty polls
followed by a decisive one polls exactly `n + 1` times, returning the new
key on a single completion with success status, and `NULL` after one
release of the new key on a negative result or a failure status; (4) never
returns while the polls stay empty; (5) returns a key only in the success
case of (3), polls returning at most one completion; (6) never releases the
direct key. -/
theorem uct_ib_md_create_umr_outcomes (cfg : BuildConfig) (c : Consts) (hw : Extern)
    (md : uct_ib_md_t) (mr : ibv_mr) (log : List HwCall) (qp cq : Nat)
    (hcfg : cfg.HAVE_EXP_UMR = true) (hq : md.umr_qp = some qp) (hc : md.umr_cq = some cq) :
    (hw.ibv_exp_create_mr log (umr_mrin cfg c md) = none →
      ∀ fuel, uct_ib_md_create_umr fuel cfg c hw md mr log =
        some (none, log ++ [HwCall.ibv_exp_create_mr (umr_mrin cfg c md)])) ∧
    (∀ umr, hw.ibv_exp_create_mr log (umr_mrin cfg c md) = some umr →
      (hw.ibv_exp_post_send (log ++ [HwCall.ibv_exp_create_mr (umr_mrin cfg c md)]) qp
          (umr_wr cfg c hw md mr umr) ≠ 0 →
        ∀ fuel, uct_ib_md_create_umr fuel cfg c hw md mr log =
          some (none, log ++ [HwCall.ibv_exp_create_mr (umr_mrin cfg c md)] ++
            [HwCall.ibv_exp_post_send qp (umr_wr cfg c hw md mr umr)] ++
            [HwCall.ibv_dereg_mr umr])) ∧
      (hw.ibv_exp_post_send (log ++ [HwCall.ibv_exp_create_mr (umr_mrin cfg c md)]) qp
          (umr_wr cfg c hw md mr umr) = 0 →
        (∀ n, (∀ k, k < n →
            (poll_answer hw cq (log ++ [HwCall.ibv_exp_create_mr (umr_mrin cfg c md)] ++
              [HwCall.ibv_exp_post_send qp (umr_wr cfg c hw md mr umr)]) k).1 = 0) →
          ((poll_answer hw cq (log ++ [HwCall.ibv_exp_create_mr (umr_mrin cfg c md)] ++
              [HwCall.ibv_exp_post_send qp (umr_wr cfg c hw md mr umr)]) n).1 = 1 ∧
            (poll_answer hw cq (log ++ [HwCall.ibv_exp_create_mr (umr_mrin cfg c md)] ++
              [HwCall.ibv_exp_post_send qp (umr_wr cfg c hw md mr umr)]) n).2 =
                c.IBV_WC_SUCCESS →
            ∀ fuel, n < fuel → uct_ib_md_create_umr fuel cfg c hw md mr log =
              some (some umr, log ++ [HwCall.ibv_exp_create_mr (umr_mrin cfg c md)] ++
                [HwCall.ibv_exp_post_send qp (umr_wr cfg c hw md mr umr)] ++
                List.replicate (n + 1) (HwCall.ibv_poll_cq cq))) ∧
          ((poll_answer hw cq (log ++ [HwCall.ibv_exp_create_mr (umr_mrin cfg c md)] ++
              [HwCall.ibv_exp_post_send qp (umr_wr cfg c hw md mr umr)]) n).1 < 0 ∨
            ((poll_answer hw cq (log ++ [HwCall.ibv_exp_create_mr (umr_mrin cfg c md)] ++
                [HwCall.ibv_exp_post_send qp (umr_wr cfg c hw md mr umr)]) n).1 = 1 ∧
              (poll_answer hw cq (log ++ [HwCall.ibv_exp_create_mr (umr_mrin cfg c md)] ++
                [HwCall.ibv_exp_post_send qp (umr_wr cfg c hw md mr umr)]) n).2 ≠
                  c.IBV_WC_SUCCESS) →
            ∀ fuel, n < fuel → uct_ib_md_create_umr fuel cfg c hw md mr log =
              some (none, log ++ [HwCall.ibv_exp_create_mr (umr_mrin cfg c md)] ++
                [HwCall.ibv_exp_post_send qp (umr_wr cfg c hw md mr umr)] ++
                List.replicate (n + 1) (HwCall.ibv_poll_cq cq) ++
                [HwCall.ibv_dereg_mr umr]))) ∧
        ((∀ k, (poll_answer hw cq (log ++ [HwCall.ibv_exp_create_mr (umr_mrin cfg c md)] ++
              [HwCall.ibv_exp_post_send qp (umr_wr cfg c hw md mr umr)]) k).1 = 0) →
          ∀ fuel, uct_ib_md_create_umr fuel cfg c hw md mr log = none))) ∧
    ((∀ history, (hw.ibv_poll_cq history cq).1 ≤ 1) →
      ∀ fuel key log2, uct_ib_md_create_umr fuel cfg c hw md mr log = some (some key, log2) →
        hw.ibv_exp_create_mr log (umr_mrin cfg c md) = some key ∧
        hw.ibv_exp_post_send (log ++ [HwCall.ibv_exp_create_mr (umr_mrin cfg c md)]) qp
          (umr_wr cfg c hw md mr key) = 0 ∧
        ∃ n, (∀ k, k < n →
            (poll_answer hw cq (log ++ [HwCall.ibv_exp_create_mr (umr_mrin cfg c md)] ++
              [HwCall.ibv_exp_post_send qp (umr_wr cfg c hw md mr key)]) k).1 = 0) ∧
          (poll_answer hw cq (log ++ [HwCall.ibv_exp_create_mr (umr_mrin cfg c md)] ++
              [HwCall.ibv_exp_post_send qp (umr_wr cfg c hw md mr key)]) n).1 = 1 ∧
          (poll_answer hw cq (log ++ [HwCall.ibv_exp_create_mr (umr_mrin cfg c md)] ++
              [HwCall.ibv_exp_post_send qp (umr_wr cfg c hw md mr key)]) n).2 =
            c.IBV_WC_SUCCESS ∧
          log2 = log ++ [HwCall.ibv_exp_create_mr (umr_mrin cfg c md)] ++
            [HwCall.ibv_exp_post_send qp (umr_wr cfg c hw md mr key)] ++
            List.replicate (n + 1) (HwCall.ibv_poll_cq cq)) ∧
    (hw.ibv_exp_create_mr log (umr_mrin cfg c md) ≠ some mr →
      ∀ fuel res log2, uct_ib_md_create_umr fuel cfg c hw md mr log = some (res, log2) →
        HwCall.ibv_dereg_mr mr ∉ log2.drop log.length) := by
  have hact := fun fuel => create_umr_active fuel cfg c hw md mr log qp cq
  refine ⟨?_, ?_, ?_, ?_⟩
  · intro hnone fuel
    rw [hact fuel hcfg hq hc, hnone]
  · intro umr hsome
    refine ⟨?_, ?_⟩
    · intro hpost fuel
      rw [hact fuel hcfg hq hc, hsome]
      simp only [hpost, ne_eq, not_false_eq_true, if_true]
    · intro hpost
      refine ⟨?_, ?_⟩
      · intro n hempty
        have hcont : ∀ k, k < n →
            ¬ (poll_answer hw cq (log ++ [HwCall.ibv_exp_create_mr (umr_mrin cfg c md)] ++
              [HwCall.ibv_exp_post_send qp (umr_wr cfg c hw md mr umr)]) k).1 < 0 ∧
            (poll_answer hw cq (log ++ [HwCall.ibv_exp_create_mr (umr_mrin cfg c md)] ++
              [HwCall.ibv_exp_post_send qp (umr_wr cfg c hw md mr umr)]) k).1 ≠ 1 := by
          intro k hk
          have := hempty k hk
          omega
        refine ⟨?_, ?_⟩
        · intro hok fuel hfuel
          rw [hact fuel hcfg hq hc, hsome]
          simp only [hpost, ne_eq, not_true_eq_false, if_false,
            (umr_poll_stops c hw cq n fuel _ hfuel hcont).1 hok]
        · intro hbad fuel hfuel
          rw [hact fuel hcfg hq hc, hsome]
          simp only [hpost, ne_eq, not_true_eq_false, if_false,
            (umr_poll_stops c hw cq n fuel _ hfuel hcont).2 hbad]
      · intro hempty fuel
        rw [hact fuel hcfg hq hc, hsome]
        have hstarve := umr_poll_starves c hw cq fuel
          (log ++ [HwCall.ibv_exp_create_mr (umr_mrin cfg c md)] ++
            [HwCall.ibv_exp_post_send qp (umr_wr cfg c hw md mr umr)])
          (by intro k _; have := hempty k; omega)
        simp only [hpost, ne_eq, not_true_eq_false, if_false, hstarve]
  · intro hcontract fuel key log2 hres
    rw [hact fuel hcfg hq hc] at hres
    cases hk : hw.ibv_exp_create_mr log (umr_mrin cfg c md) with
    | none => simp [hk] at hres
    | some umr =>
      simp only [hk] at hres
      by_cases hpost : hw.ibv_exp_post_send
          (log ++ [HwCall.ibv_exp_create_mr (umr_mrin cfg c md)]) qp
          (umr_wr cfg c hw md mr umr) = 0
      · simp only [hpost, ne_eq, not_true_eq_false, if_false] at hres
        cases hp : umr_poll c hw cq fuel
            (log ++ [HwCall.ibv_exp_create_mr (umr_mrin cfg c md)] ++
              [HwCall.ibv_exp_post_send qp (umr_wr cfg c hw md mr umr)]) with
        | none => rw [hp] at hres; simp at hres
        | some r =>
          obtain ⟨b, log3⟩ := r
          cases b with
          | false => rw [hp] at hres; simp at hres
          | true =>
            rw [hp] at hres
            simp only [Option.some.injEq, Prod.mk.injEq] at hres
            obtain ⟨hkey, hlog⟩ := hres
            subst hkey
            subst hlog
            obtain ⟨n, _, hlog3, hcont, ht, _⟩ := umr_poll_inv c hw cq fuel _ true log3 hp
            refine ⟨rfl, hpost, n, ?_, (ht rfl).1, (ht rfl).2, hlog3⟩
            intro k hk'
            have h1 := hcont k hk'
            have h2 := hcontract
              (log ++ [HwCall.ibv_exp_create_mr (umr_mrin cfg c md)] ++
                [HwCall.ibv_exp_post_send qp (umr_wr cfg c hw md mr umr)] ++
                List.replicate k (HwCall.ibv_poll_cq cq))
            unfold poll_answer at h1 ⊢
            omega
      · simp [hpost] at hres
  · intro hfresh fuel res log2 hres
    obtain ⟨evs, hlog2, hevs⟩ := create_umr_log fuel cfg c hw md mr log res log2 hres
    rw [hlog2, List.drop_left]
    intro hmem
    exact hfresh (hevs mr hmem)

/-- Claim C12 at `mdActive`: two empty polls followed by a successful
completion (`hwSlow`), and a failed post (`hwPostFail`). -/
theorem uct_ib_md_create_umr_outcomes_witness :
    uct_ib_md_create_umr 3 cfgFull verbsConsts hwSlow mdActive mr0 [] =
      some (some umr0,
        [] ++ [HwCall.ibv_exp_create_mr (umr_mrin cfgFull verbsConsts mdActive)] ++
          [HwCall.ibv_exp_post_send 3 (umr_wr cfgFull verbsConsts hwSlow mdActive mr0 umr0)] ++
          List.replicate (2 + 1) (HwCall.ibv_poll_cq 4)) ∧
    uct_ib_md_create_umr 0 cfgFull verbsConsts hwPostFail mdActive mr0 [] =
      some (none,
        [] ++ [HwCall.ibv_exp_create_mr (umr_mrin cfgFull verbsConsts mdActive)] ++
          [HwCall.ibv_exp_post_send 3
            (umr_wr cfgFull verbsConsts hwPostFail mdActive mr0 umr0)] ++
          [HwCall.ibv_dereg_mr umr0]) :=
  ⟨(((((uct_ib_md_create_umr_outcomes cfgFull verbsConsts hwSlow mdActive mr0 [] 3 4
      rfl rfl rfl).2.1 umr0 rfl).2 rfl).1 2
      (by intro k hk; interval_cases k <;> rfl)).1 ⟨rfl, rfl⟩) 3 (by decide),
   ((uct_ib_md_create_umr_outcomes cfgFull verbsConsts hwPostFail mdActive mr0 [] 3 4
      rfl rfl rfl).2.1 umr0 rfl).1 (by decide) 0⟩

/-! ## Setup of the indirect-key engine -/

theorem drop_append_self {α : Type} (l evs : List α) : (l ++ evs).drop l.length = evs :=
  List.drop_left l evs

theorem umr_qp_create_cases (cfg : BuildConfig) (c : Consts) (k : MdConsts) (env : OpenEnv)
    (md : uct_ib_md_t) (log : List OpenCall) :
    (uct_ib_md_umr_qp_create cfg c k env md log =
        { status := UCS_ERR_UNSUPPORTED, md := md, log := log } ∧
      (cfg.HAVE_EXP_UMR = false ∨ md.dev.exp_device_cap_flags &&& k.IBV_EXP_DEVICE_UMR = 0)) ∨
    (cfg.HAVE_EXP_UMR = true ∧ md.dev.exp_device_cap_flags &&& k.IBV_EXP_DEVICE_UMR ≠ 0 ∧
      ((uct_ib_md_umr_qp_create cfg c k env md log =
          { status := UCS_ERR_IO_ERROR, md := { md with umr_cq := none },
            log := log ++ [OpenCall.ibv_create_cq md.dev.ibv_context none] }) ∨
       (∃ cq, uct_ib_md_umr_qp_create cfg c k env md log =
          { status := UCS_ERR_IO_ERROR, md := { md with umr_cq := some cq, umr_qp := none },
            log := log ++ [OpenCall.ibv_create_cq md.dev.ibv_context (some cq),
              OpenCall.ibv_exp_create_qp md.dev.ibv_context md.pd cq none,
              OpenCall.ibv_destroy_cq cq] }) ∨
       (∃ cq qp steps, uct_ib_md_umr_qp_create cfg c k env md log =
          { status := UCS_ERR_IO_ERROR,
            md := { md with umr_cq := some cq, umr_qp := some qp },
            log := log ++ ([OpenCall.ibv_create_cq md.dev.ibv_context (some cq),
              OpenCall.ibv_exp_create_qp md.dev.ibv_context md.pd cq (some qp)] ++ steps ++
              [OpenCall.ibv_destroy_qp qp, OpenCall.ibv_destroy_cq cq]) } ∧
          (∀ e ∈ steps, released e = none ∧ acquired e = none ∧ is_umr_setup_call e = true ∧
            is_create_cq e = false) ∧
          (∃ e ∈ steps, is_failed_setup_step e = true)) ∨
       (∃ cq qp steps, uct_ib_md_umr_qp_create cfg c k env md log =
          { status := UCS_OK, md := { md with umr_cq := some cq, umr_qp := some qp },
            log := log ++ ([OpenCall.ibv_create_cq md.dev.ibv_context (some cq),
              OpenCall.ibv_exp_create_qp md.dev.ibv_context md.pd cq (some qp)] ++ steps) } ∧
          (∀ e ∈ steps, is_umr_setup_call e = true ∧ is_create_cq e = false ∧
            is_failed_setup_step e = false)))) := by
  unfold uct_ib_md_umr_qp_create
  by_cases hcfg : cfg.HAVE_EXP_UMR = true
  swap
  · left
    simp [hcfg]
  by_cases hcap : md.dev.exp_device_cap_flags &&& k.IBV_EXP_DEVICE_UMR = 0
  · left
    simp [hcfg, hcap]
  right
  refine ⟨hcfg, hcap, ?_⟩
  simp only [hcfg, if_true, beq_iff_eq, hcap, if_false]
  cases hcq : env.ibv_create_cq log md.dev.ibv_context with
  | none => left; rfl
  | some cq =>
    right
    simp only
    cases hqp : env.ibv_exp_create_qp
        (log ++ [OpenCall.ibv_create_cq md.dev.ibv_context (some cq)])
        md.dev.ibv_context md.pd cq with
    | none =>
      left
      exact ⟨cq, by simp [umr_err_destroy_cq]⟩
    | some qp =>
      right
      simp only
      generalize env.ibv_modify_qp
        (log ++ [OpenCall.ibv_create_cq md.dev.ibv_context (some cq)] ++
          [OpenCall.ibv_exp_create_qp md.dev.ibv_context md.pd cq (some qp)])
        qp (umr_attr_init c md.dev.first_port) = r1
      by_cases h1 : r1 = 0
      swap
      · left
        refine ⟨cq, qp, [OpenCall.ibv_modify_qp qp (umr_attr_init c md.dev.first_port) r1],
          by simp [umr_err_destroy_qp, umr_err_destroy_cq, h1], ?_, ?_⟩
        · intro e he
          simp only [List.mem_singleton] at he
          subst he
          simp [released, acquired, is_umr_setup_call, is_create_cq]
        · exact ⟨_, List.mem_singleton_self _, by simp [is_failed_setup_step, h1]⟩
      subst h1
      simp only [ne_eq, not_true_eq_false, if_false]
      generalize env.uct_ib_device_query_gid
        (log ++ [OpenCall.ibv_create_cq md.dev.ibv_context (some cq)] ++
          [OpenCall.ibv_exp_create_qp md.dev.ibv_context md.pd cq (some qp)] ++
          [OpenCall.ibv_modify_qp qp (umr_attr_init c md.dev.first_port) 0])
        md.dev md.dev.first_port = g
      by_cases h2 : g.1 = UCS_OK
      swap
      · left
        refine ⟨cq, qp, [OpenCall.ibv_modify_qp qp (umr_attr_init c md.dev.first_port) 0,
            OpenCall.uct_ib_device_query_gid md.dev.first_port g.1],
          by simp [umr_err_destroy_qp, umr_err_destroy_cq, h2], ?_, ?_⟩
        · intro e he
          simp only [List.mem_cons, List.mem_singleton, List.not_mem_nil, or_false] at he
          rcases he with he | he <;> subst he <;>
            simp [released, acquired, is_umr_setup_call, is_create_cq]
        · exact ⟨_, List.mem_cons_of_mem _ (List.mem_singleton_self _),
            by simp [is_failed_setup_step, h2]⟩
      simp only [h2, ne_eq, not_true_eq_false, if_false]
      generalize env.ibv_modify_qp
        (log ++ [OpenCall.ibv_create_cq md.dev.ibv_context (some cq)] ++
          [OpenCall.ibv_exp_create_qp md.dev.ibv_context md.pd cq (some qp)] ++
          [OpenCall.ibv_modify_qp qp (umr_attr_init c md.dev.first_port) 0] ++
          [OpenCall.uct_ib_device_query_gid md.dev.first_port UCS_OK])
        qp (umr_attr_rtr c md.dev.first_port (env.qp_num qp)
          (env.port_lid md.dev md.dev.first_port) g.2) = r2
      by_cases h3 : r2 = 0
      swap
      · left
        refine ⟨cq, qp, [OpenCall.ibv_modify_qp qp (umr_attr_init c md.dev.first_port) 0,
            OpenCall.uct_ib_device_query_gid md.dev.first_port UCS_OK,
            OpenCall.ibv_modify_qp qp (umr_attr_rtr c md.dev.first_port (env.qp_num qp)
              (env.port_lid md.dev md.dev.first_port) g.2) r2],
          by simp [umr_err_destroy_qp, umr_err_destroy_cq, h3], ?_, ?_⟩
        · intro e he
          simp only [List.mem_cons, List.mem_singleton, List.not_mem_nil, or_false] at he
          rcases he with he | he | he <;> subst he <;>
            simp [released, acquired, is_umr_setup_call, is_create_cq]
        · exact ⟨_, List.mem_cons_of_mem _ (List.mem_cons_of_mem _
            (List.mem_singleton_self _)), by simp [is_failed_setup_step, h3]⟩
      subst h3
      simp only [ne_eq, not_true_eq_false, if_false]
      generalize env.ibv_modify_qp
        (log ++ [OpenCall.ibv_create_cq md.dev.ibv_context (some cq)] ++
          [OpenCall.ibv_exp_create_qp md.dev.ibv_context md.pd cq (some qp)] ++
          [OpenCall.ibv_modify_qp qp (umr_attr_init c md.dev.first_port) 0] ++
          [OpenCall.uct_ib_device_query_gid md.dev.first_port UCS_OK] ++
          [OpenCall.ibv_modify_qp qp (umr_attr_rtr c md.dev.first_port (env.qp_num qp)
            (env.port_lid md.dev md.dev.first_port) g.2) 0])
        qp (umr_attr_rts c md.dev.first_port (env.qp_num qp)
          (env.port_lid md.dev md.dev.first_port) g.2) = r3
      by_cases h4 : r3 = 0
      swap
      · left
        refine ⟨cq, qp, [OpenCall.ibv_modify_qp qp (umr_attr_init c md.dev.first_port) 0,
            OpenCall.uct_ib_device_query_gid md.dev.first_port UCS_OK,
            OpenCall.ibv_modify_qp qp (umr_attr_rtr c md.dev.first_port (env.qp_num qp)
              (env.port_lid md.dev md.dev.first_port) g.2) 0,
            OpenCall.ibv_modify_qp qp (umr_attr_rts c md.dev.first_port (env.qp_num qp)
              (env.port_lid md.dev md.dev.first_port) g.2) r3],
          by simp [umr_err_destroy_qp, umr_err_destroy_cq, h4], ?_, ?_⟩
        · intro e he
          simp only [List.mem_cons, List.mem_singleton, List.not_mem_nil, or_false] at he
          rcases he with he | he | he | he <;> subst he <;>
            simp [released, acquired, is_umr_setup_call, is_create_cq]
        · exact ⟨_, List.mem_cons_of_mem _ (List.mem_cons_of_mem _ (List.mem_cons_of_mem _
            (List.mem_singleton_self _))), by simp [is_failed_setup_step, h4]⟩
      subst h4
      right
      refine ⟨cq, qp, [OpenCall.ibv_modify_qp qp (umr_attr_init c md.dev.first_port) 0,
          OpenCall.uct_ib_device_query_gid md.dev.first_port UCS_OK,
          OpenCall.ibv_modify_qp qp (umr_attr_rtr c md.dev.first_port (env.qp_num qp)
            (env.port_lid md.dev md.dev.first_port) g.2) 0,
          OpenCall.ibv_modify_qp qp (umr_attr_rts c md.dev.first_port (env.qp_num qp)
            (env.port_lid md.dev md.dev.first_port) g.2) 0],
        by simp, ?_⟩
      intro e he
      simp only [List.mem_cons, List.mem_singleton, List.not_mem_nil, or_false] at he
      rcases he with he | he | he | he <;> subst he <;>
        simp [is_umr_setup_call, is_create_cq, is_failed_setup_step]

theorem lifo_run_append (a b : List OpenCall) :
    ∀ held : List Resource,
      lifo_run held (a ++ b) = (lifo_run held a).bind fun h => lifo_run h b := by
  induction a with
  | nil => intro held; simp [lifo_run]
  | cons e rest ih =>
    intro held
    simp only [List.cons_append, lifo_run]
    cases released e with
    | some r =>
      cases held with
      | nil => simp
      | cons top below =>
        by_cases h : top = r
        · simp [h, ih]
        · simp [h]
    | none =>
      cases acquired e with
      | some r => simp [ih]
      | none => simp [ih]

theorem lifo_run_neutral (steps : List OpenCall)
    (h : ∀ e ∈ steps, released e = none ∧ acquired e = none) :
    ∀ held : List Resource, lifo_run held steps = some held := by
  induction steps with
  | nil => intro held; rfl
  | cons e rest ih =>
    intro held
    have he := h e (List.mem_cons_self _ _)
    simp only [lifo_run, he.1, he.2]
    exact ih (fun x hx => h x (List.mem_cons_of_mem _ hx)) held

theorem md_open_umr_cases (cfg : BuildConfig) (c : Consts) (k : MdConsts) (env : OpenEnv)
    (ptr enabled : Nat) (md : uct_ib_md_t) (log : List OpenCall) :
    ∃ evs md3,
      md_open_umr cfg c k env ptr enabled md log =
        { status := UCS_OK, md_p := some (ptr, md3),
          log := log ++ (evs ++ [OpenCall.ibv_free_device_list]),
          fork_warn_enabled := enabled } ∧
      (∀ e ∈ evs, is_umr_setup_call e = true) ∧
      evs.countP is_create_cq ≤ 1 ∧
      (cfg.HAVE_EXP_UMR = true →
        md.dev.exp_device_cap_flags &&& k.IBV_EXP_DEVICE_UMR ≠ 0 →
        evs.countP is_create_cq = 1) ∧
      md3 = { md with umr_qp := md3.umr_qp, umr_cq := md3.umr_cq } ∧
      (cfg.HAVE_EXP_UMR = false → md3 = md ∧ evs = []) ∧
      (cfg.HAVE_EXP_UMR = true →
        (md3.umr_qp = none ∧ md3.umr_cq = none) ∨
        (md3.umr_qp ≠ none ∧ md3.umr_cq ≠ none ∧
          ∀ e ∈ evs, is_failed_setup_step e = false)) ∧
      ((∃ e ∈ evs, is_failed_setup_step e = true) →
        md3.umr_qp = none ∧ md3.umr_cq = none) ∧
      (cfg.HAVE_EXP_UMR = true →
        md.dev.exp_device_cap_flags &&& k.IBV_EXP_DEVICE_UMR = 0 →
        md3.umr_qp = none ∧ md3.umr_cq = none ∧ evs = []) := by
  unfold md_open_umr out_free_dev_list
  rcases umr_qp_create_cases cfg c k env md log with
    ⟨hu, hwhy⟩ | ⟨hcfg, hcap, hu | ⟨cq, hu⟩ | ⟨cq, qp, steps, hu, hsteps, hfail⟩ |
      ⟨cq, qp, steps, hu, hsteps⟩⟩
  · by_cases hcfg : cfg.HAVE_EXP_UMR = true
    · have hcap : md.dev.exp_device_cap_flags &&& k.IBV_EXP_DEVICE_UMR = 0 := by
        rcases hwhy with h | h
        · rw [hcfg] at h; cases h
        · exact h
      refine ⟨[], { md with umr_qp := none, umr_cq := none }, ?_⟩
      simp [hu, hcfg, hcap]
    · simp only [Bool.not_eq_true] at hcfg
      refine ⟨[], md, ?_⟩
      simp [hu, hcfg]
  · refine ⟨[OpenCall.ibv_create_cq md.dev.ibv_context none],
      { md with umr_qp := none, umr_cq := none }, ?_⟩
    simp [hu, hcfg, hcap, is_umr_setup_call, is_create_cq, is_failed_setup_step]
  · refine ⟨[OpenCall.ibv_create_cq md.dev.ibv_context (some cq),
        OpenCall.ibv_exp_create_qp md.dev.ibv_context md.pd cq none,
        OpenCall.ibv_destroy_cq cq],
      { md with umr_qp := none, umr_cq := none }, ?_⟩
    simp [hu, hcfg, hcap, is_umr_setup_call, is_create_cq, is_failed_setup_step]
  · refine ⟨[OpenCall.ibv_create_cq md.dev.ibv_context (some cq),
        OpenCall.ibv_exp_create_qp md.dev.ibv_context md.pd cq (some qp)] ++ steps ++
        [OpenCall.ibv_destroy_qp qp, OpenCall.ibv_destroy_cq cq],
      { md with umr_qp := none, umr_cq := none }, ?_⟩
    have hc0 : steps.countP is_create_cq = 0 :=
      List.countP_eq_zero.mpr (fun e he => by simp [(hsteps e he).2.2.2])
    refine ⟨by simp [hu, hcfg], ?_, ?_, ?_, rfl, ?_, ?_, ?_, fun _ h => absurd h hcap⟩
    · intro e he
      simp only [List.mem_append, List.mem_cons, List.mem_singleton, List.not_mem_nil,
        or_false] at he
      rcases he with (he | he) | he | he
      · rcases he with he | he <;> subst he <;> rfl
      · exact (hsteps e he).2.2.1
      · subst he; rfl
      · subst he; rfl
    · simp [List.countP_append, List.countP_cons, is_create_cq, hc0]
    · intro _ _
      simp [List.countP_append, List.countP_cons, is_create_cq, hc0]
    · intro h; rw [hcfg] at h; cases h
    · intro _; exact Or.inl ⟨rfl, rfl⟩
    · intro _; exact ⟨rfl, rfl⟩
  · refine ⟨[OpenCall.ibv_create_cq md.dev.ibv_context (some cq),
        OpenCall.ibv_exp_create_qp md.dev.ibv_context md.pd cq (some qp)] ++ steps,
      { md with umr_qp := some qp, umr_cq := some cq }, ?_⟩
    have hc0 : steps.countP is_create_cq = 0 :=
      List.countP_eq_zero.mpr (fun e he => by simp [(hsteps e he).2.1])
    have hnf : ∀ e ∈ [OpenCall.ibv_create_cq md.dev.ibv_context (some cq),
        OpenCall.ibv_exp_create_qp md.dev.ibv_context md.pd cq (some qp)] ++ steps,
        is_failed_setup_step e = false := by
      intro e he
      simp only [List.cons_append, List.nil_append, List.mem_cons] at he
      rcases he with he | he | he
      · subst he; rfl
      · subst he; rfl
      · exact (hsteps e he).2.2
    refine ⟨by simp [hu], ?_, ?_, ?_, rfl, ?_, ?_, ?_, fun _ h => absurd h hcap⟩
    · intro e he
      simp only [List.cons_append, List.nil_append, List.mem_cons] at he
      rcases he with he | he | he
      · subst he; rfl
      · subst he; rfl
      · exact (hsteps e he).1
    · simp [List.countP_cons, is_create_cq, hc0]
    · intro _ _
      simp [List.countP_cons, is_create_cq, hc0]
    · intro h; rw [hcfg] at h; cases h
    · intro _; exact Or.inr ⟨by simp, by simp, hnf⟩
    · intro ⟨e, he, hf⟩
      rw [hnf e he] at hf
      cases hf

/-! ## Stages of `uct_ib_md_open` -/

theorem md_open_finish_cases (cfg : BuildConfig) (c : Consts) (k : MdConsts) (env : OpenEnv)
    (md_config : uct_ib_md_config_t) (ptr stats : Nat) (dev : uct_ib_device_t) (pd : Nat)
    (enabled : Nat) (log : List OpenCall) :
    (md_config.rcache_enable = UCS_YES ∧
      ∃ st rc, st ≠ UCS_OK ∧
        md_open_finish cfg c k env md_config ptr stats dev pd enabled log =
          { status := st, md_p := none,
            log := log ++ [OpenCall.ucs_rcache_create
                { ucm_event_priority := md_config.rcache_event_prio, context := ptr } st rc,
              OpenCall.ibv_dealloc_pd pd, OpenCall.uct_ib_device_cleanup dev,
              OpenCall.stats_node_free stats, OpenCall.ucs_free ptr,
              OpenCall.ibv_free_device_list],
            fork_warn_enabled := enabled }) ∨
    (md_config.rcache_enable = UCS_NO ∧
      md_open_finish cfg c k env md_config ptr stats dev pd enabled log =
        md_open_umr cfg c k env ptr enabled
          (md_open_md cfg k env md_config stats dev pd) log) ∨
    (md_config.rcache_enable ≠ UCS_NO ∧
      ∃ rc, md_open_finish cfg c k env md_config ptr stats dev pd enabled log =
        md_open_umr cfg c k env ptr enabled
          { md_open_md cfg k env md_config stats dev pd with
            rcache := rc, ops := uct_ib_md_rcache_ops,
            reg_cost := { overhead := md_config.rcache_overhead, growth := 0 } }
          (log ++ [OpenCall.ucs_rcache_create
            { ucm_event_priority := md_config.rcache_event_prio, context := ptr }
            UCS_OK rc])) ∨
    (md_config.rcache_enable = UCS_TRY ∧
      ∃ st rc, st ≠ UCS_OK ∧
        md_open_finish cfg c k env md_config ptr stats dev pd enabled log =
          md_open_umr cfg c k env ptr enabled
            { md_open_md cfg k env md_config stats dev pd with rcache := rc }
            (log ++ [OpenCall.ucs_rcache_create
              { ucm_event_priority := md_config.rcache_event_prio, context := ptr }
              st rc])) := by
  unfold md_open_finish
  dsimp only
  generalize env.ucs_rcache_create log
    { ucm_event_priority := md_config.rcache_event_prio, context := ptr } = rc
  by_cases hno : md_config.rcache_enable = UCS_NO
  · right; left
    simp [hno]
  · by_cases hok : rc.1 = UCS_OK
    · right; right; left
      refine ⟨hno, rc.2, ?_⟩
      simp [hno, hok]
    · by_cases hyes : md_config.rcache_enable = UCS_YES
      · left
        refine ⟨hyes, rc.1, rc.2, hok, ?_⟩
        simp [hyes, hok, err_dealloc_pd, err_cleanup_device, err_release_stats,
          err_free_md, out_free_dev_list]
      · right; right; right
        have htry : md_config.rcache_enable = UCS_TRY := by
          cases h : md_config.rcache_enable <;> simp_all
        refine ⟨htry, rc.1, rc.2, hok, ?_⟩
        simp [htry, hok]

theorem md_open_device_cases (cfg : BuildConfig) (c : Consts) (k : MdConsts) (env : OpenEnv)
    (md_config : uct_ib_md_config_t) (ib_device : ibv_device) (ptr stats : Nat)
    (enabled : Nat) (log : List OpenCall) :
    (∃ st dev, st ≠ UCS_OK ∧
      md_open_device cfg c k env md_config ib_device ptr stats enabled log =
        { status := st, md_p := none,
          log := log ++ [OpenCall.uct_ib_device_init ib_device st dev,
            OpenCall.stats_node_free stats, OpenCall.ucs_free ptr,
            OpenCall.ibv_free_device_list],
          fork_warn_enabled := enabled }) ∨
    (∃ dev,
      md_open_device cfg c k env md_config ib_device ptr stats enabled log =
        { status := UCS_ERR_NO_MEMORY, md_p := none,
          log := log ++ [OpenCall.uct_ib_device_init ib_device UCS_OK dev,
            OpenCall.ibv_alloc_pd dev.ibv_context none,
            OpenCall.uct_ib_device_cleanup dev,
            OpenCall.stats_node_free stats, OpenCall.ucs_free ptr,
            OpenCall.ibv_free_device_list],
          fork_warn_enabled := enabled }) ∨
    (∃ dev pd,
      md_open_device cfg c k env md_config ib_device ptr stats enabled log =
        md_open_finish cfg c k env md_config ptr stats dev pd enabled
          (log ++ [OpenCall.uct_ib_device_init ib_device UCS_OK dev,
            OpenCall.ibv_alloc_pd dev.ibv_context (some pd)])) := by
  unfold md_open_device
  dsimp only
  generalize env.uct_ib_device_init log ib_device = di
  by_cases hst : di.1 = UCS_OK
  · simp only [hst, ne_eq, not_true_eq_false, if_false]
    generalize env.ibv_alloc_pd
      (log ++ [OpenCall.uct_ib_device_init ib_device UCS_OK di.2]) di.2.ibv_context = pd_r
    cases pd_r with
    | none =>
      right; left
      exact ⟨di.2, by simp [err_cleanup_device, err_release_stats, err_free_md,
        out_free_dev_list]⟩
    | some pd =>
      right; right
      exact ⟨di.2, pd, by simp⟩
  · left
    exact ⟨di.1, di.2, hst, by simp [hst, err_release_stats, err_free_md,
      out_free_dev_list]⟩

theorem md_open_cases (cfg : BuildConfig) (c : Consts) (k : MdConsts) (env : OpenEnv)
    (md_name : List Char) (md_config : uct_ib_md_config_t) (enabled : Nat)
    (log : List OpenCall) :
    (env.ibv_get_device_list log = none ∧
      uct_ib_md_open cfg c k env md_name md_config enabled log =
        { status := UCS_ERR_NO_DEVICE, md_p := none,
          log := log ++ [OpenCall.ibv_get_device_list none],
          fork_warn_enabled := enabled }) ∨
    (∃ l, env.ibv_get_device_list log = some l ∧
      l.find? (fun d => decide (uct_ib_make_md_name k d = md_name)) = none ∧
      uct_ib_md_open cfg c k env md_name md_config enabled log =
        { status := UCS_ERR_NO_DEVICE, md_p := none,
          log := log ++ [OpenCall.ibv_get_device_list (some l),
            OpenCall.ibv_free_device_list],
          fork_warn_enabled := enabled }) ∨
    (∃ l d, env.ibv_get_device_list log = some l ∧
      l.find? (fun d => decide (uct_ib_make_md_name k d = md_name)) = some d ∧
      ((uct_ib_md_open cfg c k env md_name md_config enabled log =
          { status := UCS_ERR_NO_MEMORY, md_p := none,
            log := log ++ [OpenCall.ibv_get_device_list (some l), OpenCall.ucs_malloc none,
              OpenCall.ibv_free_device_list],
            fork_warn_enabled := enabled }) ∨
       (∃ ptr st s, st ≠ UCS_OK ∧
          uct_ib_md_open cfg c k env md_name md_config enabled log =
            { status := st, md_p := none,
              log := log ++ [OpenCall.ibv_get_device_list (some l),
                OpenCall.ucs_malloc (some ptr), OpenCall.stats_node_alloc st s,
                OpenCall.ucs_free ptr, OpenCall.ibv_free_device_list],
              fork_warn_enabled := enabled }) ∨
       (∃ ptr s ret, md_config.fork_init = UCS_YES ∧ ret ≠ 0 ∧
          uct_ib_md_open cfg c k env md_name md_config enabled log =
            { status := UCS_ERR_IO_ERROR, md_p := none,
              log := log ++ [OpenCall.ibv_get_device_list (some l),
                OpenCall.ucs_malloc (some ptr), OpenCall.stats_node_alloc UCS_OK s,
                OpenCall.ibv_fork_init ret, OpenCall.stats_node_free s,
                OpenCall.ucs_free ptr, OpenCall.ibv_free_device_list],
              fork_warn_enabled := enabled }) ∨
       (∃ ptr s fevs en,
          ((md_config.fork_init = UCS_NO ∧ fevs = [] ∧ en = enabled) ∨
           (md_config.fork_init ≠ UCS_NO ∧ fevs = [OpenCall.ibv_fork_init 0] ∧
              en = enabled) ∨
           (md_config.fork_init = UCS_TRY ∧ enabled ≠ 0 ∧ en = enabled ∧
              ∃ ret, ret ≠ 0 ∧ fevs = [OpenCall.ibv_fork_init ret]) ∨
           (md_config.fork_init = UCS_TRY ∧ enabled = 0 ∧ en = 1 ∧
              ∃ ret a, ret ≠ 0 ∧
                fevs = [OpenCall.ibv_fork_init ret, OpenCall.pthread_atfork a])) ∧
          uct_ib_md_open cfg c k env md_name md_config enabled log =
            md_open_device cfg c k env md_config d ptr s en
              (log ++ ([OpenCall.ibv_get_device_list (some l),
                OpenCall.ucs_malloc (some ptr), OpenCall.stats_node_alloc UCS_OK s] ++
                fevs))))) := by
  unfold uct_ib_md_open
  cases hl : env.ibv_get_device_list log with
  | none => left; exact ⟨rfl, rfl⟩
  | some l =>
    right
    simp only
    cases hf : l.find? (fun d => decide (uct_ib_make_md_name k d = md_name)) with
    | none => left; exact ⟨l, rfl, hf, by simp [out_free_dev_list]⟩
    | some d =>
      right
      refine ⟨l, d, rfl, hf, ?_⟩
      simp only
      generalize env.ucs_malloc (log ++ [OpenCall.ibv_get_device_list (some l)]) = md_r
      cases md_r with
      | none => left; simp [out_free_dev_list]
      | some ptr =>
        right
        simp only
        generalize env.stats_node_alloc
          (log ++ [OpenCall.ibv_get_device_list (some l)] ++
            [OpenCall.ucs_malloc (some ptr)]) = st
        by_cases hst : st.1 = UCS_OK
        swap
        · left
          exact ⟨ptr, st.1, st.2, hst, by simp [hst, err_free_md, out_free_dev_list]⟩
        right
        simp only [hst, ne_eq, not_true_eq_false, if_false]
        by_cases hno : md_config.fork_init = UCS_NO
        · right
          refine ⟨ptr, st.2, [], enabled, Or.inl ⟨hno, rfl, rfl⟩, ?_⟩
          simp [hno]
        rw [if_pos hno]
        generalize env.ibv_fork_init
          (log ++ [OpenCall.ibv_get_device_list (some l)] ++
            [OpenCall.ucs_malloc (some ptr)] ++
            [OpenCall.stats_node_alloc UCS_OK st.2]) = ret
        by_cases hret : ret = 0
        · right
          subst hret
          refine ⟨ptr, st.2, [OpenCall.ibv_fork_init 0], enabled,
            Or.inr (Or.inl ⟨hno, rfl, rfl⟩), ?_⟩
          simp
        simp only [hret, not_false_eq_true, if_true]
        by_cases hyes : md_config.fork_init = UCS_YES
        · left
          exact ⟨ptr, st.2, ret, hyes, hret,
            by simp [hyes, err_release_stats, err_free_md, out_free_dev_list]⟩
        right
        have htry : md_config.fork_init = UCS_TRY := by
          cases h : md_config.fork_init <;> simp_all
        simp only [hyes, if_false]
        unfold uct_ib_fork_warn_enable
        generalize env.pthread_atfork
          (log ++ [OpenCall.ibv_get_device_list (some l)] ++
            [OpenCall.ucs_malloc (some ptr)] ++
            [OpenCall.stats_node_alloc UCS_OK st.2] ++ [OpenCall.ibv_fork_init ret]) = a
        by_cases hen : enabled = 0
        · subst hen
          refine ⟨ptr, st.2, [OpenCall.ibv_fork_init ret, OpenCall.pthread_atfork a], 1,
            Or.inr (Or.inr (Or.inr ⟨htry, rfl, rfl, ret, a, hret, rfl⟩)), ?_⟩
          simp
        · refine ⟨ptr, st.2, [OpenCall.ibv_fork_init ret], enabled,
            Or.inr (Or.inr (Or.inl ⟨htry, hen, rfl, ret, hret, rfl⟩)), ?_⟩
          simp [hen]

theorem md_open_umr_step (cfg : BuildConfig) (c : Consts) (k : MdConsts) (env : OpenEnv)
    (ptr enabled : Nat) (md : uct_ib_md_t) (log : List OpenCall) :
    ∃ evs md3,
      md_open_umr cfg c k env ptr enabled md log =
        { status := UCS_OK, md_p := some (ptr, md3),
          log := log ++ (evs ++ [OpenCall.ibv_free_device_list]),
          fork_warn_enabled := enabled } ∧
      umr_step cfg k md evs md3 := by
  obtain ⟨evs, md3, h⟩ := md_open_umr_cases cfg c k env ptr enabled md log
  exact ⟨evs, md3, h⟩

/-- Every run of `uct_ib_md_open` extends the history by the calls of a failed
open, with an error status and nothing stored through `md_p`, or by the
calls of a successful open, with `UCS_OK` and a domain stored. -/
theorem md_open_trace (cfg : BuildConfig) (c : Consts) (k : MdConsts) (env : OpenEnv)
    (md_name : List Char) (md_config : uct_ib_md_config_t) (enabled : Nat)
    (log : List OpenCall) :
    ∃ news,
      (uct_ib_md_open cfg c k env md_name md_config enabled log).log = log ++ news ∧
      (((uct_ib_md_open cfg c k env md_name md_config enabled log).status ≠ UCS_OK ∧
        (uct_ib_md_open cfg c k env md_name md_config enabled log).md_p = none ∧
        open_failure k env log md_name md_config enabled news
          (uct_ib_md_open cfg c k env md_name md_config enabled log).status
          (uct_ib_md_open cfg c k env md_name md_config enabled log).fork_warn_enabled) ∨
       ((uct_ib_md_open cfg c k env md_name md_config enabled log).status = UCS_OK ∧
        ∃ ptr md3,
          (uct_ib_md_open cfg c k env md_name md_config enabled log).md_p =
            some (ptr, md3) ∧
          open_success cfg k env log md_name md_config enabled news ptr md3
            (uct_ib_md_open cfg c k env md_name md_config enabled log).fork_warn_enabled)) := by
  rcases md_open_cases cfg c k env md_name md_config enabled log with
    ⟨hl, hr⟩ | ⟨l, hl, hf, hr⟩ | ⟨l, d, hl, hf, hr | ⟨ptr, st, s, hst, hr⟩ |
      ⟨ptr, s, ret, hyes, hret, hr⟩ | ⟨ptr, s, fevs, en, hfork, hr⟩⟩
  · rw [hr]
    exact ⟨_, rfl, Or.inl ⟨by simp, rfl, Or.inl ⟨hl, rfl, rfl, rfl⟩⟩⟩
  · rw [hr]
    exact ⟨_, rfl, Or.inl ⟨by simp, rfl, Or.inr (Or.inl ⟨l, hl, hf, rfl, rfl, rfl⟩)⟩⟩
  · rw [hr]
    exact ⟨_, rfl, Or.inl ⟨by simp, rfl,
      Or.inr (Or.inr ⟨l, d, hl, hf, Or.inl ⟨rfl, rfl, rfl⟩⟩)⟩⟩
  · rw [hr]
    exact ⟨_, rfl, Or.inl ⟨hst, rfl,
      Or.inr (Or.inr ⟨l, d, hl, hf, Or.inr (Or.inl ⟨ptr, s, hst, rfl, rfl⟩)⟩)⟩⟩
  · rw [hr]
    exact ⟨_, rfl, Or.inl ⟨by simp, rfl,
      Or.inr (Or.inr ⟨l, d, hl, hf, Or.inr (Or.inr (Or.inl
        ⟨ptr, s, ret, hyes, hret, rfl, rfl, rfl⟩))⟩)⟩⟩
  · rw [hr]
    rcases md_open_device_cases cfg c k env md_config d ptr s en
        (log ++ ([OpenCall.ibv_get_device_list (some l), OpenCall.ucs_malloc (some ptr),
          OpenCall.stats_node_alloc UCS_OK s] ++ fevs)) with
      ⟨st, dev, hst, hd⟩ | ⟨dev, hd⟩ | ⟨dev, pd, hd⟩
    · rw [hd]
      refine ⟨[OpenCall.ibv_get_device_list (some l), OpenCall.ucs_malloc (some ptr),
          OpenCall.stats_node_alloc UCS_OK s] ++ fevs ++
          [OpenCall.uct_ib_device_init d st dev, OpenCall.stats_node_free s,
            OpenCall.ucs_free ptr, OpenCall.ibv_free_device_list],
        by simp only [List.append_assoc], Or.inl ⟨hst, rfl,
        Or.inr (Or.inr ⟨l, d, hl, hf, Or.inr (Or.inr (Or.inr
          ⟨ptr, s, fevs, hfork, Or.inl ⟨dev, hst, rfl⟩⟩))⟩)⟩⟩
    · rw [hd]
      refine ⟨[OpenCall.ibv_get_device_list (some l), OpenCall.ucs_malloc (some ptr),
          OpenCall.stats_node_alloc UCS_OK s] ++ fevs ++
          [OpenCall.uct_ib_device_init d UCS_OK dev,
            OpenCall.ibv_alloc_pd dev.ibv_context none,
            OpenCall.uct_ib_device_cleanup dev, OpenCall.stats_node_free s,
            OpenCall.ucs_free ptr, OpenCall.ibv_free_device_list],
        by simp only [List.append_assoc], Or.inl ⟨by simp, rfl,
        Or.inr (Or.inr ⟨l, d, hl, hf, Or.inr (Or.inr (Or.inr
          ⟨ptr, s, fevs, hfork, Or.inr (Or.inl ⟨dev, rfl, rfl⟩)⟩))⟩)⟩⟩
    · rw [hd]
      have hsucc : ∀ rcevs md2,
          rcache_step md_config ptr (md_open_md cfg k env md_config s dev pd) rcevs md2 →
          ∃ news,
            (md_open_umr cfg c k env ptr en md2
              (log ++ ([OpenCall.ibv_get_device_list (some l),
                OpenCall.ucs_malloc (some ptr), OpenCall.stats_node_alloc UCS_OK s] ++
                fevs) ++ [OpenCall.uct_ib_device_init d UCS_OK dev,
                  OpenCall.ibv_alloc_pd dev.ibv_context (some pd)] ++ rcevs)).log =
              log ++ news ∧
            (md_open_umr cfg c k env ptr en md2
              (log ++ ([OpenCall.ibv_get_device_list (some l),
                OpenCall.ucs_malloc (some ptr), OpenCall.stats_node_alloc UCS_OK s] ++
                fevs) ++ [OpenCall.uct_ib_device_init d UCS_OK dev,
                  OpenCall.ibv_alloc_pd dev.ibv_context (some pd)] ++ rcevs)).status =
              UCS_OK ∧
            ∃ p md3,
              (md_open_umr cfg c k env ptr en md2
                (log ++ ([OpenCall.ibv_get_device_list (some l),
                  OpenCall.ucs_malloc (some ptr), OpenCall.stats_node_alloc UCS_OK s] ++
                  fevs) ++ [OpenCall.uct_ib_device_init d UCS_OK dev,
                    OpenCall.ibv_alloc_pd dev.ibv_context (some pd)] ++ rcevs)).md_p =
                some (p, md3) ∧
              open_success cfg k env log md_name md_config enabled news p md3
                (md_open_umr cfg c k env ptr en md2
                  (log ++ ([OpenCall.ibv_get_device_list (some l),
                    OpenCall.ucs_malloc (some ptr), OpenCall.stats_node_alloc UCS_OK s] ++
                    fevs) ++ [OpenCall.uct_ib_device_init d UCS_OK dev,
                      OpenCall.ibv_alloc_pd dev.ibv_context (some pd)] ++
                    rcevs)).fork_warn_enabled := by
        intro rcevs md2 hrc
        obtain ⟨evs, md3, hu, hstep⟩ := md_open_umr_step cfg c k env ptr en md2
          (log ++ ([OpenCall.ibv_get_device_list (some l), OpenCall.ucs_malloc (some ptr),
            OpenCall.stats_node_alloc UCS_OK s] ++ fevs) ++
            [OpenCall.uct_ib_device_init d UCS_OK dev,
              OpenCall.ibv_alloc_pd dev.ibv_context (some pd)] ++ rcevs)
        rw [hu]
        refine ⟨[OpenCall.ibv_get_device_list (some l), OpenCall.ucs_malloc (some ptr),
            OpenCall.stats_node_alloc UCS_OK s] ++ fevs ++
            [OpenCall.uct_ib_device_init d UCS_OK dev,
              OpenCall.ibv_alloc_pd dev.ibv_context (some pd)] ++ rcevs ++ evs ++
            [OpenCall.ibv_free_device_list],
          by simp only [List.append_assoc], rfl, ptr, md3, rfl, ?_⟩
        exact ⟨l, d, s, fevs, dev, pd, rcevs, md2, evs, hl, hf, hfork, hrc, hstep, rfl⟩
      rcases md_open_finish_cases cfg c k env md_config ptr s dev pd en
          (log ++ ([OpenCall.ibv_get_device_list (some l), OpenCall.ucs_malloc (some ptr),
            OpenCall.stats_node_alloc UCS_OK s] ++ fevs) ++
            [OpenCall.uct_ib_device_init d UCS_OK dev,
              OpenCall.ibv_alloc_pd dev.ibv_context (some pd)]) with
        ⟨hyes, st, rc, hst, hfin⟩ | ⟨hno, hfin⟩ | ⟨hno, rc, hfin⟩ | ⟨htry, st, rc, hst, hfin⟩
      · rw [hfin]
        refine ⟨[OpenCall.ibv_get_device_list (some l), OpenCall.ucs_malloc (some ptr),
          OpenCall.stats_node_alloc UCS_OK s] ++ fevs ++
            [OpenCall.uct_ib_device_init d UCS_OK dev,
              OpenCall.ibv_alloc_pd dev.ibv_context (some pd),
              OpenCall.ucs_rcache_create
                { ucm_event_priority := md_config.rcache_event_prio, context := ptr }
                st rc,
              OpenCall.ibv_dealloc_pd pd, OpenCall.uct_ib_device_cleanup dev,
              OpenCall.stats_node_free s, OpenCall.ucs_free ptr,
              OpenCall.ibv_free_device_list],
          by simp only [List.append_assoc, List.cons_append, List.nil_append],
          Or.inl ⟨hst, rfl,
          Or.inr (Or.inr ⟨l, d, hl, hf, Or.inr (Or.inr (Or.inr
            ⟨ptr, s, fevs, hfork, Or.inr (Or.inr ⟨dev, pd, rc, hyes, hst, rfl⟩)⟩))⟩)⟩⟩
      · rw [hfin]
        obtain ⟨news, h1, h2, h3⟩ := hsucc [] _ (Or.inl ⟨hno, rfl, rfl⟩)
        rw [List.append_nil] at h1 h2 h3
        exact ⟨news, h1, Or.inr ⟨h2, h3⟩⟩
      · rw [hfin]
        obtain ⟨news, h1, h2, h3⟩ := hsucc _ _ (Or.inr (Or.inl ⟨hno, rc, rfl, rfl⟩))
        exact ⟨news, h1, Or.inr ⟨h2, h3⟩⟩
      · rw [hfin]
        obtain ⟨news, h1, h2, h3⟩ :=
          hsucc _ _ (Or.inr (Or.inr ⟨htry, st, rc, hst, rfl, rfl⟩))
        exact ⟨news, h1, Or.inr ⟨h2, h3⟩⟩

/-! ## Failure paths of `uct_ib_md_open` -/

theorem open_failure_lifo (k : MdConsts) (env : OpenEnv) (log : List OpenCall)
    (md_name : List Char) (md_config : uct_ib_md_config_t) (enabled : Nat)
    (news : List OpenCall) (status : ucs_status_t) (en : Nat)
    (h : open_failure k env log md_name md_config enabled news status en) :
    lifo_run [] news = some [] ∧
    List.Pairwise (fun a b => a < b) ((news.filterMap released).map release_rank) := by
  rcases h with ⟨_, rfl, _, _⟩ | ⟨l, _, _, rfl, _, _⟩ | ⟨l, d, _, _, ⟨rfl, _, _⟩ |
    ⟨ptr, s, hst, _, rfl⟩ | ⟨ptr, s, ret, _, _, _, _, rfl⟩ | ⟨ptr, s, fevs, hfork, hrest⟩⟩
  · simp [lifo_run, released, acquired]
  · simp [lifo_run, released, acquired, release_rank]
  · simp [lifo_run, released, acquired, release_rank]
  · cases status <;> simp_all [lifo_run, released, acquired, release_rank]
  · simp [lifo_run, released, acquired, release_rank]
  · rcases hrest with ⟨dev, hst, rfl⟩ | ⟨dev, _, rfl⟩ | ⟨dev, pd, rc, _, hst, rfl⟩ <;>
      rcases hfork with ⟨_, rfl, _⟩ | ⟨_, rfl, _⟩ | ⟨_, _, _, ret, _, rfl⟩ |
        ⟨_, _, _, ret, a, _, rfl⟩ <;>
      cases status <;> simp_all [lifo_run, released, acquired, release_rank]

/-- Claim C14: `uct_ib_md_open` stores a domain through `md_p` exactly when it
returns `UCS_OK`; a run that returns an error releases what it acquired in
strict reverse order of acquisition, leaving nothing held, the device list
last, and its releases follow the order protection domain, device,
statistics node, domain object, device list. -/
theorem uct_ib_md_open_failure_unwinds (cfg : BuildConfig) (c : Consts) (k : MdConsts)
    (env : OpenEnv) (md_name : List Char) (md_config : uct_ib_md_config_t) (enabled : Nat)
    (log : List OpenCall) :
    ((uct_ib_md_open cfg c k env md_name md_config enabled log).status = UCS_OK ↔
      (uct_ib_md_open cfg c k env md_name md_config enabled log).md_p ≠ none) ∧
    ((uct_ib_md_open cfg c k env md_name md_config enabled log).status ≠ UCS_OK →
      (uct_ib_md_open cfg c k env md_name md_config enabled log).md_p = none ∧
      lifo_run []
        ((uct_ib_md_open cfg c k env md_name md_config enabled log).log.drop log.length) =
          some [] ∧
      List.Pairwise (fun a b => a < b)
        ((((uct_ib_md_open cfg c k env md_name md_config enabled log).log.drop
          log.length).filterMap released).map release_rank)) := by
  obtain ⟨news, hlog, hcase⟩ := md_open_trace cfg c k env md_name md_config enabled log
  rw [hlog, drop_append_self]
  rcases hcase with ⟨hst, hmd, hf⟩ | ⟨hst, ptr, md3, hmd, _⟩
  · have hl := open_failure_lifo k env log md_name md_config enabled news _ _ hf
    refine ⟨?_, fun _ => ⟨hmd, hl.1, hl.2⟩⟩
    simp [hst, hmd]
  · refine ⟨?_, fun h => absurd hst h⟩
    simp [hst, hmd]

/-! ## Successful `uct_ib_md_open` -/

theorem umr_step_fields (cfg : BuildConfig) (k : MdConsts) (md2 : uct_ib_md_t)
    (evs : List OpenCall) (md3 : uct_ib_md_t) (h : umr_step cfg k md2 evs md3) :
    md3.ops = md2.ops ∧ md3.rcache = md2.rcache ∧ md3.reg_cost = md2.reg_cost ∧
    md3.dev = md2.dev ∧ md3.pd = md2.pd := by
  obtain ⟨_, _, _, heq, _⟩ := h
  refine ⟨?_, ?_, ?_, ?_, ?_⟩ <;> (rw [heq])

theorem not_mem_umr_evs (cfg : BuildConfig) (k : MdConsts) (md2 : uct_ib_md_t)
    (evs : List OpenCall) (md3 : uct_ib_md_t) (h : umr_step cfg k md2 evs md3)
    (e : OpenCall) (he : is_umr_setup_call e = false) : e ∉ evs := by
  intro hmem
  rw [h.1 e hmem] at he
  cases he

theorem open_success_cache (cfg : BuildConfig) (k : MdConsts) (env : OpenEnv)
    (log : List OpenCall) (md_name : List Char) (md_config : uct_ib_md_config_t)
    (enabled : Nat) (news : List OpenCall) (ptr : Nat) (md3 : uct_ib_md_t) (en : Nat)
    (h : open_success cfg k env log md_name md_config enabled news ptr md3 en) :
    (md_config.rcache_enable = UCS_NO ∧ md3.rcache = none ∧ md3.ops = uct_ib_md_ops ∧
      md3.reg_cost = md_config.uc_reg_cost ∧
      ∀ p st rc, OpenCall.ucs_rcache_create p st rc ∉ news) ∨
    (md_config.rcache_enable ≠ UCS_NO ∧ ∃ rc0, md3.rcache = rc0 ∧
      md3.ops = uct_ib_md_rcache_ops ∧
      md3.reg_cost = { overhead := md_config.rcache_overhead, growth := 0 } ∧
      ∀ p st rc, OpenCall.ucs_rcache_create p st rc ∈ news ↔
        (p = { ucm_event_priority := md_config.rcache_event_prio, context := ptr } ∧
          st = UCS_OK ∧ rc = rc0)) ∨
    (md_config.rcache_enable = UCS_TRY ∧ ∃ st0 rc0, st0 ≠ UCS_OK ∧ md3.rcache = rc0 ∧
      md3.ops = uct_ib_md_ops ∧ md3.reg_cost = md_config.uc_reg_cost ∧
      ∀ p st rc, OpenCall.ucs_rcache_create p st rc ∈ news ↔
        (p = { ucm_event_priority := md_config.rcache_event_prio, context := ptr } ∧
          st = st0 ∧ rc = rc0)) := by
  obtain ⟨l, d, s, fevs, dev, pd, rcevs, md2, evs, _, _, hfork, hrc, hstep, rfl⟩ := h
  obtain ⟨hops, hrcache, hcost, _, _⟩ := umr_step_fields cfg k md2 evs md3 hstep
  have hevs : ∀ p st rc, OpenCall.ucs_rcache_create p st rc ∉ evs :=
    fun p st rc => not_mem_umr_evs cfg k md2 evs md3 hstep _ rfl
  have hfevs : ∀ p st rc, OpenCall.ucs_rcache_create p st rc ∉ fevs := by
    intro p st rc
    rcases hfork with ⟨_, rfl, _⟩ | ⟨_, rfl, _⟩ | ⟨_, _, _, ret, _, rfl⟩ |
      ⟨_, _, _, ret, a, _, rfl⟩ <;> simp
  rcases hrc with ⟨hno, rfl, rfl⟩ | ⟨hno, rc0, rfl, rfl⟩ | ⟨htry, st0, rc0, hst0, rfl, rfl⟩
  · left
    refine ⟨hno, by rw [hrcache]; rfl, by rw [hops]; rfl, by rw [hcost]; rfl, ?_⟩
    intro p st rc
    simp [hevs, hfevs]
  · right; left
    refine ⟨hno, rc0, by rw [hrcache], by rw [hops], by rw [hcost], ?_⟩
    intro p st rc
    simp [hevs, hfevs]
  · right; right
    refine ⟨htry, st0, rc0, hst0, by rw [hrcache], by rw [hops]; rfl, by rw [hcost]; rfl, ?_⟩
    intro p st rc
    simp [hevs, hfevs]

/-- Claim C13: after a successful `uct_ib_md_open` whose cache creation
answers `UCS_OK` exactly with a cache, the operation table of the domain is
`uct_ib_md_rcache_ops` if and only if `md->rcache` is set and
`uct_ib_md_ops` otherwise; the two tables agree on `close`, `query`,
`mem_alloc`, `mem_free` and `mkey_pack` and differ on `mem_reg` and
`mem_dereg`, so allocation and release are always the direct functions and
registration and deregistration are the cache functions exactly when the
cache is set. -/
theorem uct_ib_md_open_dispatch (cfg : BuildConfig) (c : Consts) (k : MdConsts)
    (env : OpenEnv) (md_name : List Char) (md_config : uct_ib_md_config_t) (enabled : Nat)
    (log : List OpenCall)
    (hok : (uct_ib_md_open cfg c k env md_name md_config enabled log).status = UCS_OK)
    (hcontract : ∀ e ∈
        (uct_ib_md_open cfg c k env md_name md_config enabled log).log.drop log.length,
      rcache_answer_ok e = true) :
    ∃ ptr md, (uct_ib_md_open cfg c k env md_name md_config enabled log).md_p =
        some (ptr, md) ∧
      (md.ops = uct_ib_md_rcache_ops ↔ md.rcache ≠ none) ∧
      (md.rcache = none → md.ops = uct_ib_md_ops) ∧
      uct_ib_md_ops.close = uct_ib_md_rcache_ops.close ∧
      uct_ib_md_ops.query = uct_ib_md_rcache_ops.query ∧
      uct_ib_md_ops.mem_alloc = uct_ib_md_rcache_ops.mem_alloc ∧
      uct_ib_md_ops.mem_free = uct_ib_md_rcache_ops.mem_free ∧
      uct_ib_md_ops.mkey_pack = uct_ib_md_rcache_ops.mkey_pack ∧
      uct_ib_md_ops.mem_reg ≠ uct_ib_md_rcache_ops.mem_reg ∧
      uct_ib_md_ops.mem_dereg ≠ uct_ib_md_rcache_ops.mem_dereg ∧
      md.ops.mem_alloc = md_func.uct_ib_mem_alloc ∧
      md.ops.mem_free = md_func.uct_ib_mem_free ∧
      (md.rcache ≠ none → md.ops.mem_reg = md_func.uct_ib_mem_rcache_reg ∧
        md.ops.mem_dereg = md_func.uct_ib_mem_rcache_dereg) ∧
      (md.rcache = none → md.ops.mem_reg = md_func.uct_ib_mem_reg ∧
        md.ops.mem_dereg = md_func.uct_ib_mem_dereg) := by
  obtain ⟨news, hlog, hcase⟩ := md_open_trace cfg c k env md_name md_config enabled log
  rw [hlog, drop_append_self] at hcontract
  rcases hcase with ⟨hst, _, _⟩ | ⟨_, ptr, md, hmd, hs⟩
  · exact absurd hok hst
  refine ⟨ptr, md, hmd, ?_⟩
  have htab : uct_ib_md_ops ≠ uct_ib_md_rcache_ops := by decide
  rcases open_success_cache cfg k env log md_name md_config enabled news ptr md _ hs with
    ⟨_, hrc, hops, _, _⟩ | ⟨_, rc0, hrc, hops, _, hmem⟩ | ⟨_, st0, rc0, hst0, hrc, hops, _, hmem⟩
  · rw [hrc, hops]
    simp [htab]
    decide
  · have hne : rc0 ≠ none := by
      have h := hcontract _ ((hmem _ UCS_OK rc0).mpr ⟨rfl, rfl, rfl⟩)
      intro h0
      simp [rcache_answer_ok, h0] at h
    rw [hrc, hops]
    simp [hne]
    decide
  · have hnone : rc0 = none := by
      have h := hcontract _ ((hmem _ st0 rc0).mpr ⟨rfl, rfl, rfl⟩)
      cases rc0 with
      | none => rfl
      | some r => simp [rcache_answer_ok, hst0] at h
    rw [hrc, hops, hnone]
    simp [htab]
    decide

/-- Claim C13 in the environment `envOk` with the default configuration: the
cache is created and the domain gets the cache table. -/
theorem uct_ib_md_open_dispatch_witness :
    ((uct_ib_md_open cfgFull verbsConsts mdConsts envOk md_name_mlx5 config_default
        0 []).md_p.map fun x => (x.2.ops, x.2.rcache)) =
      some (uct_ib_md_rcache_ops, some 900) ∧
    ∃ ptr md, (uct_ib_md_open cfgFull verbsConsts mdConsts envOk md_name_mlx5 config_default
        0 []).md_p = some (ptr, md) ∧
      (md.ops = uct_ib_md_rcache_ops ↔ md.rcache ≠ none) :=
  ⟨by decide,
   (uct_ib_md_open_dispatch cfgFull verbsConsts mdConsts envOk md_name_mlx5 config_default
    0 [] rfl (by decide)).imp fun _ h => h.imp fun _ h => ⟨h.1, h.2.1⟩⟩

/-! ## Best-effort setup of the engine -/

theorem open_failure_no_setup (k : MdConsts) (env : OpenEnv) (log : List OpenCall)
    (md_name : List Char) (md_config : uct_ib_md_config_t) (enabled : Nat)
    (news : List OpenCall) (status : ucs_status_t) (en : Nat)
    (h : open_failure k env log md_name md_config enabled news status en) :
    ∀ e ∈ news, is_umr_setup_call e = false ∧ is_create_cq e = false := by
  rcases h with ⟨_, rfl, _, _⟩ | ⟨l, _, _, rfl, _, _⟩ | ⟨l, d, _, _, ⟨rfl, _, _⟩ |
    ⟨ptr, s, hst, _, rfl⟩ | ⟨ptr, s, ret, _, _, _, _, rfl⟩ | ⟨ptr, s, fevs, hfork, hrest⟩⟩
  · simp [is_umr_setup_call, is_create_cq]
  · simp [is_umr_setup_call, is_create_cq]
  · simp [is_umr_setup_call, is_create_cq]
  · simp [is_umr_setup_call, is_create_cq]
  · simp [is_umr_setup_call, is_create_cq]
  · rcases hrest with ⟨dev, hst, rfl⟩ | ⟨dev, _, rfl⟩ | ⟨dev, pd, rc, _, hst, rfl⟩ <;>
      rcases hfork with ⟨_, rfl, _⟩ | ⟨_, rfl, _⟩ | ⟨_, _, _, ret, _, rfl⟩ |
        ⟨_, _, _, ret, a, _, rfl⟩ <;>
      simp [is_umr_setup_call, is_create_cq]

theorem open_success_umr (cfg : BuildConfig) (k : MdConsts) (env : OpenEnv)
    (log : List OpenCall) (md_name : List Char) (md_config : uct_ib_md_config_t)
    (enabled : Nat) (news : List OpenCall) (ptr : Nat) (md3 : uct_ib_md_t) (en : Nat)
    (h : open_success cfg k env log md_name md_config enabled news ptr md3 en) :
    ∃ md2 evs, umr_step cfg k md2 evs md3 ∧
      (cfg.HAVE_EXP_UMR = false → md2.umr_qp = none ∧ md2.umr_cq = none) ∧
      (∀ e ∈ news, is_failed_setup_step e = true → e ∈ evs) ∧
      news.countP is_create_cq = evs.countP is_create_cq := by
  obtain ⟨l, d, s, fevs, dev, pd, rcevs, md2, evs, _, _, hfork, hrc, hstep, rfl⟩ := h
  refine ⟨md2, evs, hstep, ?_, ?_, ?_⟩
  · intro hcfg
    rcases hrc with ⟨_, _, rfl⟩ | ⟨_, rc0, _, rfl⟩ | ⟨_, st0, rc0, _, _, rfl⟩ <;>
      simp [md_open_md, hcfg]
  · intro e he hfail
    have hf : ∀ x ∈ fevs, is_failed_setup_step x = false := by
      rcases hfork with ⟨_, rfl, _⟩ | ⟨_, rfl, _⟩ | ⟨_, _, _, ret, _, rfl⟩ |
        ⟨_, _, _, ret, a, _, rfl⟩ <;> simp [is_failed_setup_step]
    have hr : ∀ x ∈ rcevs, is_failed_setup_step x = false := by
      rcases hrc with ⟨_, rfl, _⟩ | ⟨_, rc0, rfl, _⟩ | ⟨_, st0, rc0, _, rfl, _⟩ <;>
        simp [is_failed_setup_step]
    simp only [List.mem_append] at he
    rcases he with ((((he | he) | he) | he) | he) | he
    · simp only [List.mem_cons, List.mem_singleton, List.not_mem_nil, or_false] at he
      rcases he with rfl | rfl | rfl <;> simp [is_failed_setup_step] at hfail
    · rw [hf e he] at hfail; cases hfail
    · simp only [List.mem_cons, List.mem_singleton, List.not_mem_nil, or_false] at he
      rcases he with rfl | rfl <;> simp [is_failed_setup_step] at hfail
    · rw [hr e he] at hfail; cases hfail
    · exact he
    · simp only [List.mem_singleton] at he
      subst he
      simp [is_failed_setup_step] at hfail
  · rcases hrc with ⟨_, rfl, _⟩ | ⟨_, rc0, rfl, _⟩ | ⟨_, st0, rc0, _, rfl, _⟩ <;>
      rcases hfork with ⟨_, rfl, _⟩ | ⟨_, rfl, _⟩ | ⟨_, _, _, ret, _, rfl⟩ |
        ⟨_, _, _, ret, a, _, rfl⟩ <;>
      simp [List.countP_append, List.countP_cons, is_create_cq]

theorem umr_qp_create_unwinds (cfg : BuildConfig) (c : Consts) (k : MdConsts) (env : OpenEnv)
    (md : uct_ib_md_t) (log : List OpenCall) :
    ∃ evs, (uct_ib_md_umr_qp_create cfg c k env md log).log = log ++ evs ∧
      ((uct_ib_md_umr_qp_create cfg c k env md log).status ≠ UCS_OK →
        ∀ held, lifo_run held evs = some held) ∧
      ((cfg.HAVE_EXP_UMR = false ∨
          md.dev.exp_device_cap_flags &&& k.IBV_EXP_DEVICE_UMR = 0 ∨
          ∃ e ∈ evs, is_failed_setup_step e = true) →
        (uct_ib_md_umr_qp_create cfg c k env md log).status ≠ UCS_OK) ∧
      ((uct_ib_md_umr_qp_create cfg c k env md log).status = UCS_OK →
        (uct_ib_md_umr_qp_create cfg c k env md log).md.umr_qp ≠ none ∧
        (uct_ib_md_umr_qp_create cfg c k env md log).md.umr_cq ≠ none) ∧
      (∀ ctx, OpenCall.ibv_create_cq ctx none ∈ evs →
        evs = [OpenCall.ibv_create_cq ctx none]) ∧
      evs.countP is_create_cq ≤ 1 := by
  rcases umr_qp_create_cases cfg c k env md log with
    ⟨hu, hwhy⟩ | ⟨hcfg, hcap, hu | ⟨cq, hu⟩ | ⟨cq, qp, steps, hu, hsteps, hfail⟩ |
      ⟨cq, qp, steps, hu, hsteps⟩⟩
  · rw [hu]
    exact ⟨[], by simp, fun _ held => rfl, fun _ => by simp, fun h => by simp at h,
      fun ctx h => by simp at h, by simp⟩
  · rw [hu]
    refine ⟨[OpenCall.ibv_create_cq md.dev.ibv_context none], rfl, fun _ held => ?_,
      fun _ => by simp, fun h => by simp at h, fun ctx h => ?_, by simp [is_create_cq]⟩
    · simp [lifo_run, released, acquired]
    · simp only [List.mem_singleton] at h
      rw [h]
  · rw [hu]
    refine ⟨[OpenCall.ibv_create_cq md.dev.ibv_context (some cq),
        OpenCall.ibv_exp_create_qp md.dev.ibv_context md.pd cq none,
        OpenCall.ibv_destroy_cq cq], rfl, fun _ held => ?_,
      fun _ => by simp, fun h => by simp at h, fun ctx h => ?_, by simp [is_create_cq]⟩
    · simp [lifo_run, released, acquired]
    · simp at h
  · rw [hu]
    refine ⟨[OpenCall.ibv_create_cq md.dev.ibv_context (some cq),
        OpenCall.ibv_exp_create_qp md.dev.ibv_context md.pd cq (some qp)] ++ steps ++
        [OpenCall.ibv_destroy_qp qp, OpenCall.ibv_destroy_cq cq], rfl, fun _ held => ?_,
      fun _ => by simp, fun h => by simp at h, fun ctx h => ?_, ?_⟩
    · rw [lifo_run_append, lifo_run_append]
      have h1 : lifo_run held [OpenCall.ibv_create_cq md.dev.ibv_context (some cq),
          OpenCall.ibv_exp_create_qp md.dev.ibv_context md.pd cq (some qp)] =
          some (Resource.qp qp :: Resource.cq cq :: held) := by
        simp [lifo_run, released, acquired]
      rw [h1]
      simp only [Option.some_bind]
      rw [lifo_run_neutral steps (fun e he => ⟨(hsteps e he).1, (hsteps e he).2.1⟩)]
      simp [lifo_run, released, acquired]
    · exfalso
      simp only [List.mem_append, List.mem_cons, List.mem_singleton, List.not_mem_nil,
        or_false] at h
      rcases h with (h | h) | h
      · rcases h with h | h
        · cases h
        · cases h
      · have := (hsteps _ h).2.2.2
        simp [is_create_cq] at this
      · rcases h with h | h
        · cases h
        · cases h
    · have hz : steps.countP is_create_cq = 0 := by
        rw [List.countP_eq_zero]
        intro e he
        simp [(hsteps e he).2.2.2]
      simp [List.countP_append, List.countP_cons, is_create_cq, hz]
  · rw [hu]
    refine ⟨[OpenCall.ibv_create_cq md.dev.ibv_context (some cq),
        OpenCall.ibv_exp_create_qp md.dev.ibv_context md.pd cq (some qp)] ++ steps, rfl,
      fun h => absurd rfl h, fun h => ?_, fun _ => by simp, fun ctx h => ?_, ?_⟩
    · exfalso
      rcases h with h | h | ⟨e, he, hf⟩
      · rw [hcfg] at h; cases h
      · exact hcap h
      · simp only [List.mem_append, List.mem_cons, List.mem_singleton, List.not_mem_nil,
          or_false] at he
        rcases he with (he | he) | he
        · subst he; simp [is_failed_setup_step] at hf
        · subst he; simp [is_failed_setup_step] at hf
        · rw [(hsteps e he).2.2] at hf; cases hf
    · exfalso
      simp only [List.mem_append, List.mem_cons, List.mem_singleton, List.not_mem_nil,
        or_false] at h
      rcases h with (h | h) | h
      · cases h
      · cases h
      · have := (hsteps _ h).2.1
        simp [is_create_cq] at this
    · have hz : steps.countP is_create_cq = 0 := by
        rw [List.countP_eq_zero]
        intro e he
        simp [(hsteps e he).2.1]
      simp [List.countP_append, List.countP_cons, is_create_cq, hz]

/-- Claim C15: setting up the indirect-key engine is best-effort.  A run of
`uct_ib_md_umr_qp_create` that does not return `UCS_OK` has destroyed exactly
what it created, in reverse order of creation (the queue pair before the
completion queue), so that the resources held are those held before; when
`ibv_create_cq` fails it is the only call made.  The run returns a non-OK
status whenever the capability is missing or one of its steps failed.  An
open that reached the setup returns `UCS_OK`; its domain has `umr_qp` and
`umr_cq` both NULL when the setup failed; and an open makes at most one
attempt, exactly one on a capable device when it succeeds. -/
theorem uct_ib_md_umr_setup_best_effort (cfg : BuildConfig) (c : Consts) (k : MdConsts)
    (env : OpenEnv) :
    (∀ (md : uct_ib_md_t) (log : List OpenCall),
      (uct_ib_md_umr_qp_create cfg c k env md log).log =
        log ++ (uct_ib_md_umr_qp_create cfg c k env md log).log.drop log.length ∧
      ((uct_ib_md_umr_qp_create cfg c k env md log).status ≠ UCS_OK →
        ∀ held, lifo_run held
          ((uct_ib_md_umr_qp_create cfg c k env md log).log.drop log.length) = some held) ∧
      ((cfg.HAVE_EXP_UMR = false ∨
          md.dev.exp_device_cap_flags &&& k.IBV_EXP_DEVICE_UMR = 0 ∨
          ∃ e ∈ (uct_ib_md_umr_qp_create cfg c k env md log).log.drop log.length,
            is_failed_setup_step e = true) →
        (uct_ib_md_umr_qp_create cfg c k env md log).status ≠ UCS_OK) ∧
      (∀ ctx, OpenCall.ibv_create_cq ctx none ∈
          (uct_ib_md_umr_qp_create cfg c k env md log).log.drop log.length →
        (uct_ib_md_umr_qp_create cfg c k env md log).log.drop log.length =
          [OpenCall.ibv_create_cq ctx none])) ∧
    (∀ (md_name : List Char) (md_config : uct_ib_md_config_t) (enabled : Nat)
        (log : List OpenCall),
      ((∃ e ∈ (uct_ib_md_open cfg c k env md_name md_config enabled log).log.drop log.length,
          is_umr_setup_call e = true) →
        (uct_ib_md_open cfg c k env md_name md_config enabled log).status = UCS_OK) ∧
      ((uct_ib_md_open cfg c k env md_name md_config enabled log).status = UCS_OK →
        ∃ ptr md, (uct_ib_md_open cfg c k env md_name md_config enabled log).md_p =
            some (ptr, md) ∧
          ((cfg.HAVE_EXP_UMR = false ∨
              md.dev.exp_device_cap_flags &&& k.IBV_EXP_DEVICE_UMR = 0 ∨
              ∃ e ∈ (uct_ib_md_open cfg c k env md_name md_config enabled log).log.drop
                  log.length, is_failed_setup_step e = true) →
            md.umr_qp = none ∧ md.umr_cq = none) ∧
          (cfg.HAVE_EXP_UMR = true →
            md.dev.exp_device_cap_flags &&& k.IBV_EXP_DEVICE_UMR ≠ 0 →
            ((uct_ib_md_open cfg c k env md_name md_config enabled log).log.drop
              log.length).countP is_create_cq = 1)) ∧
      ((uct_ib_md_open cfg c k env md_name md_config enabled log).log.drop
        log.length).countP is_create_cq ≤ 1) := by
  constructor
  · intro md log
    obtain ⟨evs, hlog, h1, h2, _, h4, _⟩ := umr_qp_create_unwinds cfg c k env md log
    rw [hlog, drop_append_self]
    exact ⟨rfl, h1, h2, h4⟩
  · intro md_name md_config enabled log
    obtain ⟨news, hlog, hcase⟩ := md_open_trace cfg c k env md_name md_config enabled log
    rw [hlog, drop_append_self]
    rcases hcase with ⟨hst, _, hf⟩ | ⟨hst, ptr, md3, hmd, hs⟩
    · have hno := open_failure_no_setup k env log md_name md_config enabled news _ _ hf
      refine ⟨?_, fun h => absurd h hst, ?_⟩
      · rintro ⟨e, he, hset⟩
        rw [(hno e he).1] at hset
        cases hset
      · have hz : news.countP is_create_cq = 0 := by
          rw [List.countP_eq_zero]
          intro e he
          simp [(hno e he).2]
        omega
    · obtain ⟨md2, evs, hstep, hplain, hfailed, hcount⟩ :=
        open_success_umr cfg k env log md_name md_config enabled news ptr md3 _ hs
      obtain ⟨_, _, _, hdev, _⟩ := umr_step_fields cfg k md2 evs md3 hstep
      obtain ⟨_, hle, hone, _, hoff, _, hfail, hcap⟩ := hstep
      refine ⟨fun _ => hst, fun _ => ⟨ptr, md3, hmd, ?_, ?_⟩, by rw [hcount]; exact hle⟩
      · rintro (hcfg | hzero | ⟨e, he, hf⟩)
        · rw [(hoff hcfg).1]
          exact hplain hcfg
        · cases hcfg : cfg.HAVE_EXP_UMR with
          | false =>
            rw [(hoff hcfg).1]
            exact hplain hcfg
          | true =>
            rw [hdev] at hzero
            exact ⟨(hcap hcfg hzero).1, (hcap hcfg hzero).2.1⟩
        · exact hfail ⟨e, hfailed e he hf, hf⟩
      · intro hcfg hnz
        rw [hdev] at hnz
        rw [hcount]
        exact hone hcfg hnz

/-- Claim C15 in an environment where the transition to ready-to-receive
fails: the queue pair and then the completion queue are destroyed, and the
open succeeds with the engine inactive. -/
theorem uct_ib_md_umr_setup_best_effort_witness :
    ((uct_ib_md_open cfgFull verbsConsts mdConsts envRtrFail md_name_mlx5 config_default
        0 []).log.drop 7 =
      [OpenCall.ibv_create_cq 21 (some 4), OpenCall.ibv_exp_create_qp 21 7 4 (some 3),
        OpenCall.ibv_modify_qp 3 (umr_attr_init verbsConsts 1) 0,
        OpenCall.uct_ib_device_query_gid 1 UCS_OK,
        OpenCall.ibv_modify_qp 3 (umr_attr_rtr verbsConsts 1 103 5 77) 22,
        OpenCall.ibv_destroy_qp 3, OpenCall.ibv_destroy_cq 4,
        OpenCall.ibv_free_device_list]) ∧
    ((uct_ib_md_open cfgFull verbsConsts mdConsts envRtrFail md_name_mlx5 config_default
        0 []).md_p.map fun x => (x.2.umr_qp, x.2.umr_cq)) = some (none, none) ∧
    (uct_ib_md_open cfgFull verbsConsts mdConsts envRtrFail md_name_mlx5 config_default
        0 []).status = UCS_OK :=
  ⟨by decide, by decide,
   ((uct_ib_md_umr_setup_best_effort cfgFull verbsConsts mdConsts envRtrFail).2
      md_name_mlx5 config_default 0 []).1
     ⟨OpenCall.ibv_destroy_qp 3, by decide, rfl⟩⟩

/-! ## Configuration of the cache -/

theorem open_failure_cache (k : MdConsts) (env : OpenEnv) (log : List OpenCall)
    (md_name : List Char) (md_config : uct_ib_md_config_t) (enabled : Nat)
    (news : List OpenCall) (status : ucs_status_t) (en : Nat)
    (h : open_failure k env log md_name md_config enabled news status en) :
    ∀ p st rc, OpenCall.ucs_rcache_create p st rc ∈ news →
      md_config.rcache_enable = UCS_YES ∧ st = status ∧ st ≠ UCS_OK := by
  intro p st rc hmem
  rcases h with ⟨_, rfl, _, _⟩ | ⟨l, _, _, rfl, _, _⟩ | ⟨l, d, _, _, ⟨rfl, _, _⟩ |
    ⟨ptr, s, hst, _, rfl⟩ | ⟨ptr, s, ret, _, _, _, _, rfl⟩ | ⟨ptr, s, fevs, hfork, hrest⟩⟩
  · simp at hmem
  · simp at hmem
  · simp at hmem
  · simp at hmem
  · simp at hmem
  · have hfevs : OpenCall.ucs_rcache_create p st rc ∉ fevs := by
      rcases hfork with ⟨_, rfl, _⟩ | ⟨_, rfl, _⟩ | ⟨_, _, _, ret, _, rfl⟩ |
        ⟨_, _, _, ret, a, _, rfl⟩ <;> simp
    rcases hrest with ⟨dev, hst, rfl⟩ | ⟨dev, _, rfl⟩ | ⟨dev, pd, rc0, hyes, hst, rfl⟩
    · simp [hfevs] at hmem
    · simp [hfevs] at hmem
    · simp [hfevs] at hmem
      exact ⟨hyes, hmem.2.1, by rw [hmem.2.1]; exact hst⟩

/-- Claim C16: the cache-enable setting of `uct_ib_md_open`.  With `no`,
`ucs_rcache_create` is never called and a domain opened has `md->rcache`
NULL and the direct table.  With `yes`, a failed creation makes the open
return the status of the creation, store nothing, and release what it
acquired in reverse order.  With `try`, a failed creation lets the open
succeed with the direct table, `md->rcache` being what the failed creation
left, NULL under the contract of `ucs_rcache_create`.  A creation that
succeeded (setting `yes` or `try`) lets the open succeed with the cache
table and the cache created.  With `yes` or `try` every successful open has
called `ucs_rcache_create`. -/
theorem uct_ib_md_open_rcache_modes (cfg : BuildConfig) (c : Consts) (k : MdConsts)
    (env : OpenEnv) (md_name : List Char) (md_config : uct_ib_md_config_t) (enabled : Nat)
    (log : List OpenCall) :
    (md_config.rcache_enable = UCS_NO →
      (∀ p st rc, OpenCall.ucs_rcache_create p st rc ∉
        (uct_ib_md_open cfg c k env md_name md_config enabled log).log.drop log.length) ∧
      ∀ ptr md, (uct_ib_md_open cfg c k env md_name md_config enabled log).md_p =
          some (ptr, md) →
        md.rcache = none ∧ md.ops = uct_ib_md_ops) ∧
    (md_config.rcache_enable = UCS_YES →
      ∀ p st rc, OpenCall.ucs_rcache_create p st rc ∈
          (uct_ib_md_open cfg c k env md_name md_config enabled log).log.drop log.length →
        st ≠ UCS_OK →
        (uct_ib_md_open cfg c k env md_name md_config enabled log).status = st ∧
        (uct_ib_md_open cfg c k env md_name md_config enabled log).md_p = none ∧
        lifo_run []
          ((uct_ib_md_open cfg c k env md_name md_config enabled log).log.drop log.length) =
            some []) ∧
    (md_config.rcache_enable = UCS_TRY →
      ∀ p st rc, OpenCall.ucs_rcache_create p st rc ∈
          (uct_ib_md_open cfg c k env md_name md_config enabled log).log.drop log.length →
        st ≠ UCS_OK →
        (uct_ib_md_open cfg c k env md_name md_config enabled log).status = UCS_OK ∧
        ∃ ptr md, (uct_ib_md_open cfg c k env md_name md_config enabled log).md_p =
            some (ptr, md) ∧
          md.rcache = rc ∧ md.ops = uct_ib_md_ops ∧
          (rcache_answer_ok (OpenCall.ucs_rcache_create p st rc) = true →
            md.rcache = none)) ∧
    (∀ p rc, OpenCall.ucs_rcache_create p UCS_OK rc ∈
        (uct_ib_md_open cfg c k env md_name md_config enabled log).log.drop log.length →
      md_config.rcache_enable ≠ UCS_NO ∧
      (uct_ib_md_open cfg c k env md_name md_config enabled log).status = UCS_OK ∧
      ∃ ptr md, (uct_ib_md_open cfg c k env md_name md_config enabled log).md_p =
          some (ptr, md) ∧
        md.rcache = rc ∧ md.ops = uct_ib_md_rcache_ops) ∧
    (md_config.rcache_enable ≠ UCS_NO →
      (uct_ib_md_open cfg c k env md_name md_config enabled log).status = UCS_OK →
      ∃ p st rc, OpenCall.ucs_rcache_create p st rc ∈
        (uct_ib_md_open cfg c k env md_name md_config enabled log).log.drop log.length) := by
  obtain ⟨news, hlog, hcase⟩ := md_open_trace cfg c k env md_name md_config enabled log
  rw [hlog, drop_append_self]
  rcases hcase with ⟨hst, hmd, hf⟩ | ⟨hst, ptr, md3, hmd, hs⟩
  · have hc := open_failure_cache k env log md_name md_config enabled news _ _ hf
    have hl := open_failure_lifo k env log md_name md_config enabled news _ _ hf
    refine ⟨fun hno => ⟨?_, ?_⟩, ?_, ?_, ?_, ?_⟩
    · intro p st rc hmem
      have := (hc p st rc hmem).1
      rw [hno] at this
      cases this
    · intro ptr md hp
      rw [hmd] at hp
      cases hp
    · intro _ p st rc hmem _
      exact ⟨((hc p st rc hmem).2.1).symm, hmd, hl.1⟩
    · intro htry p st rc hmem _
      have := (hc p st rc hmem).1
      rw [htry] at this
      cases this
    · intro p rc hmem
      exact absurd rfl (hc p UCS_OK rc hmem).2.2
    · intro _ hok
      exact absurd hok hst
  · rcases open_success_cache cfg k env log md_name md_config enabled news ptr md3 _ hs with
      ⟨hno, hrc, hops, _, hmem⟩ | ⟨hne, rc0, hrc, hops, _, hmem⟩ |
        ⟨htry, st0, rc0, hst0, hrc, hops, _, hmem⟩
    · refine ⟨fun _ => ⟨hmem, ?_⟩, ?_, ?_, ?_, ?_⟩
      · intro ptr2 md hp
        rw [hmd] at hp
        cases hp
        exact ⟨hrc, hops⟩
      · intro _ p st rc hm _
        exact absurd hm (hmem p st rc)
      · intro _ p st rc hm _
        exact absurd hm (hmem p st rc)
      · intro p rc hm
        exact absurd hm (hmem p UCS_OK rc)
      · intro hne _
        exact absurd hno hne
    · refine ⟨fun hno => absurd hno hne, ?_, ?_, ?_, ?_⟩
      · intro _ p st rc hm hbad
        exact absurd ((hmem p st rc).mp hm).2.1 hbad
      · intro _ p st rc hm hbad
        exact absurd ((hmem p st rc).mp hm).2.1 hbad
      · intro p rc hm
        exact ⟨hne, hst, ptr, md3, hmd, by rw [hrc, ((hmem p UCS_OK rc).mp hm).2.2], hops⟩
      · intro _ _
        exact ⟨_, UCS_OK, rc0, (hmem _ UCS_OK rc0).mpr ⟨rfl, rfl, rfl⟩⟩
    · refine ⟨fun hno => ?_, fun hyes => ?_, ?_, ?_, ?_⟩
      · rw [htry] at hno
        cases hno
      · rw [htry] at hyes
        cases hyes
      · intro _ p st rc hm hbad
        have hrc2 : rc = rc0 := ((hmem p st rc).mp hm).2.2
        refine ⟨hst, ptr, md3, hmd, by rw [hrc, hrc2], hops, ?_⟩
        intro hcontract
        rw [hrc, ← hrc2]
        cases rc with
        | none => rfl
        | some r => simp [rcache_answer_ok, hbad] at hcontract
      · intro p rc hm
        exact absurd ((hmem p UCS_OK rc).mp hm).2.1.symm hst0
      · intro _ _
        exact ⟨_, st0, rc0, (hmem _ st0 rc0).mpr ⟨rfl, rfl, rfl⟩⟩

/-- Claim C16 in an environment where the cache cannot be created, with the
default setting `try`: the open succeeds with `md->rcache` NULL and the
direct table. -/
theorem uct_ib_md_open_rcache_modes_witness :
    (uct_ib_md_open cfgFull verbsConsts mdConsts envNoRcache md_name_mlx5 config_default
        0 []).status = UCS_OK ∧
    ∃ ptr md, (uct_ib_md_open cfgFull verbsConsts mdConsts envNoRcache md_name_mlx5
        config_default 0 []).md_p = some (ptr, md) ∧
      md.rcache = none ∧ md.ops = uct_ib_md_ops :=
  have h := (uct_ib_md_open_rcache_modes cfgFull verbsConsts mdConsts envNoRcache md_name_mlx5
    config_default 0 []).2.2.1 rfl
      { ucm_event_priority := 1000, context := 5000 } UCS_ERR_NO_MEMORY none
      (by decide) (by decide)
  ⟨h.1, h.2.imp fun _ h => h.imp fun _ h => ⟨h.1, h.2.1, h.2.2.1⟩⟩

/-! ## Configuration of fork safety -/

theorem setup_call_not_fork (e : OpenCall) (h : is_umr_setup_call e = true) :
    is_fork_call e = false := by
  cases e <;> simp [is_umr_setup_call, is_fork_call] at h ⊢

theorem md_open_fork_view (cfg : BuildConfig) (c : Consts) (k : MdConsts) (env : OpenEnv)
    (md_name : List Char) (md_config : uct_ib_md_config_t) (enabled : Nat)
    (log : List OpenCall) :
    ∃ news, (uct_ib_md_open cfg c k env md_name md_config enabled log).log = log ++ news ∧
      (((∀ e ∈ news, is_fork_call e = false) ∧
        (uct_ib_md_open cfg c k env md_name md_config enabled log).fork_warn_enabled =
          enabled ∧
        (uct_ib_md_open cfg c k env md_name md_config enabled log).status ≠ UCS_OK) ∨
       (∃ l ptr s ret, md_config.fork_init = UCS_YES ∧ ret ≠ 0 ∧
        (uct_ib_md_open cfg c k env md_name md_config enabled log).status =
          UCS_ERR_IO_ERROR ∧
        (uct_ib_md_open cfg c k env md_name md_config enabled log).md_p = none ∧
        (uct_ib_md_open cfg c k env md_name md_config enabled log).fork_warn_enabled =
          enabled ∧
        news = [OpenCall.ibv_get_device_list (some l), OpenCall.ucs_malloc (some ptr),
          OpenCall.stats_node_alloc UCS_OK s, OpenCall.ibv_fork_init ret,
          OpenCall.stats_node_free s, OpenCall.ucs_free ptr,
          OpenCall.ibv_free_device_list]) ∨
       (∃ pre fevs post,
        fork_step md_config enabled fevs
          (uct_ib_md_open cfg c k env md_name md_config enabled log).fork_warn_enabled ∧
        news = pre ++ fevs ++ post ∧
        (∀ e ∈ pre, is_fork_call e = false) ∧ (∀ e ∈ post, is_fork_call e = false) ∧
        (∃ d st dev, OpenCall.uct_ib_device_init d st dev ∈ post) ∧
        ((uct_ib_md_open cfg c k env md_name md_config enabled log).status ≠ UCS_OK →
          ∃ e ∈ post, is_failure_after_fork e = true))) := by
  obtain ⟨news, hlog, hcase⟩ := md_open_trace cfg c k env md_name md_config enabled log
  refine ⟨news, hlog, ?_⟩
  rcases hcase with ⟨hst, hmd, hf⟩ | ⟨hst, ptr, md3, hmd, hs⟩
  · rcases hf with ⟨_, rfl, _, hen⟩ | ⟨l, _, _, rfl, _, hen⟩ | ⟨l, d, _, _, ⟨rfl, _, hen⟩ |
      ⟨ptr, s, _, hen, rfl⟩ | ⟨ptr, s, ret, hyes, hret, hio, hen, rfl⟩ |
      ⟨ptr, s, fevs, hfork, hrest⟩⟩
    · exact Or.inl ⟨by simp [is_fork_call], hen, hst⟩
    · exact Or.inl ⟨by simp [is_fork_call], hen, hst⟩
    · exact Or.inl ⟨by simp [is_fork_call], hen, hst⟩
    · exact Or.inl ⟨by simp [is_fork_call], hen, hst⟩
    · exact Or.inr (Or.inl ⟨l, ptr, s, ret, hyes, hret, hio, hmd, hen, rfl⟩)
    · right; right
      rcases hrest with ⟨dev, hst2, rfl⟩ | ⟨dev, _, rfl⟩ | ⟨dev, pd, rc, _, hst2, rfl⟩
      · refine ⟨[OpenCall.ibv_get_device_list (some l), OpenCall.ucs_malloc (some ptr),
            OpenCall.stats_node_alloc UCS_OK s], fevs, _, hfork, rfl,
          by simp [is_fork_call], by simp [is_fork_call],
          ⟨d, _, dev, List.mem_cons_self _ _⟩, fun _ => ⟨_, List.mem_cons_self _ _, ?_⟩⟩
        simp [is_failure_after_fork, hst2]
      · refine ⟨[OpenCall.ibv_get_device_list (some l), OpenCall.ucs_malloc (some ptr),
            OpenCall.stats_node_alloc UCS_OK s], fevs, _, hfork, rfl,
          by simp [is_fork_call], by simp [is_fork_call],
          ⟨d, _, dev, List.mem_cons_self _ _⟩,
          fun _ => ⟨_, List.mem_cons_of_mem _ (List.mem_cons_self _ _), ?_⟩⟩
        simp [is_failure_after_fork]
      · refine ⟨[OpenCall.ibv_get_device_list (some l), OpenCall.ucs_malloc (some ptr),
            OpenCall.stats_node_alloc UCS_OK s], fevs, _, hfork, rfl,
          by simp [is_fork_call], by simp [is_fork_call],
          ⟨d, _, dev, List.mem_cons_self _ _⟩,
          fun _ => ⟨_, List.mem_cons_of_mem _ (List.mem_cons_of_mem _
            (List.mem_cons_self _ _)), ?_⟩⟩
        simp [is_failure_after_fork, hst2]
  · right; right
    obtain ⟨l, d, s, fevs, dev, pd, rcevs, md2, evs, _, _, hfork, hrc, hstep, rfl⟩ := hs
    refine ⟨[OpenCall.ibv_get_device_list (some l), OpenCall.ucs_malloc (some ptr),
        OpenCall.stats_node_alloc UCS_OK s], fevs,
      [OpenCall.uct_ib_device_init d UCS_OK dev,
        OpenCall.ibv_alloc_pd dev.ibv_context (some pd)] ++ rcevs ++ evs ++
        [OpenCall.ibv_free_device_list], hfork, by simp only [List.append_assoc],
      by simp [is_fork_call], ?_, ⟨d, UCS_OK, dev, by simp⟩, fun h => absurd hst h⟩
    have hr : ∀ x ∈ rcevs, is_fork_call x = false := by
      rcases hrc with ⟨_, rfl, _⟩ | ⟨_, rc0, rfl, _⟩ | ⟨_, st0, rc0, _, rfl, _⟩ <;>
        simp [is_fork_call]
    intro e he
    simp only [List.mem_append] at he
    rcases he with ((he | he) | he) | he
    · simp only [List.mem_cons, List.mem_singleton, List.not_mem_nil, or_false] at he
      rcases he with rfl | rfl <;> rfl
    · exact hr e he
    · exact setup_call_not_fork e (hstep.1 e he)
    · simp only [List.mem_singleton] at he
      subst he
      rfl

/-- Claim C17: the fork-safety setting of `uct_ib_md_open`.  With `no`,
neither `ibv_fork_init` nor `pthread_atfork` is called.  With `yes`, a
failing `ibv_fork_init` makes the open return `UCS_ERR_IO_ERROR` and store
nothing; the device is not initialised, and the statistics node, the domain
object and the device list are released, in this order.  With `try`, a
failing `ibv_fork_init` is followed by `uct_ib_fork_warn_enable`, which
leaves its static flag set and calls `pthread_atfork` exactly when the flag
was clear, and the open goes on to initialise the device and returns
`UCS_OK` unless a later call fails.  When `ibv_fork_init` succeeds the
handler is not registered, the flag is unchanged, and the open goes on
likewise.  With `yes` or `try` every successful open has called
`ibv_fork_init`. -/
theorem uct_ib_md_open_fork_modes (cfg : BuildConfig) (c : Consts) (k : MdConsts)
    (env : OpenEnv) (md_name : List Char) (md_config : uct_ib_md_config_t) (enabled : Nat)
    (log : List OpenCall) :
    (md_config.fork_init = UCS_NO →
      (∀ ret, OpenCall.ibv_fork_init ret ∉
        (uct_ib_md_open cfg c k env md_name md_config enabled log).log.drop log.length) ∧
      (∀ a, OpenCall.pthread_atfork a ∉
        (uct_ib_md_open cfg c k env md_name md_config enabled log).log.drop log.length) ∧
      (uct_ib_md_open cfg c k env md_name md_config enabled log).fork_warn_enabled =
        enabled) ∧
    (md_config.fork_init = UCS_YES →
      ∀ ret, OpenCall.ibv_fork_init ret ∈
          (uct_ib_md_open cfg c k env md_name md_config enabled log).log.drop log.length →
        ret ≠ 0 →
        (uct_ib_md_open cfg c k env md_name md_config enabled log).status =
          UCS_ERR_IO_ERROR ∧
        (uct_ib_md_open cfg c k env md_name md_config enabled log).md_p = none ∧
        (uct_ib_md_open cfg c k env md_name md_config enabled log).fork_warn_enabled =
          enabled ∧
        ∃ l ptr s,
          (uct_ib_md_open cfg c k env md_name md_config enabled log).log.drop log.length =
            [OpenCall.ibv_get_device_list (some l), OpenCall.ucs_malloc (some ptr),
              OpenCall.stats_node_alloc UCS_OK s, OpenCall.ibv_fork_init ret,
              OpenCall.stats_node_free s, OpenCall.ucs_free ptr,
              OpenCall.ibv_free_device_list]) ∧
    (md_config.fork_init = UCS_TRY →
      ∀ ret, OpenCall.ibv_fork_init ret ∈
          (uct_ib_md_open cfg c k env md_name md_config enabled log).log.drop log.length →
        ret ≠ 0 →
        (uct_ib_md_open cfg c k env md_name md_config enabled log).fork_warn_enabled ≠ 0 ∧
        ((∃ a, OpenCall.pthread_atfork a ∈
            (uct_ib_md_open cfg c k env md_name md_config enabled log).log.drop
              log.length) ↔ enabled = 0) ∧
        (∃ d st dev, OpenCall.uct_ib_device_init d st dev ∈
          (uct_ib_md_open cfg c k env md_name md_config enabled log).log.drop log.length) ∧
        ((∀ e ∈ (uct_ib_md_open cfg c k env md_name md_config enabled log).log.drop
            log.length, is_failure_after_fork e = false) →
          (uct_ib_md_open cfg c k env md_name md_config enabled log).status = UCS_OK)) ∧
    (OpenCall.ibv_fork_init 0 ∈
        (uct_ib_md_open cfg c k env md_name md_config enabled log).log.drop log.length →
      md_config.fork_init ≠ UCS_NO ∧
      (∀ a, OpenCall.pthread_atfork a ∉
        (uct_ib_md_open cfg c k env md_name md_config enabled log).log.drop log.length) ∧
      (uct_ib_md_open cfg c k env md_name md_config enabled log).fork_warn_enabled =
        enabled ∧
      (∃ d st dev, OpenCall.uct_ib_device_init d st dev ∈
        (uct_ib_md_open cfg c k env md_name md_config enabled log).log.drop log.length) ∧
      ((∀ e ∈ (uct_ib_md_open cfg c k env md_name md_config enabled log).log.drop
          log.length, is_failure_after_fork e = false) →
        (uct_ib_md_open cfg c k env md_name md_config enabled log).status = UCS_OK)) ∧
    (md_config.fork_init ≠ UCS_NO →
      (uct_ib_md_open cfg c k env md_name md_config enabled log).status = UCS_OK →
      ∃ ret, OpenCall.ibv_fork_init ret ∈
        (uct_ib_md_open cfg c k env md_name md_config enabled log).log.drop log.length) := by
  obtain ⟨news, hlog, hview⟩ := md_open_fork_view cfg c k env md_name md_config enabled log
  rw [hlog, drop_append_self]
  rcases hview with ⟨hnone, hen, hst⟩ | ⟨l, ptr, s, ret0, hyes, hret0, hio, hmd, hen, rfl⟩ |
    ⟨pre, fevs, post, hfork, rfl, hpre, hpost, hdev, hfail⟩
  · have hf : ∀ ret, OpenCall.ibv_fork_init ret ∉ news := fun ret hm => by
      have := hnone _ hm
      simp [is_fork_call] at this
    have ha : ∀ a, OpenCall.pthread_atfork a ∉ news := fun a hm => by
      have := hnone _ hm
      simp [is_fork_call] at this
    exact ⟨fun _ => ⟨hf, ha, hen⟩, fun _ ret hm _ => absurd hm (hf ret),
      fun _ ret hm _ => absurd hm (hf ret), fun hm => absurd hm (hf 0),
      fun _ hok => absurd hok hst⟩
  · refine ⟨fun hno => ?_, fun _ ret hm _ => ?_, fun htry => ?_, fun hm => ?_,
      fun _ hok => ?_⟩
    · rw [hyes] at hno
      cases hno
    · have hr : ret = ret0 := by simpa using hm
      subst hr
      exact ⟨hio, hmd, hen, l, ptr, s, rfl⟩
    · rw [hyes] at htry
      cases htry
    · have hr : (0 : Int) = ret0 := by simpa using hm
      exact absurd hr.symm hret0
    · rw [hio] at hok
      cases hok
  · have hmem : ∀ e, is_fork_call e = true → (e ∈ pre ++ fevs ++ post ↔ e ∈ fevs) := by
      intro e he
      simp only [List.mem_append]
      constructor
      · rintro ((h | h) | h)
        · rw [hpre e h] at he; cases he
        · exact h
        · rw [hpost e h] at he; cases he
      · intro h
        exact Or.inl (Or.inr h)
    have hdev2 : ∃ d st dev, OpenCall.uct_ib_device_init d st dev ∈ pre ++ fevs ++ post := by
      obtain ⟨d, st, dev, h⟩ := hdev
      exact ⟨d, st, dev, List.mem_append_right _ h⟩
    have hok : (∀ e ∈ pre ++ fevs ++ post, is_failure_after_fork e = false) →
        (uct_ib_md_open cfg c k env md_name md_config enabled log).status = UCS_OK := by
      intro hall
      by_contra hne
      obtain ⟨e, he, hbad⟩ := hfail hne
      rw [hall e (List.mem_append_right _ he)] at hbad
      cases hbad
    have hfi : ∀ ret, OpenCall.ibv_fork_init ret ∈ pre ++ fevs ++ post ↔
        OpenCall.ibv_fork_init ret ∈ fevs := fun ret => hmem _ rfl
    have haf : ∀ a, OpenCall.pthread_atfork a ∈ pre ++ fevs ++ post ↔
        OpenCall.pthread_atfork a ∈ fevs := fun a => hmem _ rfl
    simp only [hfi, haf]
    rcases hfork with ⟨hno, rfl, hen⟩ | ⟨hne, rfl, hen⟩ | ⟨htry, hnz, hen, ret0, hret0, rfl⟩ |
      ⟨htry, hz, hen, ret0, a0, hret0, rfl⟩
    · refine ⟨fun _ => ⟨by simp, by simp, hen⟩, fun _ ret hm _ => by simp at hm,
        fun _ ret hm _ => by simp at hm, fun hm => by simp at hm,
        fun hne _ => absurd hno hne⟩
    · refine ⟨fun hno => absurd hno hne, fun _ ret hm hret => ?_, fun _ ret hm hret => ?_,
        fun _ => ⟨hne, by simp, hen, hdev2, hok⟩, fun _ _ => ⟨0, by simp⟩⟩
      · have hr : ret = 0 := by simpa using hm
        exact absurd hr hret
      · have hr : ret = 0 := by simpa using hm
        exact absurd hr hret
    · refine ⟨fun hno => ?_, fun hyes => ?_, fun _ ret hm hret => ?_, fun hm => ?_,
        fun _ _ => ⟨ret0, by simp⟩⟩
      · rw [htry] at hno
        cases hno
      · rw [htry] at hyes
        cases hyes
      · refine ⟨by rw [hen]; exact hnz, ?_, hdev2, hok⟩
        simp [hnz]
      · have hr : (0 : Int) = ret0 := by simpa using hm
        exact absurd hr.symm hret0
    · refine ⟨fun hno => ?_, fun hyes => ?_, fun _ ret hm hret => ?_, fun hm => ?_,
        fun _ _ => ⟨ret0, by simp⟩⟩
      · rw [htry] at hno
        cases hno
      · rw [htry] at hyes
        cases hyes
      · refine ⟨by rw [hen]; decide, ?_, hdev2, hok⟩
        simp [hz]
      · have hr : (0 : Int) = ret0 := by simpa using hm
        exact absurd hr.symm hret0

/-- Claim C17 in an environment where `ibv_fork_init` fails, with the default
setting `try`: the handler is registered and the open succeeds. -/
theorem uct_ib_md_open_fork_modes_witness :
    (uct_ib_md_open cfgFull verbsConsts mdConsts envForkFail md_name_mlx5 config_default
        0 []).fork_warn_enabled ≠ 0 ∧
    (uct_ib_md_open cfgFull verbsConsts mdConsts envForkFail md_name_mlx5 config_default
        0 []).status = UCS_OK ∧
    OpenCall.pthread_atfork 0 ∈
      (uct_ib_md_open cfgFull verbsConsts mdConsts envForkFail md_name_mlx5 config_default
        0 []).log :=
  have h := (uct_ib_md_open_fork_modes cfgFull verbsConsts mdConsts envForkFail md_name_mlx5
    config_default 0 []).2.2.1 rfl (-1) (by decide) (by decide)
  ⟨h.1, h.2.2.2 (by decide), by decide⟩

/-! ## Identifier of the engine -/

theorem umr_id_active (cfg : BuildConfig) (hw : Extern) (md : uct_ib_md_t)
    (h : engine_active cfg md) : uct_ib_md_umr_id cfg hw md = hw.getpid % 256 := by
  obtain ⟨hcfg, hqp, hcq⟩ := h
  obtain ⟨qp, hqp⟩ := Option.ne_none_iff_exists'.mp hqp
  obtain ⟨cq, hcq⟩ := Option.ne_none_iff_exists'.mp hcq
  simp only [uct_ib_md_umr_id, hcfg, hqp, hcq, if_true, Option.isNone_some, Bool.or_self,
    Bool.false_eq_true, if_false]
  exact Nat.mod_eq_of_lt (Nat.mod_lt _ (by decide))

theorem umr_id_inactive (cfg : BuildConfig) (hw : Extern) (md : uct_ib_md_t)
    (h : ¬ engine_active cfg md) : uct_ib_md_umr_id cfg hw md = 0 := by
  unfold uct_ib_md_umr_id
  cases hcfg : cfg.HAVE_EXP_UMR with
  | false => simp
  | true =>
    cases hqp : md.umr_qp with
    | none => simp
    | some qp =>
      cases hcq : md.umr_cq with
      | none => simp
      | some cq =>
        exfalso
        exact h ⟨hcfg, by simp [hqp], by simp [hcq]⟩

/-- Claim C18, as stated, fails: the processes 1000 and 1256 have different
process identifiers and active engines, and `uct_ib_md_umr_id` answers 232
in both; the work requests that `uct_ib_md_create_umr` posts for the same
direct key carry the same base address in the two processes. -/
theorem umr_id_collision_counterexample :
    (hwPid 1000).getpid ≠ (hwPid 1256).getpid ∧
    engine_active cfgFull mdActive ∧
    uct_ib_md_umr_id cfgFull (hwPid 1000) mdActive = 232 ∧
    uct_ib_md_umr_id cfgFull (hwPid 1256) mdActive = 232 ∧
    uct_ib_md_create_umr 1 cfgFull verbsConsts (hwPid 1000) mdActive mr0 [] =
      uct_ib_md_create_umr 1 cfgFull verbsConsts (hwPid 1256) mdActive mr0 [] :=
  ⟨by decide, ⟨rfl, by decide, by decide⟩, by decide, by decide, by decide⟩

/-- Claim C18, amended: `uct_ib_md_umr_id` answers the process identifier
modulo 256 when the engine is active and 0 when it is not; the answer is
below 256; two processes with active engines get the same answer exactly when
their process identifiers are congruent modulo 256, hence different answers
when the identifiers differ by less than 256. -/
theorem uct_ib_md_umr_id_spec (cfg : BuildConfig) (hw1 hw2 : Extern)
    (md1 md2 : uct_ib_md_t) :
    uct_ib_md_umr_id cfg hw1 md1 < 256 ∧
    (¬ engine_active cfg md1 → uct_ib_md_umr_id cfg hw1 md1 = 0) ∧
    (engine_active cfg md1 → uct_ib_md_umr_id cfg hw1 md1 = hw1.getpid % 256) ∧
    (engine_active cfg md1 → engine_active cfg md2 →
      (uct_ib_md_umr_id cfg hw1 md1 = uct_ib_md_umr_id cfg hw2 md2 ↔
        hw1.getpid % 256 = hw2.getpid % 256)) ∧
    (engine_active cfg md1 → engine_active cfg md2 →
      hw1.getpid < hw2.getpid → hw2.getpid - hw1.getpid < 256 →
      uct_ib_md_umr_id cfg hw1 md1 ≠ uct_ib_md_umr_id cfg hw2 md2) := by
  refine ⟨?_, umr_id_inactive cfg hw1 md1, umr_id_active cfg hw1 md1, ?_, ?_⟩
  · by_cases h : engine_active cfg md1
    · rw [umr_id_active cfg hw1 md1 h]
      exact Nat.mod_lt _ (by decide)
    · rw [umr_id_inactive cfg hw1 md1 h]
      decide
  · intro h1 h2
    rw [umr_id_active cfg hw1 md1 h1, umr_id_active cfg hw2 md2 h2]
  · intro h1 h2 hlt hd
    rw [umr_id_active cfg hw1 md1 h1, umr_id_active cfg hw2 md2 h2]
    omega

/-- Claim C18, amended, in the processes 1000 and 1001: the answers are 232
and 233. -/
theorem uct_ib_md_umr_id_spec_witness :
    uct_ib_md_umr_id cfgFull (hwPid 1000) mdActive = 232 ∧
    uct_ib_md_umr_id cfgFull (hwPid 1001) mdActive = 233 ∧
    uct_ib_md_umr_id cfgFull (hwPid 1000) mdActive ≠
      uct_ib_md_umr_id cfgFull (hwPid 1001) mdActive :=
  ⟨by decide, by decide,
   (uct_ib_md_umr_id_spec cfgFull (hwPid 1000) (hwPid 1001) mdActive mdActive).2.2.2.2
     ⟨rfl, by decide, by decide⟩ ⟨rfl, by decide, by decide⟩ (by decide) (by decide)⟩

/-! ## Registration cost reported by the query -/

/-- Claim C19, as stated, fails: with the default configuration (cache `try`,
registration cost 16us + 0.06ns per byte, cache overhead 90ns) and a cache
that can be created, the open succeeds and `uct_ib_md_query` reports the
cost 90ns + 0 per byte, not the configured registration cost. -/
theorem query_reg_cost_counterexample :
    (uct_ib_md_open cfgFull verbsConsts mdConsts envOk md_name_mlx5 config_default
        0 []).status = UCS_OK ∧
    ((uct_ib_md_open cfgFull verbsConsts mdConsts envOk md_name_mlx5 config_default
        0 []).md_p.map fun x => (uct_ib_md_query mdConsts x.2).2.reg_cost) =
      some { overhead := 90000, growth := 0 } ∧
    config_default.uc_reg_cost = { overhead := 16000000, growth := 60 } ∧
    ((uct_ib_md_open cfgFull verbsConsts mdConsts envOk md_name_mlx5 config_default
        0 []).md_p.map fun x => (uct_ib_md_query mdConsts x.2).2.reg_cost) ≠
      some config_default.uc_reg_cost :=
  ⟨by decide, by decide, rfl, by decide⟩

theorem cache_created_iff (news : List OpenCall) :
    news.any is_cache_created = true ↔
      ∃ p rc, OpenCall.ucs_rcache_create p UCS_OK rc ∈ news := by
  rw [List.any_eq_true]
  constructor
  · rintro ⟨e, he, hc⟩
    cases e with
    | ucs_rcache_create p st rc =>
      cases st <;> simp [is_cache_created] at hc
      exact ⟨p, rc, he⟩
    | _ => simp [is_cache_created] at hc
  · rintro ⟨p, rc, hm⟩
    exact ⟨_, hm, rfl⟩

/-- Claim C19, amended: `uct_ib_md_query` returns `UCS_OK` and reports the
cost stored in the domain unchanged; after a successful open this is the
configured registration cost exactly when no cache was created (cache
setting `no`, or `try` with a failed creation); when the cache was created
it is the configured cache overhead with growth 0. -/
theorem uct_ib_md_query_reg_cost (cfg : BuildConfig) (c : Consts) (k : MdConsts)
    (env : OpenEnv) (md_name : List Char) (md_config : uct_ib_md_config_t) (enabled : Nat)
    (log : List OpenCall)
    (hok : (uct_ib_md_open cfg c k env md_name md_config enabled log).status = UCS_OK) :
    ∃ ptr md, (uct_ib_md_open cfg c k env md_name md_config enabled log).md_p =
        some (ptr, md) ∧
      (uct_ib_md_query k md).1 = UCS_OK ∧
      (uct_ib_md_query k md).2.reg_cost = md.reg_cost ∧
      (((uct_ib_md_open cfg c k env md_name md_config enabled log).log.drop
          log.length).any is_cache_created = true →
        (uct_ib_md_query k md).2.reg_cost =
          { overhead := md_config.rcache_overhead, growth := 0 }) ∧
      (((uct_ib_md_open cfg c k env md_name md_config enabled log).log.drop
          log.length).any is_cache_created = false →
        (uct_ib_md_query k md).2.reg_cost = md_config.uc_reg_cost) ∧
      (md_config.rcache_enable = UCS_NO →
        (uct_ib_md_query k md).2.reg_cost = md_config.uc_reg_cost) := by
  obtain ⟨news, hlog, hcase⟩ := md_open_trace cfg c k env md_name md_config enabled log
  rw [hlog, drop_append_self]
  rcases hcase with ⟨hst, _, _⟩ | ⟨_, ptr, md, hmd, hs⟩
  · exact absurd hok hst
  refine ⟨ptr, md, hmd, rfl, rfl, ?_⟩
  have hq : (uct_ib_md_query k md).2.reg_cost = md.reg_cost := rfl
  rw [hq]
  rcases open_success_cache cfg k env log md_name md_config enabled news ptr md _ hs with
    ⟨hno, _, _, hcost, hmem⟩ | ⟨hne, rc0, _, _, hcost, hmem⟩ |
      ⟨htry, st0, rc0, hst0, _, _, hcost, hmem⟩
  · refine ⟨fun hany => ?_, fun _ => hcost, fun _ => hcost⟩
    obtain ⟨p, rc, hm⟩ := (cache_created_iff news).mp hany
    exact absurd hm (hmem p UCS_OK rc)
  · refine ⟨fun _ => hcost, fun hnot => ?_, fun hno => absurd hno hne⟩
    have hany := (cache_created_iff news).mpr ⟨_, rc0, (hmem _ UCS_OK rc0).mpr ⟨rfl, rfl, rfl⟩⟩
    rw [hnot] at hany
    cases hany
  · refine ⟨fun hany => ?_, fun _ => hcost, fun _ => hcost⟩
    obtain ⟨p, rc, hm⟩ := (cache_created_iff news).mp hany
    exact absurd ((hmem p UCS_OK rc).mp hm).2.1.symm hst0

/-- Claim C19, amended, in an environment where the cache cannot be created:
the query reports the configured registration cost. -/
theorem uct_ib_md_query_reg_cost_witness :
    (uct_ib_md_open cfgFull verbsConsts mdConsts envNoRcache md_name_mlx5 config_default
        0 []).status = UCS_OK ∧
    ∃ ptr md, (uct_ib_md_open cfgFull verbsConsts mdConsts envNoRcache md_name_mlx5
        config_default 0 []).md_p = some (ptr, md) ∧
      (uct_ib_md_query mdConsts md).2.reg_cost = { overhead := 16000000, growth := 60 } :=
  ⟨by decide,
   (uct_ib_md_query_reg_cost cfgFull verbsConsts mdConsts envNoRcache md_name_mlx5
      config_default 0 [] (by decide)).imp fun _ h => h.imp fun _ h =>
        ⟨h.1, h.2.2.2.2.1 (by decide)⟩⟩

/-! ## Choice of the device -/

theorem fork_step_calls (md_config : uct_ib_md_config_t) (enabled : Nat)
    (fevs : List OpenCall) (en : Nat) (h : fork_step md_config enabled fevs en) :
    ∀ e ∈ fevs, is_fork_call e = true := by
  rcases h with ⟨_, rfl, _⟩ | ⟨_, rfl, _⟩ | ⟨_, _, _, ret, _, rfl⟩ |
    ⟨_, _, _, ret, a, _, rfl⟩ <;> simp [is_fork_call]

theorem open_failure_device (k : MdConsts) (env : OpenEnv) (log : List OpenCall)
    (md_name : List Char) (md_config : uct_ib_md_config_t) (enabled : Nat)
    (news : List OpenCall) (status : ucs_status_t) (en : Nat)
    (h : open_failure k env log md_name md_config enabled news status en) :
    ((env.ibv_get_device_list log = none ∨
        ∃ l, env.ibv_get_device_list log = some l ∧
          l.find? (fun d => decide (uct_ib_make_md_name k d = md_name)) = none) →
      status = UCS_ERR_NO_DEVICE ∧ ∀ e ∈ news, is_device_list_call e = true) ∧
    ((∀ e ∈ news, answers_no_device e = false) → status = UCS_ERR_NO_DEVICE →
      env.ibv_get_device_list log = none ∨
        ∃ l, env.ibv_get_device_list log = some l ∧
          l.find? (fun d => decide (uct_ib_make_md_name k d = md_name)) = none) ∧
    (∀ d st dev, OpenCall.uct_ib_device_init d st dev ∈ news →
      ∃ l, env.ibv_get_device_list log = some l ∧
        l.find? (fun d => decide (uct_ib_make_md_name k d = md_name)) = some d) ∧
    (OpenCall.ucs_malloc none ∈ news → status = UCS_ERR_NO_MEMORY) ∧
    (∀ ctx, OpenCall.ibv_alloc_pd ctx none ∈ news → status = UCS_ERR_NO_MEMORY) := by
  rcases h with ⟨hl, rfl, rfl, _⟩ | ⟨l, hl, hf, rfl, rfl, _⟩ | ⟨l, d, hl, hf, hrest⟩
  · refine ⟨fun _ => ⟨rfl, by simp [is_device_list_call]⟩, fun _ _ => Or.inl hl,
      fun d st dev hm => by simp at hm, fun hm => by simp at hm,
      fun ctx hm => by simp at hm⟩
  · refine ⟨fun _ => ⟨rfl, by simp [is_device_list_call]⟩,
      fun _ _ => Or.inr ⟨l, hl, hf⟩,
      fun d st dev hm => by simp at hm, fun hm => by simp at hm,
      fun ctx hm => by simp at hm⟩
  · have hmatch : ¬ (env.ibv_get_device_list log = none ∨
        ∃ l, env.ibv_get_device_list log = some l ∧
          l.find? (fun d => decide (uct_ib_make_md_name k d = md_name)) = none) := by
      rintro (h0 | ⟨l2, h1, h2⟩)
      · rw [hl] at h0
        cases h0
      · rw [hl] at h1
        cases h1
        rw [hf] at h2
        cases h2
    refine ⟨fun h0 => absurd h0 hmatch, ?_⟩
    rcases hrest with ⟨rfl, rfl, _⟩ | ⟨ptr, s, hst, _, rfl⟩ |
      ⟨ptr, s, ret, _, _, rfl, _, rfl⟩ | ⟨ptr, s, fevs, hfork, hrest⟩
    · exact ⟨fun _ h0 => (by cases h0), fun d st dev hm => by simp at hm, fun _ => rfl,
        fun ctx hm => by simp at hm⟩
    · refine ⟨fun hall h0 => ?_, fun d st dev hm => by simp at hm, fun hm => by simp at hm,
        fun ctx hm => by simp at hm⟩
      have := hall (OpenCall.stats_node_alloc status s) (by simp)
      simp [answers_no_device, h0] at this
    · exact ⟨fun _ h0 => (by cases h0), fun d st dev hm => by simp at hm,
        fun hm => by simp at hm, fun ctx hm => by simp at hm⟩
    · have hfc := fork_step_calls md_config enabled fevs en hfork
      have hdevf : ∀ d st dev, OpenCall.uct_ib_device_init d st dev ∉ fevs :=
        fun d st dev hm => by
          have := hfc _ hm
          simp [is_fork_call] at this
      have hmf : OpenCall.ucs_malloc none ∉ fevs := fun hm => by
        have := hfc _ hm
        simp [is_fork_call] at this
      have hpf : ∀ ctx, OpenCall.ibv_alloc_pd ctx none ∉ fevs := fun ctx hm => by
        have := hfc _ hm
        simp [is_fork_call] at this
      rcases hrest with ⟨dev, hst, rfl⟩ | ⟨dev, rfl, rfl⟩ | ⟨dev, pd, rc, _, hst, rfl⟩
      · refine ⟨fun hall h0 => ?_, fun d2 st dev2 hm => ?_, fun hm => ?_, fun ctx hm => ?_⟩
        · have := hall (OpenCall.uct_ib_device_init d status dev) (by simp)
          simp [answers_no_device, h0] at this
        · simp [hdevf] at hm
          rw [hm.1]
          exact ⟨l, hl, hf⟩
        · simp [hmf] at hm
        · simp [hpf] at hm
      · refine ⟨fun _ h0 => (by cases h0), fun d2 st dev2 hm => ?_, fun _ => rfl,
          fun _ _ => rfl⟩
        simp [hdevf] at hm
        rw [hm.1]
        exact ⟨l, hl, hf⟩
      · refine ⟨fun hall h0 => ?_, fun d2 st dev2 hm => ?_, fun hm => ?_, fun ctx hm => ?_⟩
        · have := hall (OpenCall.ucs_rcache_create
            { ucm_event_priority := md_config.rcache_event_prio, context := ptr }
            status rc) (by simp)
          simp [answers_no_device, h0] at this
        · simp [hdevf] at hm
          rw [hm.1]
          exact ⟨l, hl, hf⟩
        · simp [hmf] at hm
        · simp [hpf] at hm

theorem open_success_device (cfg : BuildConfig) (k : MdConsts) (env : OpenEnv)
    (log : List OpenCall) (md_name : List Char) (md_config : uct_ib_md_config_t)
    (enabled : Nat) (news : List OpenCall) (ptr : Nat) (md3 : uct_ib_md_t) (en : Nat)
    (h : open_success cfg k env log md_name md_config enabled news ptr md3 en) :
    (∃ l d, env.ibv_get_device_list log = some l ∧
      l.find? (fun d => decide (uct_ib_make_md_name k d = md_name)) = some d ∧
      ∀ d2 st dev, OpenCall.uct_ib_device_init d2 st dev ∈ news → d2 = d) ∧
    OpenCall.ucs_malloc none ∉ news ∧
    (∀ ctx, OpenCall.ibv_alloc_pd ctx none ∉ news) := by
  obtain ⟨l, d, s, fevs, dev, pd, rcevs, md2, evs, hl, hf, hfork, hrc, hstep, rfl⟩ := h
  have hfc := fork_step_calls md_config enabled fevs en hfork
  have hnf : ∀ e, is_fork_call e = false → e ∉ fevs := fun e he hm => by
    rw [hfc e hm] at he
    cases he
  have hne : ∀ e, is_umr_setup_call e = false → e ∉ evs :=
    fun e he => not_mem_umr_evs cfg k md2 evs md3 hstep e he
  have hnr : ∀ e, (∀ p st rc, e ≠ OpenCall.ucs_rcache_create p st rc) → e ∉ rcevs := by
    intro e he hm
    rcases hrc with ⟨_, rfl, _⟩ | ⟨_, rc0, rfl, _⟩ | ⟨_, st0, rc0, _, rfl, _⟩
    · simp at hm
    · simp only [List.mem_singleton] at hm
      exact he _ _ _ hm
    · simp only [List.mem_singleton] at hm
      exact he _ _ _ hm
  refine ⟨⟨l, d, hl, hf, fun d2 st dev2 hm => ?_⟩, ?_, fun ctx hm => ?_⟩
  · simp [hnf _ (rfl : is_fork_call (OpenCall.uct_ib_device_init d2 st dev2) = false),
      hne _ (rfl : is_umr_setup_call (OpenCall.uct_ib_device_init d2 st dev2) = false),
      hnr (OpenCall.uct_ib_device_init d2 st dev2) (fun p st rc => by simp)] at hm
    exact hm.1
  · intro hm
    simp [hnf _ (rfl : is_fork_call (OpenCall.ucs_malloc none) = false),
      hne _ (rfl : is_umr_setup_call (OpenCall.ucs_malloc none) = false),
      hnr (OpenCall.ucs_malloc none) (fun p st rc => by simp)] at hm
  · simp [hnf _ (rfl : is_fork_call (OpenCall.ibv_alloc_pd ctx none) = false),
      hne _ (rfl : is_umr_setup_call (OpenCall.ibv_alloc_pd ctx none) = false),
      hnr (OpenCall.ibv_alloc_pd ctx none) (fun p st rc => by simp)] at hm

theorem find_first {α : Type} (p : α → Bool) (l : List α) (d : α) (h : l.find? p = some d) :
    p d = true ∧ ∃ as bs, l = as ++ d :: bs ∧ ∀ a ∈ as, p a = false := by
  rw [List.find?_eq_some] at h
  obtain ⟨h1, as, bs, h2, h3⟩ := h
  exact ⟨h1, as, bs, h2, fun a ha => by simpa using h3 a ha⟩

/-- Claim C20: `uct_ib_md_open` returns `UCS_ERR_NO_DEVICE` when the device
list cannot be obtained or no device of the list has the name built by
`uct_ib_make_md_name` (`ib/<device name>`, cut to `UCT_MD_NAME_MAX - 1`
characters) equal to the requested name, and then it stores nothing and
calls nothing but `ibv_get_device_list` and `ibv_free_device_list`;
conversely, when no call to code outside the file answered
`UCS_ERR_NO_DEVICE` itself, the open returns `UCS_ERR_NO_DEVICE` only in
these two cases.  The device initialised is the first of the list with the
requested name.  A failed `ucs_malloc` of the domain object and a failed
`ibv_alloc_pd` make the open return `UCS_ERR_NO_MEMORY`. -/
theorem uct_ib_md_open_device_choice (cfg : BuildConfig) (c : Consts) (k : MdConsts)
    (env : OpenEnv) (md_name : List Char) (md_config : uct_ib_md_config_t) (enabled : Nat)
    (log : List OpenCall) :
    (∀ device, uct_ib_make_md_name k device =
      (['i', 'b', '/'] ++ device.name).take (k.UCT_MD_NAME_MAX - 1)) ∧
    ((env.ibv_get_device_list log = none ∨
        ∃ l, env.ibv_get_device_list log = some l ∧
          ∀ d ∈ l, uct_ib_make_md_name k d ≠ md_name) →
      (uct_ib_md_open cfg c k env md_name md_config enabled log).status =
        UCS_ERR_NO_DEVICE ∧
      (uct_ib_md_open cfg c k env md_name md_config enabled log).md_p = none ∧
      ∀ e ∈ (uct_ib_md_open cfg c k env md_name md_config enabled log).log.drop log.length,
        is_device_list_call e = true) ∧
    ((∀ e ∈ (uct_ib_md_open cfg c k env md_name md_config enabled log).log.drop log.length,
        answers_no_device e = false) →
      (uct_ib_md_open cfg c k env md_name md_config enabled log).status =
        UCS_ERR_NO_DEVICE →
      env.ibv_get_device_list log = none ∨
        ∃ l, env.ibv_get_device_list log = some l ∧
          ∀ d ∈ l, uct_ib_make_md_name k d ≠ md_name) ∧
    (∀ d st dev, OpenCall.uct_ib_device_init d st dev ∈
        (uct_ib_md_open cfg c k env md_name md_config enabled log).log.drop log.length →
      ∃ as bs, env.ibv_get_device_list log = some (as ++ d :: bs) ∧
        uct_ib_make_md_name k d = md_name ∧
        ∀ a ∈ as, uct_ib_make_md_name k a ≠ md_name) ∧
    (OpenCall.ucs_malloc none ∈
        (uct_ib_md_open cfg c k env md_name md_config enabled log).log.drop log.length →
      (uct_ib_md_open cfg c k env md_name md_config enabled log).status =
        UCS_ERR_NO_MEMORY) ∧
    (∀ ctx, OpenCall.ibv_alloc_pd ctx none ∈
        (uct_ib_md_open cfg c k env md_name md_config enabled log).log.drop log.length →
      (uct_ib_md_open cfg c k env md_name md_config enabled log).status =
        UCS_ERR_NO_MEMORY) := by
  have hnone : ∀ l : List ibv_device,
      l.find? (fun d => decide (uct_ib_make_md_name k d = md_name)) = none ↔
        ∀ d ∈ l, uct_ib_make_md_name k d ≠ md_name := by
    intro l
    simp [List.find?_eq_none]
  have hiff : (env.ibv_get_device_list log = none ∨
        ∃ l, env.ibv_get_device_list log = some l ∧
          ∀ d ∈ l, uct_ib_make_md_name k d ≠ md_name) ↔
      (env.ibv_get_device_list log = none ∨
        ∃ l, env.ibv_get_device_list log = some l ∧
          l.find? (fun d => decide (uct_ib_make_md_name k d = md_name)) = none) := by
    constructor
    · rintro (h | ⟨l, h1, h2⟩)
      · exact Or.inl h
      · exact Or.inr ⟨l, h1, (hnone l).mpr h2⟩
    · rintro (h | ⟨l, h1, h2⟩)
      · exact Or.inl h
      · exact Or.inr ⟨l, h1, (hnone l).mp h2⟩
  have hfirst : ∀ d, (∃ l, env.ibv_get_device_list log = some l ∧
        l.find? (fun d => decide (uct_ib_make_md_name k d = md_name)) = some d) →
      ∃ as bs, env.ibv_get_device_list log = some (as ++ d :: bs) ∧
        uct_ib_make_md_name k d = md_name ∧
        ∀ a ∈ as, uct_ib_make_md_name k a ≠ md_name := by
    rintro d ⟨l, hl, hf⟩
    obtain ⟨h1, as, bs, h2, h3⟩ := find_first _ l d hf
    refine ⟨as, bs, by rw [hl, h2], by simpa using h1, fun a ha => ?_⟩
    simpa using h3 a ha
  refine ⟨fun device => rfl, ?_⟩
  rw [hiff]
  obtain ⟨news, hlog, hcase⟩ := md_open_trace cfg c k env md_name md_config enabled log
  rw [hlog, drop_append_self]
  rcases hcase with ⟨hst, hmd, hf⟩ | ⟨hst, ptr, md3, hmd, hs⟩
  · obtain ⟨h1, h2, h3, h4, h5⟩ :=
      open_failure_device k env log md_name md_config enabled news _ _ hf
    exact ⟨fun h => ⟨(h1 h).1, hmd, (h1 h).2⟩, h2, fun d st dev hm => hfirst d (h3 d st dev hm),
      h4, h5⟩
  · obtain ⟨⟨l, d, hl, hfind, hdev⟩, hm1, hm2⟩ :=
      open_success_device cfg k env log md_name md_config enabled news ptr md3 _ hs
    have hmatch : ¬ (env.ibv_get_device_list log = none ∨
        ∃ l, env.ibv_get_device_list log = some l ∧
          l.find? (fun d => decide (uct_ib_make_md_name k d = md_name)) = none) := by
      rintro (h0 | ⟨l2, h1, h2⟩)
      · rw [hl] at h0
        cases h0
      · rw [hl] at h1
        cases h1
        rw [hfind] at h2
        cases h2
    refine ⟨fun h => absurd h hmatch, fun _ h => ?_, fun d2 st dev hm => ?_,
      fun hm => absurd hm hm1, fun ctx hm => absurd hm (hm2 ctx)⟩
    · rw [hst] at h
      cases h
    · rw [hdev d2 st dev hm]
      exact hfirst d ⟨l, hl, hfind⟩

/-- Claim C20 at a name of no device, and in an environment where the
protection domain cannot be allocated. -/
theorem uct_ib_md_open_device_choice_witness :
    (uct_ib_md_open cfgFull verbsConsts mdConsts envOk md_name_none config_default
        0 []).status = UCS_ERR_NO_DEVICE ∧
    (uct_ib_md_open cfgFull verbsConsts mdConsts envOk md_name_none config_default
        0 []).log = [OpenCall.ibv_get_device_list (some [ibdev_mlx4, ibdev_mlx5]),
          OpenCall.ibv_free_device_list] ∧
    (uct_ib_md_open cfgFull verbsConsts mdConsts envNoPd md_name_mlx5 config_default
        0 []).status = UCS_ERR_NO_MEMORY :=
  ⟨((uct_ib_md_open_device_choice cfgFull verbsConsts mdConsts envOk md_name_none
      config_default 0 []).2.1
      (Or.inr ⟨[ibdev_mlx4, ibdev_mlx5], rfl, by decide⟩)).1,
   by decide,
   (uct_ib_md_open_device_choice cfgFull verbsConsts mdConsts envNoPd md_name_mlx5
      config_default 0 []).2.2.2.2.2 21 (by decide)⟩

/-! ## Prefetch -/

theorem umr_poll_prefetch_indep (c : Consts) (hw : Extern)
    (f : List HwCall → ibv_mr → ibv_exp_prefetch_attr → Int) (cq : Nat) (fuel : Nat) :
    ∀ log, umr_poll c (with_prefetch_answer hw f) cq fuel log = umr_poll c hw cq fuel log := by
  induction fuel with
  | zero => intro log; rfl
  | succ n ih =>
    intro log
    simp only [umr_poll, ih]
    rfl

theorem reg_mr_prefetch_indep (cfg : BuildConfig) (c : Consts) (hw : Extern)
    (f : List HwCall → ibv_mr → ibv_exp_prefetch_attr → Int) (md : uct_ib_md_t)
    (address length exp_access : Nat) (log : List HwCall) :
    uct_ib_md_reg_mr cfg c (with_prefetch_answer hw f) md address length exp_access log =
      uct_ib_md_reg_mr cfg c hw md address length exp_access log := rfl

theorem create_umr_prefetch_indep (fuel : Nat) (cfg : BuildConfig) (c : Consts) (hw : Extern)
    (f : List HwCall → ibv_mr → ibv_exp_prefetch_attr → Int) (md : uct_ib_md_t)
    (mr : ibv_mr) (log : List HwCall) :
    uct_ib_md_create_umr fuel cfg c (with_prefetch_answer hw f) md mr log =
      uct_ib_md_create_umr fuel cfg c hw md mr log := by
  simp only [uct_ib_md_create_umr, umr_poll_prefetch_indep]
  rfl

theorem prefetch_cases (cfg : BuildConfig) (c : Consts) (hw : Extern) (md : uct_ib_md_t)
    (memh : uct_ib_mem_t) (mr : ibv_mr) (flags : Nat) (log : List HwCall)
    (h : memh.mr = some mr) :
    (cfg.HAVE_DECL_IBV_EXP_PREFETCH_MR = true ∧ has_flag flags c.IBV_EXP_ACCESS_ON_DEMAND ∧
      md.prefetch_mr = true ∧
      uct_ib_mem_prefetch cfg c hw md memh flags log =
        some (if hw.ibv_exp_prefetch_mr log mr (prefetch_attr c mr) ≠ 0
            then UCS_ERR_IO_ERROR else UCS_OK,
          log ++ [HwCall.ibv_exp_prefetch_mr mr (prefetch_attr c mr)])) ∨
    (¬ (cfg.HAVE_DECL_IBV_EXP_PREFETCH_MR = true ∧
        has_flag flags c.IBV_EXP_ACCESS_ON_DEMAND ∧ md.prefetch_mr = true) ∧
      uct_ib_mem_prefetch cfg c hw md memh flags log = some (UCS_OK, log)) := by
  unfold uct_ib_mem_prefetch has_flag
  by_cases hcfg : cfg.HAVE_DECL_IBV_EXP_PREFETCH_MR = true
  · by_cases hodp : flags &&& c.IBV_EXP_ACCESS_ON_DEMAND = 0
    · right
      simp [hcfg, hodp]
    · by_cases hp : md.prefetch_mr = true
      · left
        refine ⟨hcfg, hodp, hp, ?_⟩
        simp only [hcfg, if_true, h, hp, Bool.and_true, bne_iff_ne, ne_eq, hodp,
          not_false_eq_true, prefetch_attr]
        split <;> rfl
      · right
        simp [hcfg, hp]
  · right
    simp [hcfg]

theorem prefetch_log_indep (cfg : BuildConfig) (c : Consts) (hw : Extern)
    (f : List HwCall → ibv_mr → ibv_exp_prefetch_attr → Int) (md : uct_ib_md_t)
    (memh : uct_ib_mem_t) (mr : ibv_mr) (flags : Nat) (log : List HwCall)
    (h : memh.mr = some mr) :
    ∃ s1 s2 l, uct_ib_mem_prefetch cfg c (with_prefetch_answer hw f) md memh flags log =
        some (s1, l) ∧
      uct_ib_mem_prefetch cfg c hw md memh flags log = some (s2, l) := by
  rcases prefetch_cases cfg c hw md memh mr flags log h with ⟨h1, h2, h3, h4⟩ | ⟨h1, h4⟩
  · rcases prefetch_cases cfg c (with_prefetch_answer hw f) md memh mr flags log h with
      ⟨_, _, _, h5⟩ | ⟨h5, _⟩
    · exact ⟨_, _, _, h5, h4⟩
    · exact absurd ⟨h1, h2, h3⟩ h5
  · rcases prefetch_cases cfg c (with_prefetch_answer hw f) md memh mr flags log h with
      ⟨h5, h6, h7, _⟩ | ⟨_, h5⟩
    · exact absurd ⟨h5, h6, h7⟩ h1
    · exact ⟨_, _, _, h5, h4⟩

theorem reg_internal_prefetch_indep (fuel : Nat) (cfg : BuildConfig) (c : Consts)
    (hw : Extern) (f : List HwCall → ibv_mr → ibv_exp_prefetch_attr → Int)
    (md : uct_ib_md_t) (address length flags : Nat) (memh : uct_ib_mem_t)
    (log : List HwCall) :
    uct_ib_mem_reg_internal fuel cfg c (with_prefetch_answer hw f) md address length flags
        memh log =
      uct_ib_mem_reg_internal fuel cfg c hw md address length flags memh log := by
  unfold uct_ib_mem_reg_internal
  simp only [reg_mr_prefetch_indep, create_umr_prefetch_indep]
  by_cases hst : (uct_ib_md_reg_mr cfg c hw md address length
      (uct_ib_md_access_flags c md flags length) log).status = UCS_OK
  · obtain ⟨mr, hmr⟩ := reg_mr_ok_stores cfg c hw md address length _ log hst
    simp only [hst, hmr, ne_eq, not_true_eq_false, if_false]
    cases hcu : uct_ib_md_create_umr fuel cfg c hw md mr
        (uct_ib_md_reg_mr cfg c hw md address length
          (uct_ib_md_access_flags c md flags length) log).log with
    | none => rfl
    | some p =>
      obtain ⟨umr, log2⟩ := p
      simp only
      by_cases hfail : (cfg.HAVE_EXP_UMR && (umr.isNone && md.umr_qp.isSome)) = true
      · simp only [hfail, if_true]
      · simp only [hfail, if_false]
        obtain ⟨s1, s2, l, h1, h2⟩ := prefetch_log_indep cfg c hw f md
          { lkey := mr.lkey, mr := some mr, umr := umr } mr
          (uct_ib_md_access_flags c md flags length) log2 rfl
        rw [h1, h2]
  · simp only [hst, ne_eq, not_false_eq_true, if_true]

theorem mem_alloc_prefetch_indep (fuel : Nat) (cfg : BuildConfig) (c : Consts)
    (hw : Extern) (f : List HwCall → ibv_mr → ibv_exp_prefetch_attr → Int)
    (md : uct_ib_md_t) (length flags : Nat) (log : List HwCall) :
    uct_ib_mem_alloc fuel cfg c (with_prefetch_answer hw f) md length flags log =
      uct_ib_mem_alloc fuel cfg c hw md length flags log := by
  unfold uct_ib_mem_alloc uct_ib_memh_alloc
  simp only [reg_mr_prefetch_indep, create_umr_prefetch_indep]
  have hc : (with_prefetch_answer hw f).ucs_calloc = hw.ucs_calloc := rfl
  have ha : (with_prefetch_answer hw f).ucs_memtrack_adjust_alloc_size =
      hw.ucs_memtrack_adjust_alloc_size := rfl
  have hb : (with_prefetch_answer hw f).ucs_memtrack_allocated =
      hw.ucs_memtrack_allocated := rfl
  rw [hc, ha, hb]
  by_cases hcfg : cfg.HAVE_DECL_IBV_EXP_ACCESS_ALLOCATE_MR = true
  · simp only [hcfg, if_true]
    cases hp : hw.ucs_calloc log with
    | none => rfl
    | some ptr =>
      simp only
      by_cases hst : (uct_ib_md_reg_mr cfg c hw md 0 (hw.ucs_memtrack_adjust_alloc_size length)
          (uct_ib_md_access_flags c md flags (hw.ucs_memtrack_adjust_alloc_size length) |||
            c.IBV_EXP_ACCESS_ALLOCATE_MR)
          (log ++ [HwCall.ucs_calloc])).status = UCS_OK
      · obtain ⟨mr, hmr⟩ := reg_mr_ok_stores cfg c hw md 0 _ _ _ hst
        simp only [hst, hmr, ne_eq, not_true_eq_false, if_false, memh_zero]
        cases hcu : uct_ib_md_create_umr fuel cfg c hw md mr
            (uct_ib_md_reg_mr cfg c hw md 0 (hw.ucs_memtrack_adjust_alloc_size length)
              (uct_ib_md_access_flags c md flags
                (hw.ucs_memtrack_adjust_alloc_size length) |||
                c.IBV_EXP_ACCESS_ALLOCATE_MR)
              (log ++ [HwCall.ucs_calloc])).log with
        | none => rfl
        | some p =>
          obtain ⟨umr, log2⟩ := p
          simp only
          by_cases hfail : (cfg.HAVE_EXP_UMR && (umr.isNone && md.umr_qp.isSome)) = true
          · simp only [hfail, if_true]
          · simp only [hfail, if_false]
            obtain ⟨s1, s2, l, h1, h2⟩ := prefetch_log_indep cfg c hw f md
              { lkey := mr.lkey, mr := some mr, umr := umr } mr
              (uct_ib_md_access_flags c md flags
                (hw.ucs_memtrack_adjust_alloc_size length) |||
                c.IBV_EXP_ACCESS_ALLOCATE_MR) log2 rfl
            rw [h1, h2]
      · simp only [hst, ne_eq, not_false_eq_true, if_true]
  · simp [hcfg]

/-- Claim C23, as stated, fails in a build without `ibv_exp_prefetch_mr`: the
access flags contain the on-demand bit and `prefetch_mr` is set, and
`uct_ib_mem_prefetch` returns `UCS_OK` without any call; a non-blocking
registration of 4096 bytes registers with the on-demand bit and issues no
prefetch. -/
theorem prefetch_not_compiled_counterexample :
    has_flag (2 ^ 46) verbsConsts.IBV_EXP_ACCESS_ON_DEMAND ∧
    mdInactive.prefetch_mr = true ∧
    uct_ib_mem_prefetch cfgNoPrefetch verbsConsts hwOk mdInactive memh_direct (2 ^ 46) [] =
      some (UCS_OK, []) ∧
    uct_ib_md_access_flags verbsConsts mdInactive 1 4096 = 2 ^ 46 ∧
    ((uct_ib_mem_reg_internal 1 cfgNoPrefetch verbsConsts hwOk mdInactive 4096 4096 1
        memh_zero []).map fun r => (r.status, r.log)) =
      some (UCS_OK, [HwCall.ibv_exp_reg_mr 7 4096 4096 (15 ||| 2 ^ 46)]) :=
  ⟨by decide, rfl, by decide, by decide, by decide⟩

/-- Claim C23, amended: in a build with `ibv_exp_prefetch_mr`,
`uct_ib_mem_prefetch` calls it, once, on the direct key with the key's
address and length and write access, exactly when the access flags contain
the on-demand bit and `prefetch_mr` is set; it returns `UCS_ERR_IO_ERROR`
when the call answers non-zero and `UCS_OK` otherwise.  In a build without
it, `uct_ib_mem_prefetch` returns `UCS_OK` without any call.  The results of
`uct_ib_mem_reg_internal` and `uct_ib_mem_alloc` (status, handle, values
stored, calls) do not depend on the answers of `ibv_exp_prefetch_mr`. -/
theorem uct_ib_mem_prefetch_spec (cfg : BuildConfig) (c : Consts) (hw : Extern)
    (md : uct_ib_md_t) :
    (∀ memh mr flags log, memh.mr = some mr →
      cfg.HAVE_DECL_IBV_EXP_PREFETCH_MR = true →
      (has_flag flags c.IBV_EXP_ACCESS_ON_DEMAND ∧ md.prefetch_mr = true →
        uct_ib_mem_prefetch cfg c hw md memh flags log =
          some (if hw.ibv_exp_prefetch_mr log mr
              { flags := c.IBV_EXP_PREFETCH_WRITE_ACCESS, addr := mr.addr,
                length := mr.length, comp_mask := 0 } ≠ 0
              then UCS_ERR_IO_ERROR else UCS_OK,
            log ++ [HwCall.ibv_exp_prefetch_mr mr
              { flags := c.IBV_EXP_PREFETCH_WRITE_ACCESS, addr := mr.addr,
                length := mr.length, comp_mask := 0 }])) ∧
      (¬ (has_flag flags c.IBV_EXP_ACCESS_ON_DEMAND ∧ md.prefetch_mr = true) →
        uct_ib_mem_prefetch cfg c hw md memh flags log = some (UCS_OK, log))) ∧
    (∀ memh flags log, cfg.HAVE_DECL_IBV_EXP_PREFETCH_MR = false →
      uct_ib_mem_prefetch cfg c hw md memh flags log = some (UCS_OK, log)) ∧
    (∀ f fuel address length flags memh log,
      uct_ib_mem_reg_internal fuel cfg c (with_prefetch_answer hw f) md address length flags
          memh log =
        uct_ib_mem_reg_internal fuel cfg c hw md address length flags memh log) ∧
    (∀ f fuel length flags log,
      uct_ib_mem_alloc fuel cfg c (with_prefetch_answer hw f) md length flags log =
        uct_ib_mem_alloc fuel cfg c hw md length flags log) := by
  refine ⟨fun memh mr flags log hmr hcfg => ⟨fun hyes => ?_, fun hno => ?_⟩,
    fun memh flags log hcfg => ?_,
    fun f fuel address length flags memh log =>
      reg_internal_prefetch_indep fuel cfg c hw f md address length flags memh log,
    fun f fuel length flags log => mem_alloc_prefetch_indep fuel cfg c hw f md length flags log⟩
  · rcases prefetch_cases cfg c hw md memh mr flags log hmr with ⟨_, _, _, h⟩ | ⟨h, _⟩
    · exact h
    · exact absurd ⟨hcfg, hyes.1, hyes.2⟩ h
  · rcases prefetch_cases cfg c hw md memh mr flags log hmr with ⟨_, h1, h2, _⟩ | ⟨_, h⟩
    · exact absurd ⟨h1, h2⟩ hno
    · exact h
  · simp [uct_ib_mem_prefetch, hcfg]

/-- Claim C23, amended, in an environment where every prefetch fails: a
non-blocking registration of 4096 bytes issues the prefetch and returns
`UCS_OK` with the same handle as in `hwOk`. -/
theorem uct_ib_mem_prefetch_spec_witness :
    uct_ib_mem_prefetch cfgFull verbsConsts hwPrefetchFail mdInactive memh_direct (2 ^ 46) [] =
      some (UCS_ERR_IO_ERROR, [HwCall.ibv_exp_prefetch_mr mr0
        { flags := 1, addr := 4096, length := 8192, comp_mask := 0 }]) ∧
    ((uct_ib_mem_reg_internal 1 cfgFull verbsConsts hwPrefetchFail mdInactive 4096 4096 1
        memh_zero []).map fun r => (r.status, r.memh)) =
      some (UCS_OK, { lkey := 17, mr := some mr0, umr := none }) ∧
    uct_ib_mem_reg_internal 1 cfgFull verbsConsts hwPrefetchFail mdInactive 4096 4096 1
        memh_zero [] =
      uct_ib_mem_reg_internal 1 cfgFull verbsConsts hwOk mdInactive 4096 4096 1 memh_zero [] :=
  ⟨by decide, by decide,
   (uct_ib_mem_prefetch_spec cfgFull verbsConsts hwOk mdInactive).2.2.1
      (fun _ _ _ => -1) 1 4096 4096 1 memh_zero []⟩

/-! ## State of the engine -/

theorem create_umr_not_active (fuel : Nat) (cfg : BuildConfig) (c : Consts) (hw : Extern)
    (md : uct_ib_md_t) (mr : ibv_mr) (log : List HwCall) (h : ¬ engine_active cfg md) :
    uct_ib_md_create_umr fuel cfg c hw md mr log = some (none, log) := by
  cases hcfg : cfg.HAVE_EXP_UMR with
  | false => simp [uct_ib_md_create_umr, hcfg]
  | true =>
    apply create_umr_inactive
    by_contra hne
    simp only [not_or] at hne
    exact h ⟨hcfg, hne.1, hne.2⟩

theorem reg_internal_ok_umr (fuel : Nat) (cfg : BuildConfig) (c : Consts) (hw : Extern)
    (md : uct_ib_md_t) (address length flags : Nat) (memh : uct_ib_mem_t)
    (log : List HwCall) (r : reg_internal_out)
    (h : uct_ib_mem_reg_internal fuel cfg c hw md address length flags memh log = some r)
    (hok : r.status = UCS_OK) :
    (r.memh.umr ≠ none ↔ engine_active cfg md) := by
  unfold uct_ib_mem_reg_internal at h
  simp only at h
  by_cases hst : (uct_ib_md_reg_mr cfg c hw md address length
      (uct_ib_md_access_flags c md flags length) log).status = UCS_OK
  · obtain ⟨mr, hmr⟩ := reg_mr_ok_stores cfg c hw md address length _ log hst
    simp only [hst, hmr, ne_eq, not_true_eq_false, if_false] at h
    cases hcu : uct_ib_md_create_umr fuel cfg c hw md mr
        (uct_ib_md_reg_mr cfg c hw md address length
          (uct_ib_md_access_flags c md flags length) log).log with
    | none => simp [hcu] at h
    | some p =>
      obtain ⟨umr, log2⟩ := p
      simp only [hcu] at h
      by_cases hfail : (cfg.HAVE_EXP_UMR && (umr.isNone && md.umr_qp.isSome)) = true
      · simp only [hfail, if_true, Option.some.injEq] at h
        rw [← h] at hok
        cases hok
      · simp only [hfail, if_false] at h
        obtain ⟨pr, hpr⟩ := prefetch_returns cfg c hw md
          { lkey := mr.lkey, mr := some mr, umr := umr } mr
          (uct_ib_md_access_flags c md flags length) log2 rfl
        rw [hpr] at h
        simp only [Bool.false_eq_true, if_false, Option.some.injEq] at h
        rw [← h]
        simp only
        by_cases hact : engine_active cfg md
        · simp only [hact, iff_true]
          intro hu
          apply hfail
          obtain ⟨hcfg, hqp, _⟩ := hact
          obtain ⟨qp, hqp⟩ := Option.ne_none_iff_exists'.mp hqp
          simp [hcfg, hu, hqp]
        · simp only [hact, iff_false, ne_eq, not_not]
          rw [create_umr_not_active fuel cfg c hw md mr _ hact] at hcu
          simp only [Option.some.injEq, Prod.mk.injEq] at hcu
          exact hcu.1.symm
  · simp only [hst, ne_eq, not_false_eq_true, if_true, Option.some.injEq] at h
    rw [← h] at hok
    exact absurd hok hst

theorem mem_alloc_ok_umr (fuel : Nat) (cfg : BuildConfig) (c : Consts) (hw : Extern)
    (md : uct_ib_md_t) (length flags : Nat) (log : List HwCall) (r : mem_alloc_out)
    (h : uct_ib_mem_alloc fuel cfg c hw md length flags log = some r)
    (p : Nat) (mh : uct_ib_mem_t) (hp : r.memh_p = some (p, mh)) :
    (mh.umr ≠ none ↔ engine_active cfg md) := by
  unfold uct_ib_mem_alloc uct_ib_memh_alloc at h
  by_cases hcfg : cfg.HAVE_DECL_IBV_EXP_ACCESS_ALLOCATE_MR = true
  · simp only [hcfg, if_true] at h
    cases hc : hw.ucs_calloc log with
    | none =>
      simp only [hc, Option.some.injEq] at h
      rw [← h] at hp
      cases hp
    | some ptr =>
      simp only [hc] at h
      by_cases hst : (uct_ib_md_reg_mr cfg c hw md 0 (hw.ucs_memtrack_adjust_alloc_size length)
          (uct_ib_md_access_flags c md flags (hw.ucs_memtrack_adjust_alloc_size length) |||
            c.IBV_EXP_ACCESS_ALLOCATE_MR)
          (log ++ [HwCall.ucs_calloc])).status = UCS_OK
      · obtain ⟨mr, hmr⟩ := reg_mr_ok_stores cfg c hw md 0 _ _ _ hst
        simp only [hst, hmr, ne_eq, not_true_eq_false, if_false, memh_zero] at h
        cases hcu : uct_ib_md_create_umr fuel cfg c hw md mr
            (uct_ib_md_reg_mr cfg c hw md 0 (hw.ucs_memtrack_adjust_alloc_size length)
              (uct_ib_md_access_flags c md flags
                (hw.ucs_memtrack_adjust_alloc_size length) |||
                c.IBV_EXP_ACCESS_ALLOCATE_MR)
              (log ++ [HwCall.ucs_calloc])).log with
        | none => simp [hcu] at h
        | some q =>
          obtain ⟨umr, log2⟩ := q
          simp only [hcu] at h
          by_cases hfail : (cfg.HAVE_EXP_UMR && (umr.isNone && md.umr_qp.isSome)) = true
          · simp only [hfail, if_true, Option.some.injEq] at h
            rw [← h] at hp
            cases hp
          · simp only [hfail, if_false] at h
            obtain ⟨pr, hpr⟩ := prefetch_returns cfg c hw md
              { lkey := mr.lkey, mr := some mr, umr := umr } mr
              (uct_ib_md_access_flags c md flags
                (hw.ucs_memtrack_adjust_alloc_size length) |||
                c.IBV_EXP_ACCESS_ALLOCATE_MR) log2 rfl
            rw [hpr] at h
            simp only [Bool.false_eq_true, if_false, Option.some.injEq] at h
            rw [← h] at hp
            simp only [Option.some.injEq, Prod.mk.injEq] at hp
            rw [← hp.2]
            simp only
            by_cases hact : engine_active cfg md
            · simp only [hact, iff_true]
              intro hu
              apply hfail
              obtain ⟨hcfg2, hqp, _⟩ := hact
              obtain ⟨qp, hqp⟩ := Option.ne_none_iff_exists'.mp hqp
              simp [hcfg2, hu, hqp]
            · simp only [hact, iff_false, ne_eq, not_not]
              rw [create_umr_not_active fuel cfg c hw md mr _ hact] at hcu
              simp only [Option.some.injEq, Prod.mk.injEq] at hcu
              exact hcu.1.symm
      · simp only [hst, ne_eq, not_false_eq_true, if_true, Option.some.injEq] at h
        rw [← h] at hp
        cases hp
  · simp only [hcfg, Bool.false_eq_true, if_false, Option.some.injEq] at h
    rw [← h] at hp
    cases hp

theorem open_success_engine (cfg : BuildConfig) (k : MdConsts) (env : OpenEnv)
    (log : List OpenCall) (md_name : List Char) (md_config : uct_ib_md_config_t)
    (enabled : Nat) (news : List OpenCall) (ptr : Nat) (md3 : uct_ib_md_t) (en : Nat)
    (h : open_success cfg k env log md_name md_config enabled news ptr md3 en) :
    (md3.umr_qp = none ∧ md3.umr_cq = none) ∨
      (cfg.HAVE_EXP_UMR = true ∧ md3.umr_qp ≠ none ∧ md3.umr_cq ≠ none) := by
  obtain ⟨md2, evs, hstep, hplain, _, _⟩ :=
    open_success_umr cfg k env log md_name md_config enabled news ptr md3 _ h
  obtain ⟨_, _, _, _, hoff, hon, _, _⟩ := hstep
  cases hcfg : cfg.HAVE_EXP_UMR with
  | false =>
    left
    rw [(hoff hcfg).1]
    exact hplain hcfg
  | true =>
    rcases hon hcfg with h1 | h1
    · exact Or.inl h1
    · exact Or.inr ⟨rfl, h1.1, h1.2.1⟩

/-- Claim C22: in the domain of a successful `uct_ib_md_open`, `umr_qp` and
`umr_cq` are both NULL or both set, both set only in a build with the
engine; hence the test of `uct_ib_md_create_umr` (`umr_qp == NULL ||
umr_cq == NULL`) holds exactly when `umr_qp == NULL`, the test of the callers.
In such a domain a successful `uct_ib_mem_reg_internal` leaves an indirect
key in the handle exactly when the engine is active, and so does a
successful `uct_ib_mem_alloc`; with an inactive engine
`uct_ib_mem_reg_internal` returns the status of the direct registration, and
`uct_ib_mem_alloc` succeeds whenever the handle allocation and the direct
registration succeed.  The domain is an argument that the registration,
allocation, deregistration, pack and query functions only read. -/
theorem engine_state_invariant (cfg : BuildConfig) (c : Consts) (k : MdConsts)
    (env : OpenEnv) (md_name : List Char) (md_config : uct_ib_md_config_t) (enabled : Nat)
    (log : List OpenCall)
    (hok : (uct_ib_md_open cfg c k env md_name md_config enabled log).status = UCS_OK) :
    ∃ ptr md, (uct_ib_md_open cfg c k env md_name md_config enabled log).md_p =
        some (ptr, md) ∧
      ((md.umr_qp = none ∧ md.umr_cq = none) ∨ (md.umr_qp ≠ none ∧ md.umr_cq ≠ none)) ∧
      (engine_active cfg md ∨ (md.umr_qp = none ∧ md.umr_cq = none)) ∧
      ((md.umr_qp = none ∨ md.umr_cq = none) ↔ md.umr_qp = none) ∧
      (∀ (hw : Extern) (fuel address length flags : Nat) (memh : uct_ib_mem_t)
          (hlog : List HwCall),
        (∀ r, uct_ib_mem_reg_internal fuel cfg c hw md address length flags memh hlog =
            some r →
          r.status = UCS_OK → (r.memh.umr ≠ none ↔ engine_active cfg md)) ∧
        (¬ engine_active cfg md →
          ∃ r, uct_ib_mem_reg_internal fuel cfg c hw md address length flags memh hlog =
              some r ∧
            r.status = (uct_ib_md_reg_mr cfg c hw md address length
              (uct_ib_md_access_flags c md flags length) hlog).status)) ∧
      (∀ (hw : Extern) (fuel length flags : Nat) (hlog : List HwCall),
        (∀ r p h, uct_ib_mem_alloc fuel cfg c hw md length flags hlog = some r →
          r.memh_p = some (p, h) → (h.umr ≠ none ↔ engine_active cfg md)) ∧
        (¬ engine_active cfg md →
          ∃ r, uct_ib_mem_alloc fuel cfg c hw md length flags hlog = some r ∧
            (cfg.HAVE_DECL_IBV_EXP_ACCESS_ALLOCATE_MR = true →
              hw.ucs_calloc hlog ≠ none →
              (uct_ib_md_reg_mr cfg c hw md 0 (hw.ucs_memtrack_adjust_alloc_size length)
                (uct_ib_md_access_flags c md flags
                    (hw.ucs_memtrack_adjust_alloc_size length) |||
                  c.IBV_EXP_ACCESS_ALLOCATE_MR)
                (hlog ++ [HwCall.ucs_calloc])).status = UCS_OK →
              r.status = UCS_OK))) := by
  obtain ⟨news, _, hcase⟩ := md_open_trace cfg c k env md_name md_config enabled log
  rcases hcase with ⟨hst, _, _⟩ | ⟨_, ptr, md, hmd, hs⟩
  · exact absurd hok hst
  have hinv := open_success_engine cfg k env log md_name md_config enabled news ptr md _ hs
  have hq : ¬ engine_active cfg md → md.umr_qp = none := by
    intro hna
    rcases hinv with h | h
    · exact h.1
    · exact absurd h hna
  refine ⟨ptr, md, hmd, ?_, ?_, ?_, ?_, ?_⟩
  · rcases hinv with h | h
    · exact Or.inl h
    · exact Or.inr h.2
  · rcases hinv with h | h
    · exact Or.inr h
    · exact Or.inl h
  · constructor
    · rintro (h | h)
      · exact h
      · rcases hinv with h2 | h2
        · exact h2.1
        · exact absurd h h2.2.2
    · exact Or.inl
  · intro hw fuel address length flags memh hlog
    refine ⟨fun r hr hs => reg_internal_ok_umr fuel cfg c hw md address length flags memh
      hlog r hr hs, fun hna => ?_⟩
    obtain ⟨r, hr, hst, _⟩ := reg_internal_inactive fuel cfg c hw md address length flags
      memh hlog (hq hna)
    exact ⟨r, hr, hst⟩
  · intro hw fuel length flags hlog
    refine ⟨fun r p h hr hp => mem_alloc_ok_umr fuel cfg c hw md length flags hlog r hr p h hp,
      fun hna => ?_⟩
    obtain ⟨r, hr, _, hst⟩ := mem_alloc_inactive fuel cfg c hw md length flags hlog (hq hna)
    exact ⟨r, hr, hst⟩

/-- Claim C22 after an open in which the setup of the engine failed: both
queue handles are NULL. -/
theorem engine_state_invariant_witness :
    ((uct_ib_md_open cfgFull verbsConsts mdConsts envRtrFail md_name_mlx5 config_default
        0 []).md_p.map fun x => (x.2.umr_qp, x.2.umr_cq)) = some (none, none) ∧
    ((uct_ib_md_open cfgFull verbsConsts mdConsts envOk md_name_mlx5 config_default
        0 []).md_p.map fun x => (x.2.umr_qp, x.2.umr_cq)) = some (some 3, some 4) ∧
    ∃ ptr md, (uct_ib_md_open cfgFull verbsConsts mdConsts envRtrFail md_name_mlx5
        config_default 0 []).md_p = some (ptr, md) ∧
      ((md.umr_qp = none ∧ md.umr_cq = none) ∨ (md.umr_qp ≠ none ∧ md.umr_cq ≠ none)) :=
  ⟨by decide, by decide,
   (engine_state_invariant cfgFull verbsConsts mdConsts envRtrFail md_name_mlx5 config_default
      0 [] (by decide)).imp fun _ h => h.imp fun _ h => ⟨h.1, h.2.1⟩⟩

/-! ## Callbacks of the cache -/

theorem memh_dereg_log (hw : Extern) (memh : uct_ib_mem_t) (log : List HwCall) :
    (uct_ib_memh_dereg hw memh log).2 =
      log ++ (memh.umr.toList ++ memh.mr.toList).map HwCall.ibv_dereg_mr := by
  unfold uct_ib_memh_dereg uct_ib_dereg_mr
  cases memh.umr <;> cases memh.mr <;> simp <;> split <;> simp <;> split <;> simp

/-- Claim C21: `uct_ib_mem_rcache_dereg` makes one call, the put of the
region that embeds the handle, releases no key, and returns `UCS_OK` for
every handle.  `uct_ib_rcache_mem_dereg_cb` releases the indirect key of the
embedded handle and then its direct key, whatever the releases answer, and
returns nothing.  `uct_ib_rcache_mem_reg_cb` returns when
`uct_ib_mem_reg_internal` does, applied to the start of the region, the
length `end - start`, the flags of the caller and the embedded handle; its
status is the status of that call and the keys are stored in the embedded
handle. -/
theorem rcache_callbacks_spec (cfg : BuildConfig) (c : Consts) (hw : Extern)
    (md : uct_ib_md_t) :
    (∀ (offsetof_memh region : Nat) (log : List RcacheCall),
      uct_ib_mem_rcache_dereg offsetof_memh md (region + offsetof_memh) log =
        (UCS_OK, log ++ [RcacheCall.ucs_rcache_region_put md.rcache region])) ∧
    (∀ (offsetof_memh memh : Nat) (log : List RcacheCall),
      (uct_ib_mem_rcache_dereg offsetof_memh md memh log).1 = UCS_OK ∧
      ∃ put, (uct_ib_mem_rcache_dereg offsetof_memh md memh log).2 = log ++ [put] ∧
        ∀ call, put ≠ RcacheCall.verbs call) ∧
    (∀ (region : uct_ib_rcache_region_t) (log : List HwCall),
      uct_ib_rcache_mem_dereg_cb hw region log =
        log ++ (region.memh.umr.toList ++ region.memh.mr.toList).map HwCall.ibv_dereg_mr) ∧
    (∀ (fuel flags : Nat) (region : uct_ib_rcache_region_t) (log : List HwCall),
      region.super.start ≤ region.super.end_ → region.super.end_ < 2 ^ 64 →
      uct_ib_rcache_mem_reg_cb fuel cfg c hw md flags region log =
        (uct_ib_mem_reg_internal fuel cfg c hw md region.super.start
          (region.super.end_ - region.super.start) flags region.memh log).map
          fun r => (r.status, { region with memh := r.memh }, r.log)) := by
  refine ⟨fun off region log => ?_, fun off memh log => ⟨rfl, _, rfl, fun call h => ?_⟩,
    fun region log => ?_, fun fuel flags region log hle hlt => ?_⟩
  · simp [uct_ib_mem_rcache_dereg, uct_ib_rache_region_from_memh]
  · cases h
  · unfold uct_ib_rcache_mem_dereg_cb uct_ib_mem_dereg_internal
    exact memh_dereg_log hw region.memh log
  · have hlen : (region.super.end_ + 2 ^ 64 - region.super.start) % 2 ^ 64 =
        region.super.end_ - region.super.start := by
      omega
    unfold uct_ib_rcache_mem_reg_cb
    rw [hlen]
    cases hr : uct_ib_mem_reg_internal fuel cfg c hw md region.super.start
        (region.super.end_ - region.super.start) flags region.memh log with
    | none => rfl
    | some r =>
      simp only [Option.map_some']
      by_cases hst : r.status = UCS_OK
      · simp [hst]
      · simp [hst]

/-- Claim C21 at the region `region0` in the environment `hwOk`: the on-miss
callback registers the range of 8192 bytes at 4096 and stores the key; the
eviction callback then releases it, also when the release fails. -/
theorem rcache_callbacks_spec_witness :
    uct_ib_rcache_mem_reg_cb 1 cfgFull verbsConsts hwOk mdInactive 0 region0 [] =
      some (UCS_OK, { region0 with memh := memh_direct }, [HwCall.ibv_reg_mr 7 4096 8192 15]) ∧
    uct_ib_rcache_mem_dereg_cb hwDeregFail { region0 with memh := memh_both } [] =
      [HwCall.ibv_dereg_mr umr0, HwCall.ibv_dereg_mr mr0] ∧
    uct_ib_rcache_mem_reg_cb 1 cfgFull verbsConsts hwOk mdInactive 0 region0 [] =
      (uct_ib_mem_reg_internal 1 cfgFull verbsConsts hwOk mdInactive 4096 (12288 - 4096) 0
        memh_zero []).map fun r => (r.status, { region0 with memh := r.memh }, r.log) :=
  ⟨by decide, by decide,
   (rcache_callbacks_spec cfgFull verbsConsts hwOk mdInactive).2.2.2 1 0 region0 []
     (by decide) (by decide)⟩

end UctIbMd
